import Mathlib

/-!
# Azure container networking: CNS API records, process lock, NPM pod controller

A shallow embedding of

* `cns/api.go` : `IPConfigurationStatus` and its custom `UnmarshalJSON`;
* `processlock/processlock.go` : `NewFileLock`, `fileLock.AcquireLock`,
  `fileLock.ReleaseLock`;
* the NPM pod controller exercised by
  `npm/pkg/controlplane/controllers/v2/podController_test.go`;
* the host-call scripts of `npm/pkg/dataplane/dataplane_test.go`;
* `network/hnswrapper/hnsv2wrapperfake.go` : `Hnsv2wrapperFake`.

Go errors are modelled by their message, Go `map`s by association lists, and a
method with a pointer receiver by a function returning the receiver after the call.
The string fields of the CNS record are Go strings, sequences of bytes; a JSON
string is Unicode text.
-/

set_option autoImplicit false
set_option linter.dupNamespace false

/-- A Go `error` value, identified by the text `err.Error()` returns;
    Go's `nil` error is `Option.none` in results of type `Option GoError`. -/
structure GoError where
  msg : String
deriving DecidableEq, Repr

/-- Result of `errors.Wrap(err, message)` from `github.com/pkg/errors`:
    the message becomes `message: <err>`. -/
def GoError.Wrap (err : GoError) (message : String) : GoError :=
  ⟨message ++ ": " ++ err.msg⟩

/-! ## Go strings and UTF-8 (`unicode/utf8`) -/

namespace utf8

/-- The bytes `utf8.AppendRune` writes for a character: one to four bytes. -/
def EncodeRune (c : Char) : List Nat :=
  if c.toNat < 128 then [c.toNat]
  else if c.toNat < 2048 then [192 + c.toNat / 64, 128 + c.toNat % 64]
  else if c.toNat < 65536 then
    [224 + c.toNat / 4096, 128 + c.toNat / 64 % 64, 128 + c.toNat % 64]
  else
    [240 + c.toNat / 262144, 128 + c.toNat / 4096 % 64, 128 + c.toNat / 64 % 64,
      128 + c.toNat % 64]

/-- The UTF-8 bytes of a text. -/
def Encode (s : List Char) : List Nat := s.flatMap EncodeRune

/-- The tables `first` and `acceptRanges` of `unicode/utf8`: for a leading byte,
    the length of its sequence and the range its second byte must lie in; `none`
    for a byte that cannot lead a sequence of two to four bytes. -/
def first (p0 : Nat) : Option (Nat × Nat × Nat) :=
  if 194 ≤ p0 ∧ p0 ≤ 223 then some (2, 128, 191)
  else if p0 = 224 then some (3, 160, 191)
  else if p0 = 237 then some (3, 128, 159)
  else if 225 ≤ p0 ∧ p0 ≤ 239 then some (3, 128, 191)
  else if p0 = 240 then some (4, 144, 191)
  else if p0 = 244 then some (4, 128, 143)
  else if 241 ≤ p0 ∧ p0 ≤ 243 then some (4, 128, 191)
  else none

/-- `utf8.RuneError`, the replacement character U+FFFD. -/
def RuneError : Char := Char.ofNat 65533

/-- `utf8.DecodeRune`: the first character of the bytes and its width; bytes
    that do not start a well-formed sequence give `RuneError` with width 1. -/
def DecodeRune : List Nat → Char × Nat
  | [] => (RuneError, 0)
  | p0 :: rest =>
    if p0 < 128 then (Char.ofNat p0, 1)
    else
      match first p0, rest with
      | some (2, lo, hi), b1 :: _ =>
        if lo ≤ b1 ∧ b1 ≤ hi then (Char.ofNat (p0 % 32 * 64 + b1 % 64), 2)
        else (RuneError, 1)
      | some (3, lo, hi), b1 :: b2 :: _ =>
        if lo ≤ b1 ∧ b1 ≤ hi ∧ 128 ≤ b2 ∧ b2 ≤ 191 then
          (Char.ofNat (p0 % 16 * 4096 + b1 % 64 * 64 + b2 % 64), 3)
        else (RuneError, 1)
      | some (4, lo, hi), b1 :: b2 :: b3 :: _ =>
        if lo ≤ b1 ∧ b1 ≤ hi ∧ 128 ≤ b2 ∧ b2 ≤ 191 ∧ 128 ≤ b3 ∧ b3 ≤ 191 then
          (Char.ofNat (p0 % 8 * 262144 + b1 % 64 * 4096 + b2 % 64 * 64 + b3 % 64), 4)
        else (RuneError, 1)
      | _, _ => (RuneError, 1)

/-- The characters `DecodeRune` finds from left to right, each call starting
    where the one before stopped; `fuel` bounds the number of calls and the
    number of bytes is always enough. -/
def decodeRunes : Nat → List Nat → List Char
  | 0, _ => []
  | _ + 1, [] => []
  | fuel + 1, p0 :: rest =>
    (DecodeRune (p0 :: rest)).1 ::
      decodeRunes fuel ((p0 :: rest).drop (DecodeRune (p0 :: rest)).2)

/-- The text of a byte string as a Go `range` loop and `encoding/json` read it:
    every byte that is not part of well-formed UTF-8 counts as U+FFFD. -/
def DecodeLossy (p : List Nat) : List Char := decodeRunes p.length p

/-- The loop of `utf8.Valid`: every position `DecodeRune` is called at starts a
    well-formed sequence, that is, the call does not return `RuneError` with
    width 1; `fuel` bounds the number of calls. -/
def validRunes : Nat → List Nat → Bool
  | 0, p => p.isEmpty
  | _ + 1, [] => true
  | fuel + 1, p0 :: rest =>
    decide (DecodeRune (p0 :: rest) ≠ (RuneError, 1)) &&
      validRunes fuel ((p0 :: rest).drop (DecodeRune (p0 :: rest)).2)

/-- `utf8.Valid`: whether the bytes are well-formed UTF-8 throughout. -/
def Valid (p : List Nat) : Bool := validRunes p.length p

end utf8

/-- A Go `string`: a sequence of bytes, which need not be valid UTF-8. -/
structure GoString where
  bytes : List Nat
deriving DecidableEq, Repr

/-- The Go string that holds a text: its UTF-8 bytes. It is what `json.Unmarshal`
    stores for a JSON string, and what a string literal of the source denotes. -/
def GoString.ofText (s : String) : GoString := ⟨utf8.Encode s.data⟩

instance : Coe String GoString := ⟨GoString.ofText⟩

/-- The text `json.Marshal` writes for a Go string (before escaping): each byte
    that is not valid UTF-8 is replaced by U+FFFD. -/
def GoString.toText (g : GoString) : String := ⟨utf8.DecodeLossy g.bytes⟩

/-- Whether a Go string is valid UTF-8 (`utf8.ValidString`). -/
def GoString.ValidUTF8 (g : GoString) : Bool := utf8.Valid g.bytes

/-! ## encoding/json values -/

/-- A well-formed JSON text, as the decoder of `encoding/json` sees it.
    A `json.RawMessage` cut out of a well-formed document is such a value.
    Object members keep the order and the duplicates of the text. A JSON string
    is Unicode text: the encoder writes a Go string as `GoString.toText` and the
    decoder stores a JSON string as `GoString.ofText`. -/
inductive JSON where
  | null
  | bool (b : Bool)
  | num (literal : String)
  | str (s : String)
  | arr (items : List JSON)
  | obj (members : List (String × JSON))

namespace JSON

/-- The word `encoding/json` uses for a value in an `UnmarshalTypeError`. -/
def kind : JSON → String
  | null => "null"
  | bool _ => "bool"
  | num _ => "number"
  | str _ => "string"
  | arr _ => "array"
  | obj _ => "object"

/-- An `UnmarshalTypeError` of `encoding/json`: value `v` does not fit Go type `goType`. -/
def typeError (v : JSON) (goType : String) : GoError :=
  ⟨"json: cannot unmarshal " ++ v.kind ++ " into Go value of type " ++ goType⟩

/-- Lookup in the `map[string]json.RawMessage` that `json.Unmarshal` fills from the
    members of an object: keys are compared exactly, and a later member with the
    same key overwrites an earlier one. -/
def rawMapGet (key : String) : List (String × JSON) → Option JSON
  | [] => none
  | (k, v) :: rest =>
    match rawMapGet key rest with
    | some w => some w
    | none => if k = key then some v else none

/-- `json.Unmarshal(b, &m)` for `m := map[string]json.RawMessage{}`.
    The argument is what parsing `b` gives: a syntax error or a JSON value.
    `null` leaves no entry, an object gives its members, any other value is an
    `UnmarshalTypeError`. The result is the list of members behind the map. -/
def unmarshalRawMap : Except GoError JSON → Except GoError (List (String × JSON))
  | .error e => .error e
  | .ok null => .ok []
  | .ok (obj members) => .ok members
  | .ok v => .error (typeError v "map[string]json.RawMessage")

/-- `json.Unmarshal(s, &x)` for a destination `x` of string kind whose Go type is
    called `goType`: a JSON string is stored, `null` leaves `x` as it was, every
    other value is an `UnmarshalTypeError` and leaves `x` as it was. -/
def unmarshalString (goType : String) (s : JSON) (x : GoString) : Except GoError GoString :=
  match s with
  | str v => .ok (GoString.ofText v)
  | null => .ok x
  | v => .error (typeError v goType)

/-- A hexadecimal digit in lower case, as `encoding/json` writes it. -/
def hexDigit (n : Nat) : Char := if n < 10 then Char.ofNat (48 + n) else Char.ofNat (87 + n)

/-- One character of a string as `json.Marshal` writes it: the quote and the
    backslash get a backslash, line feed, carriage return and tab their letter,
    and the other control characters, `<`, `>`, `&`, U+2028 and U+2029 the form
    `\u` with four hexadecimal digits. -/
def escapeChar (c : Char) : List Char :=
  if c = Char.ofNat 34 then [Char.ofNat 92, Char.ofNat 34]
  else if c = Char.ofNat 92 then [Char.ofNat 92, Char.ofNat 92]
  else if c = Char.ofNat 10 then [Char.ofNat 92, 'n']
  else if c = Char.ofNat 13 then [Char.ofNat 92, 'r']
  else if c = Char.ofNat 9 then [Char.ofNat 92, 't']
  else if c.toNat < 32 ∨ c = '<' ∨ c = '>' ∨ c = '&' ∨ c.toNat = 8232 ∨ c.toNat = 8233 then
    [Char.ofNat 92, 'u', hexDigit (c.toNat / 4096 % 16), hexDigit (c.toNat / 256 % 16),
      hexDigit (c.toNat / 16 % 16), hexDigit (c.toNat % 16)]
  else [c]

/-- A string between quotes, as `json.Marshal` writes it. -/
def quoted (s : String) : List Char :=
  Char.ofNat 34 :: s.data.flatMap escapeChar ++ [Char.ofNat 34]

mutual
/-- The compact text `json.Marshal` writes for a value: no blank, members and
    items between commas. -/
def chars : JSON → List Char
  | null => "null".data
  | bool b => if b then "true".data else "false".data
  | num literal => literal.data
  | str s => quoted s
  | arr items => '[' :: itemsChars items ++ [']']
  | obj members => Char.ofNat 123 :: membersChars members ++ [Char.ofNat 125]
/-- The items of an array, between commas. -/
def itemsChars : List JSON → List Char
  | [] => []
  | [v] => chars v
  | v :: w :: rest => chars v ++ ',' :: itemsChars (w :: rest)
/-- The members of an object, between commas. -/
def membersChars : List (String × JSON) → List Char
  | [] => []
  | [(k, v)] => quoted k ++ ':' :: chars v
  | (k, v) :: e :: rest => quoted k ++ ':' :: chars v ++ ',' :: membersChars (e :: rest)
end

/-- The bytes of `json.Marshal`, as text. -/
def render (v : JSON) : String := ⟨chars v⟩

/-- One entry put into the entries of a Go map that are sorted by key; an entry
    with the same key is replaced. -/
def insertEntry {α : Type} (k : String) (v : α) : List (String × α) → List (String × α)
  | [] => [(k, v)]
  | (k2, v2) :: rest =>
    if k < k2 then (k, v) :: (k2, v2) :: rest
    else if k = k2 then (k, v) :: rest
    else (k2, v2) :: insertEntry k v rest

/-- The entries of a Go map in the order `json.Marshal` writes them, sorted by
    key. The map is an association list in which the first entry of a key is the
    one a lookup finds. -/
def mapEntries {α : Type} (m : List (String × α)) : List (String × α) :=
  m.foldr (fun e acc => insertEntry e.1 e.2 acc) []

end JSON

/-! ## cns/api.go -/

namespace cns

/-- Modelled from the spec: the declaration of `IPConfigState` is missing from
    `api.go`. Spec 3.1 gives its values by name (`Available`, `PendingProgramming`,
    `Allocated`, `PendingRelease`) and `IPConfigurationStatus.String` prints it
    with `%s`, so it is taken to be a type of string kind. -/
abbrev IPConfigState := GoString

/-- Modelled from the spec: state name of spec 3.1. -/
def Available : IPConfigState := GoString.ofText "Available"
/-- Modelled from the spec: state name of spec 3.1. -/
def PendingProgramming : IPConfigState := GoString.ofText "PendingProgramming"
/-- Modelled from the spec: state name of spec 3.1. -/
def Allocated : IPConfigState := GoString.ofText "Allocated"
/-- Modelled from the spec: state name of spec 3.1. -/
def PendingRelease : IPConfigState := GoString.ofText "PendingRelease"

/-- The struct `IPConfigurationStatus` (api.go:53-59). `PodInfo` is a Go interface
    whose declaration is not in `api.go`: `P` is the type of its non-nil dynamic
    values and `none` is the nil interface. -/
structure IPConfigurationStatus (P : Type) where
  NCID : GoString
  ID : GoString
  IPAddress : GoString
  State : IPConfigState
  PodInfo : Option P

/-- The zero value of the struct. -/
def IPConfigurationStatus.zero (P : Type) : IPConfigurationStatus P :=
  { NCID := "", ID := "", IPAddress := "", State := "", PodInfo := none }

/-- `json.Marshal` of a value held in the `PodInfo` interface field: a nil
    interface is `null`, a non-nil one is encoded by its dynamic type, which is
    the parameter `marshalPodInfo`. -/
def marshalPodInfoField {P : Type} (marshalPodInfo : P → JSON) : Option P → JSON
  | none => JSON.null
  | some p => marshalPodInfo p

/-- `json.Marshal` of an `IPConfigurationStatus`: the struct has no marshaller of
    its own and no field tags, so it is the object of its five fields in
    declaration order; a string field is written as its text, the bytes that are
    not valid UTF-8 replaced by U+FFFD. The value is the JSON document the bytes
    of `json.Marshal` spell, which is what `json.Unmarshal` reads from them. -/
def IPConfigurationStatus.Marshal {P : Type} (marshalPodInfo : P → JSON)
    (i : IPConfigurationStatus P) : JSON :=
  JSON.obj [("NCID", JSON.str i.NCID.toText), ("ID", JSON.str i.ID.toText),
    ("IPAddress", JSON.str i.IPAddress.toText), ("State", JSON.str i.State.toText),
    ("PodInfo", marshalPodInfoField marshalPodInfo i.PodInfo)]

/-- `IPConfigurationStatus.UnmarshalJSON` (api.go:70-103). `UnmarshalPodInfo` is
    defined outside `api.go` and is a parameter: it gives an error or the
    interface value to store. `b` is the parse of the input bytes. The result is
    the returned error (`none` for nil) and the receiver after the call. -/
def IPConfigurationStatus.UnmarshalJSON {P : Type}
    (UnmarshalPodInfo : JSON → Except GoError (Option P))
    (i : IPConfigurationStatus P) (b : Except GoError JSON) :
    Option GoError × IPConfigurationStatus P :=
  match JSON.unmarshalRawMap b with
  | .error err => (some err, i)
  | .ok m =>
    match (match JSON.rawMapGet "NCID" m with
           | some s => JSON.unmarshalString "string" s i.NCID
           | none => .ok i.NCID) with
    | .error err => (some err, i)
    | .ok ncid =>
      let i := { i with NCID := ncid }
      match (match JSON.rawMapGet "ID" m with
             | some s => JSON.unmarshalString "string" s i.ID
             | none => .ok i.ID) with
      | .error err => (some err, i)
      | .ok id =>
        let i := { i with ID := id }
        match (match JSON.rawMapGet "IPAddress" m with
               | some s => JSON.unmarshalString "string" s i.IPAddress
               | none => .ok i.IPAddress) with
        | .error err => (some err, i)
        | .ok ip =>
          let i := { i with IPAddress := ip }
          match (match JSON.rawMapGet "State" m with
                 | some s => JSON.unmarshalString "cns.IPConfigState" s i.State
                 | none => .ok i.State) with
          | .error err => (some err, i)
          | .ok st =>
            let i := { i with State := st }
            match JSON.rawMapGet "PodInfo" m with
            | some s =>
              match UnmarshalPodInfo s with
              | .error err => (some err, i)
              | .ok pi => (none, { i with PodInfo := pi })
            | none => (none, i)

/-- A value a JSON field of string kind accepts: a string or `null`. -/
def stringOrNull : JSON → Bool
  | JSON.str _ => true
  | JSON.null => true
  | _ => false

/-- An instance of the `UnmarshalPodInfo` parameter used to evaluate the model on
    concrete inputs: the pod information is a pod key, encoded as a JSON string;
    `null` is the nil interface. -/
def keyUnmarshalPodInfo : JSON → Except GoError (Option String)
  | JSON.null => .ok none
  | JSON.str s => .ok (some s)
  | v => .error (JSON.typeError v "cns.PodInfo")

/-- An instance of the `UnmarshalPodInfo` parameter of the usual Go shape,
    `p := &podInfo{}; err := json.Unmarshal(b, p); return p, err`: the value is
    decoded into a fresh one and the pointer to it is returned, so that `null`,
    which `json.Unmarshal` takes without touching its destination, gives the
    zero value and not the nil interface. The pod information is a pod key. -/
def freshUnmarshalPodInfo : JSON → Except GoError (Option String)
  | JSON.null => .ok (some "")
  | JSON.str s => .ok (some s)
  | v => .error (JSON.typeError v "cns.podInfo")

/-- The value a string field holds after its key was looked up in the raw map and,
    when present, decoded: used to state what `UnmarshalJSON` leaves in a field. -/
def fieldAfter (goType key : String) (m : List (String × JSON)) (x : GoString) :
    Except GoError GoString :=
  match JSON.rawMapGet key m with
  | some s => JSON.unmarshalString goType s x
  | none => .ok x

/-- The keys `UnmarshalJSON` looks up in the raw map (api.go:75-101), in the order
    of the lookups. -/
def unmarshalKeys : List String := ["NCID", "ID", "IPAddress", "State", "PodInfo"]

/-! ### Path constants (api.go:16-35) -/

/-- `SetEnvironmentPath` (api.go:18). -/
def SetEnvironmentPath : String := "/network/environment"
/-- `CreateNetworkPath` (api.go:19). -/
def CreateNetworkPath : String := "/network/create"
/-- `DeleteNetworkPath` (api.go:20). -/
def DeleteNetworkPath : String := "/network/delete"
/-- `CreateHnsNetworkPath` (api.go:21). -/
def CreateHnsNetworkPath : String := "/network/hns/create"
/-- `DeleteHnsNetworkPath` (api.go:22). -/
def DeleteHnsNetworkPath : String := "/network/hns/delete"
/-- `ReserveIPAddressPath` (api.go:23). -/
def ReserveIPAddressPath : String := "/network/ip/reserve"
/-- `ReleaseIPAddressPath` (api.go:24). -/
def ReleaseIPAddressPath : String := "/network/ip/release"
/-- `GetHostLocalIPPath` (api.go:25). -/
def GetHostLocalIPPath : String := "/network/ip/hostlocal"
/-- `GetIPAddressUtilizationPath` (api.go:26). -/
def GetIPAddressUtilizationPath : String := "/network/ip/utilization"
/-- `GetUnhealthyIPAddressesPath` (api.go:27). -/
def GetUnhealthyIPAddressesPath : String := "/network/ipaddresses/unhealthy"
/-- `GetHealthReportPath` (api.go:28). -/
def GetHealthReportPath : String := "/network/health"
/-- `NumberOfCPUCoresPath` (api.go:29). -/
def NumberOfCPUCoresPath : String := "/hostcpucores"
/-- `CreateHostNCApipaEndpointPath` (api.go:30). -/
def CreateHostNCApipaEndpointPath : String := "/network/createhostncapipaendpoint"
/-- `DeleteHostNCApipaEndpointPath` (api.go:31). -/
def DeleteHostNCApipaEndpointPath : String := "/network/deletehostncapipaendpoint"
/-- `NmAgentSupportedApisPath` (api.go:32). -/
def NmAgentSupportedApisPath : String := "/network/nmagentsupportedapis"
/-- `V1Prefix` (api.go:33). -/
def V1Prefix : String := "/v0.1"
/-- `V2Prefix` (api.go:34). -/
def V2Prefix : String := "/v0.2"

/-- The fifteen path constants of api.go:18-32, in the order of their declaration. -/
def pathConstants : List String :=
  [SetEnvironmentPath, CreateNetworkPath, DeleteNetworkPath, CreateHnsNetworkPath,
   DeleteHnsNetworkPath, ReserveIPAddressPath, ReleaseIPAddressPath, GetHostLocalIPPath,
   GetIPAddressUtilizationPath, GetUnhealthyIPAddressesPath, GetHealthReportPath,
   NumberOfCPUCoresPath, CreateHostNCApipaEndpointPath, DeleteHostNCApipaEndpointPath,
   NmAgentSupportedApisPath]

/-- The paths spec 6.1 enumerates, in the order of the spec. -/
def specPaths : List String :=
  ["/network/environment", "/network/create", "/network/delete", "/network/hns/create",
   "/network/hns/delete", "/network/ip/reserve", "/network/ip/release",
   "/network/ip/hostlocal", "/network/ip/utilization", "/network/ipaddresses/unhealthy",
   "/network/health", "/hostcpucores", "/network/createhostncapipaendpoint",
   "/network/deletehostncapipaendpoint", "/network/nmagentsupportedapis"]

/-- The version prefixes spec 6.1 names. -/
def specPrefixes : List String := ["/v0.1", "/v0.2"]

/-! ### The invariant between State and PodInfo (spec 3.1, 8) -/

/-- The invariant of spec 3.1: `state = Allocated` iff `podInfo` is not empty. -/
def IPConfigurationStatus.allocatedIffPodInfo {P : Type} (r : IPConfigurationStatus P) : Prop :=
  r.State = Allocated ↔ r.PodInfo ≠ none

/-- The state a JSON object gives: the string under "State", empty if the key is
    absent or its value is not a string. -/
def stateInInput (m : List (String × JSON)) : IPConfigState :=
  match JSON.rawMapGet "State" m with
  | some (JSON.str v) => GoString.ofText v
  | _ => GoString.ofText ""

/-- The pod information a JSON object gives: what `UnmarshalPodInfo` returns for
    the value under "PodInfo"; nil if the key is absent or the decoder fails. -/
def podInfoInInput {P : Type} (UnmarshalPodInfo : JSON → Except GoError (Option P))
    (m : List (String × JSON)) : Option P :=
  match JSON.rawMapGet "PodInfo" m with
  | some raw =>
    match UnmarshalPodInfo raw with
    | .ok pi => pi
    | .error _ => none
  | none => none

/-! ### The IPAM pool monitor (spec 4.H) -/

/-- Modelled from the spec: the pool monitor behind the interface `IPAMPoolMonitor`
    (api.go:216-220); its code is not among the sources. The fields are the
    parameters of spec 4.H, the number of IP records in each state (the lengths
    of what `GetAvailableIPConfigs`, `GetAllocatedIPConfigs`,
    `GetPendingProgramIPConfigs`, `GetPendingReleaseIPConfigs` return), the
    `requestedIPCount` of the NNC spec, and whether a request is outstanding,
    the NNC status not having caught up with the spec. -/
structure PoolMonitor where
  batchSize : Nat
  minFreePercent : Nat
  maxFreePercent : Nat
  available : Nat
  allocated : Nat
  pendingProgramming : Nat
  pendingRelease : Nat
  requestedIPCount : Nat
  requestOutstanding : Bool
deriving DecidableEq, Repr

/-- Modelled from the spec: `freeIPs = |Available| + |PendingProgramming|`. -/
def PoolMonitor.freeIPs (m : PoolMonitor) : Nat := m.available + m.pendingProgramming

/-- Modelled from the spec: `totalIPs = |Available| + |Allocated| + |PendingProgramming|`. -/
def PoolMonitor.totalIPs (m : PoolMonitor) : Nat :=
  m.available + m.allocated + m.pendingProgramming

/-- Modelled from the spec: `minFree = ceil(batchSize × minFreePercent / 100)`. -/
def PoolMonitor.minFree (m : PoolMonitor) : Nat :=
  Nat.ceil (((m.batchSize : ℚ) * (m.minFreePercent : ℚ)) / 100)

/-- Modelled from the spec: `maxFree = ceil(batchSize × maxFreePercent / 100)`. -/
def PoolMonitor.maxFree (m : PoolMonitor) : Nat :=
  Nat.ceil (((m.batchSize : ℚ) * (m.maxFreePercent : ℚ)) / 100)

/-- Modelled from the spec: the count an expansion asks for,
    `ceil(|Allocated| / batchSize + 1) × batchSize`. -/
def PoolMonitor.expansionTarget (m : PoolMonitor) : Nat :=
  Nat.ceil ((m.allocated : ℚ) / (m.batchSize : ℚ) + 1) * m.batchSize

/-- Modelled from the spec: decision 1 of a cycle (spec 4.H): if `freeIPs < minFree`
    the monitor writes the expansion target to the NNC spec, which makes a
    request outstanding; it does not request while a prior request is
    outstanding. Decisions 2 and 3 come into play only when this one does not. -/
def PoolMonitor.requestExpansion (m : PoolMonitor) : PoolMonitor :=
  if m.requestOutstanding then m
  else if m.freeIPs < m.minFree then
    { m with requestedIPCount := m.expansionTarget, requestOutstanding := true }
  else m

/-- The state of scenario 5 of spec 8: `batchSize = 16`, `minFreePercent = 50`,
    `maxFreePercent = 100`, 2 available and 14 allocated IPs, the 16 IPs of the
    status matching the request. -/
def poolExpandScenario : PoolMonitor :=
  { batchSize := 16, minFreePercent := 50, maxFreePercent := 100, available := 2,
    allocated := 14, pendingProgramming := 0, pendingRelease := 0, requestedIPCount := 16,
    requestOutstanding := false }

/-- The state of scenario 6 of spec 8: the same parameters, 20 available and 4
    allocated IPs. -/
def poolContractScenario : PoolMonitor :=
  { batchSize := 16, minFreePercent := 50, maxFreePercent := 100, available := 20,
    allocated := 4, pendingProgramming := 0, pendingRelease := 0, requestedIPCount := 24,
    requestOutstanding := false }

end cns

/-! ## processlock/processlock.go -/

namespace processlock

/-- The character of a decimal digit `d < 10`. -/
def digitChar (d : Nat) : Char := Char.ofNat (48 + d)

/-- Decimal digits of `n`, most significant first, put in front of `acc`;
    `fuel` bounds the number of digits and `n + 1` is always enough. -/
def digitsAux : Nat → Nat → List Char → List Char
  | 0, _, acc => acc
  | fuel + 1, n, acc =>
    if n < 10 then digitChar n :: acc
    else digitsAux fuel (n / 10) (digitChar (n % 10) :: acc)

/-- `strconv.Itoa` on a number that is not negative, as a process id is. -/
def Itoa (n : Nat) : String := ⟨digitsAux (n + 1) n []⟩

/-- The value of a decimal digit character. -/
def digitVal (c : Char) : Option Nat :=
  if 48 ≤ c.toNat ∧ c.toNat ≤ 57 then some (c.toNat - 48) else none

/-- Reads decimal digits from left to right onto the accumulator `acc`. -/
def parseDigits : List Char → Nat → Option Nat
  | [], acc => some acc
  | c :: cs, acc =>
    match digitVal c with
    | some d => parseDigits cs (acc * 10 + d)
    | none => none

/-- `strconv.Atoi`: an optional sign followed by at least one decimal digit;
    `none` stands for its syntax error. The range check of the machine `int` is
    left out. -/
def Atoi (s : String) : Option Int :=
  match s.data with
  | [] => none
  | c :: cs =>
    if c = '-' then
      (if cs = [] then none else (parseDigits cs 0).map (fun n => -(n : Int)))
    else if c = '+' then
      (if cs = [] then none else (parseDigits cs 0).map (fun n => (n : Int)))
    else (parseDigits (c :: cs) 0).map (fun n => (n : Int))

/-- Whether the characters `sub` occur as a contiguous run in the given list. -/
def hasInfix : List Char → List Char → Bool
  | [], sub => sub.isEmpty
  | c :: cs, sub => sub.isPrefixOf (c :: cs) || hasInfix cs sub

/-- `strings.Contains(s, substr)`. -/
def stringsContains (s substr : String) : Bool := hasInfix s.data substr.data

/-- `ErrEmptyFilePath` (processlock.go:16). -/
def ErrEmptyFilePath : GoError := ⟨"Empty file path"⟩

/-- `ErrInvalidFile` (processlock.go:17). -/
def ErrInvalidFile : GoError := ⟨"Invalid File pointer"⟩

/-- `fs.ErrClosed` of the Go standard library. -/
def fsErrClosed : GoError := ⟨"file already closed"⟩

/-- A `*fs.PathError`: its message is `op path: err`. -/
def pathError (op path : String) (err : GoError) : GoError :=
  ⟨op ++ " " ++ path ++ ": " ++ err.msg⟩

/-- Modelled from the spec: package `internal/lockedfile` is missing from the
    sources; spec 6.3 only says that state files are protected by a file lock.
    This is the `lockedfile.File` a `fileLock` points to: an open handle on the
    file called `name` that holds the file lock until it is closed. -/
structure File where
  name : String
  closed : Bool
deriving DecidableEq, Repr

/-- The struct `fileLock` (processlock.go:26-29); `file = none` is the nil pointer. -/
structure fileLock where
  filePath : String
  file : Option File
deriving DecidableEq, Repr

/-- The part of the operating system the lock touches: the content of each
    existing file, the id of the running process, and for each kind of system
    call the error it meets, if any. -/
structure Host where
  files : List (String × String)
  pid : Nat
  createErr : Option GoError
  writeErr : Option GoError
  closeErr : Option GoError
  /-- Directories `os.MkdirAll` has been asked for and that exist. -/
  dirs : List String := []
  /-- The error `os.MkdirAll` meets, if any. -/
  mkdirErr : Option GoError := none
deriving DecidableEq, Repr

/-- Content of the file at `path` (`ioutil.ReadFile`); `none` if there is no such file. -/
def Host.readFile (h : Host) (path : String) : Option String :=
  (h.files.find? (fun e => e.1 = path)).map (fun e => e.2)

/-- The files after the file at `path` got the given content. -/
def Host.withFile (h : Host) (path content : String) : Host :=
  { h with files := (path, content) :: h.files.filter (fun e => e.1 ≠ path) }

/-- Modelled from the spec: `lockedfile.Create` is missing from the sources. As
    `os.Create` does, and as `TestFileLock` relies on for a file that exists, it
    creates the file or cuts it to length zero, and it returns the handle
    holding the lock. The wait for a lock held elsewhere is not modelled: the
    call is described from the moment the lock is granted. -/
def lockedfileCreate (name : String) (h : Host) : Except GoError File × Host :=
  match h.createErr with
  | some err => (.error err, h)
  | none => (.ok { name := name, closed := false }, h.withFile name "")

/-- Modelled from the spec: `lockedfile.File.WriteString` is missing from the
    sources. It appends at the position of the handle, which is the end of what
    the handle wrote so far; on a closed handle it fails with `fs.ErrClosed`. -/
def File.WriteString (f : File) (s : String) (h : Host) : Option GoError × Host :=
  if f.closed then (some (pathError "write" f.name fsErrClosed), h)
  else
    match h.writeErr with
    | some err => (some err, h)
    | none => (none, h.withFile f.name (((h.readFile f.name).getD "") ++ s))

/-- Modelled from the spec: `lockedfile.File.Close` is missing from the sources.
    It drops the lock and closes the handle; a second call fails with a path
    error around `fs.ErrClosed`, as closing a closed `os.File` does. -/
def File.Close (f : File) (h : Host) : Option GoError × File × Host :=
  if f.closed then (some (pathError "close" f.name fsErrClosed), f, h)
  else (h.closeErr, { f with closed := true }, h)

/-- The part of a path up to and including its last separator, `path[:i+1]` in
    `filepath.Dir`; empty when the path has no separator. -/
def dirPrefix (path : List Char) : List Char :=
  (path.reverse.dropWhile (fun c => c ≠ '/')).reverse

/-- The elements of a slash-separated path, the empty ones included. -/
def splitSlash : List Char → List (List Char)
  | [] => [[]]
  | c :: cs =>
    if c = '/' then [] :: splitSlash cs
    else
      match splitSlash cs with
      | [] => [[c]]
      | e :: es => (c :: e) :: es

/-- One element met by `filepath.Clean`; `out` holds the elements kept so far, the
    last one first. Empty elements and `.` are dropped; `..` takes back the
    element before it, is dropped at the root, and is kept at the start of a
    relative path. -/
def cleanStep (rooted : Bool) (out : List (List Char)) (e : List Char) : List (List Char) :=
  if e = [] ∨ e = ['.'] then out
  else if e = ['.', '.'] then
    match out with
    | top :: rest => if top = ['.', '.'] then e :: out else rest
    | [] => if rooted then [] else [e]
  else e :: out

/-- `filepath.Clean` of the Go standard library on a Unix host (separator `/`, no
    volume name): the shortest equivalent path; the empty path becomes `.`. -/
def filepathClean (path : List Char) : List Char :=
  let rooted := path.head? = some '/'
  let body := List.intercalate ['/'] ((splitSlash path).foldl (cleanStep rooted) []).reverse
  if rooted then '/' :: body else if body = [] then ['.'] else body

/-- `filepath.Dir` of the Go standard library on a Unix host: all but the last
    element of the path, cleaned. -/
def filepathDir (path : String) : String := ⟨filepathClean (dirPrefix path.data)⟩

/-- `os.MkdirAll(path, perm)`: it fails with the error the host meets, or leaves
    the directory `path` in existence (made along with the parents it needs, which
    are not listed) and returns nil; a directory that exists is left as it is. -/
def MkdirAll (path : String) (h : Host) : Option GoError × Host :=
  match h.mkdirErr with
  | some err => (some err, h)
  | none => (none, if path ∈ h.dirs then h else { h with dirs := path :: h.dirs })

/-- `NewFileLock` (processlock.go:31-45): the returned lock (`none` for nil), the
    returned error and the host after the call. -/
def NewFileLock (fileAbsPath : String) (h : Host) : (Option fileLock × Option GoError) × Host :=
  if fileAbsPath = "" then ((none, some ErrEmptyFilePath), h)
  else
    match MkdirAll (filepathDir fileAbsPath) h with
    | (some err, h1) => ((none, some (err.Wrap "mkdir lock dir returned error")), h1)
    | (none, h1) => ((some { filePath := fileAbsPath, file := none }, none), h1)

/-- `fileLock.AcquireLock` (processlock.go:47-61): the returned error, the lock and
    the host after the call. -/
def fileLock.AcquireLock (l : fileLock) (h : Host) : Option GoError × fileLock × Host :=
  match lockedfileCreate l.filePath h with
  | (.error err, h1) => (some (err.Wrap "Failed to acquire lock"), { l with file := none }, h1)
  | (.ok f, h1) =>
    match f.WriteString (Itoa h1.pid) h1 with
    | (some err, h2) => (some (err.Wrap "Write to lockfile failed"), { l with file := some f }, h2)
    | (none, h2) => (none, { l with file := some f }, h2)

/-- `fileLock.ReleaseLock` (processlock.go:63-74). -/
def fileLock.ReleaseLock (l : fileLock) (h : Host) : Option GoError × fileLock × Host :=
  match l.file with
  | none => (some ErrInvalidFile, l, h)
  | some f =>
    match f.Close h with
    | (some err, f1, h1) =>
      if !stringsContains err.msg fsErrClosed.msg then
        (some (err.Wrap "Failed to release lock"), { l with file := some f1 }, h1)
      else (none, { l with file := some f1 }, h1)
    | (none, f1, h1) => (none, { l with file := some f1 }, h1)

end processlock

/-! ## npm: dataplane interface as the pod controller tests see it -/

namespace npm

/-- Kinds of IP-set named in the tests (`ipsets.Namespace`, `ipsets.KeyLabelOfPod`,
    ...) and in spec 3.3. -/
inductive SetType where
  | Namespace
  | KeyLabelOfNamespace
  | KeyValueLabelOfNamespace
  | KeyLabelOfPod
  | KeyValueLabelOfPod
  | NamedPorts
  | NestedLabelOfPod
  | CIDRBlocks
deriving DecidableEq, Repr

/-- `ipsets.IPSetMetadata{Name, Type}` as built in dataplane_test.go:117-126; the
    Go field `Type` is called `Kind` here, `Type` being reserved in Lean. -/
structure IPSetMetadata where
  Name : String
  Kind : SetType
deriving DecidableEq, Repr

/-- `ipsets.NewIPSetMetadata(name, setType)` as called in the tests. -/
def NewIPSetMetadata (name : String) (setType : SetType) : IPSetMetadata :=
  { Name := name, Kind := setType }

/-- `dataplane.PodMetadata`, built by `NewPodMetadata(podKey, podIP, nodeName)` in
    the tests: `PodIP` holds an IP or, for a named port, `ip,port`. -/
structure PodMetadata where
  PodKey : String
  PodIP : String
  NodeName : String
deriving DecidableEq, Repr

/-- `dataplane.NewPodMetadata(podKey, podIP, nodeName)` as called in the tests. -/
def NewPodMetadata (podKey podIP nodeName : String) : PodMetadata :=
  { PodKey := podKey, PodIP := podIP, NodeName := nodeName }

/-- A call on the `GenericDataplane` the pod controller is given. The tests pass
    a gomock recorder and list the calls they expect; these are the four methods
    they name. -/
inductive DPCall where
  | AddToLists (lists : List IPSetMetadata) (sets : List IPSetMetadata)
  | AddToSets (sets : List IPSetMetadata) (pod : PodMetadata)
  | RemoveFromSets (sets : List IPSetMetadata) (pod : PodMetadata)
  | ApplyDataPlane
deriving DecidableEq, Repr

/-- `corev1.PodPhase`. -/
inductive PodPhase where
  | Pending
  | Running
  | Succeeded
  | Failed
  | Unknown
deriving DecidableEq, Repr

/-- `corev1.ContainerPort`, with the two fields `createPod` sets. -/
structure ContainerPort where
  Name : String
  ContainerPort : Nat
deriving DecidableEq, Repr

/-- `corev1.Container`, with the field `createPod` sets. -/
structure Container where
  Ports : List ContainerPort
deriving DecidableEq, Repr

/-- `corev1.Pod`, with the fields `createPod` (podController_test.go:88-115) sets.
    `Labels` is a Go map: an association list read by `labelGet`. -/
structure Pod where
  Name : String
  Namespace : String
  Labels : List (String × String)
  ResourceVersion : String
  HostNetwork : Bool
  Containers : List Container
  Phase : PodPhase
  PodIP : String
deriving DecidableEq, Repr

/-- `createPod` (podController_test.go:88-115). -/
def createPod (name ns rv podIP : String) (labels : List (String × String))
    (isHostNewtwork : Bool) (podPhase : PodPhase) : Pod :=
  { Name := name, Namespace := ns, Labels := labels, ResourceVersion := rv,
    HostNetwork := isHostNewtwork,
    Containers := [{ Ports := [{ Name := "app:" ++ name, ContainerPort := 8080 }] }],
    Phase := podPhase, PodIP := podIP }

/-- Value of label `k` in a label map. -/
def labelGet (labels : List (String × String)) (k : String) : Option String :=
  (labels.find? (fun e => e.1 = k)).map (fun e => e.2)

/-- Modelled from the spec: the pod key `namespace/name` of the glossary, which
    the tests obtain from `cache.MetaNamespaceKeyFunc`. -/
def podKey (pod : Pod) : String := pod.Namespace ++ "/" ++ pod.Name

/-- Modelled from the spec: `getContainerPortList` is called by the tests and is
    missing from the sources; spec 3.4 has the container ports "flattened". -/
def getContainerPortList (pod : Pod) : List ContainerPort :=
  pod.Containers.flatMap (fun c => c.Ports)

/-- Modelled from the spec: the cache entry of spec 3.4, with the fields
    `TestPodMapMarshalJSON` shows in this order. -/
structure NpmPod where
  Name : String
  Namespace : String
  PodIP : String
  Labels : List (String × String)
  ContainerPorts : List ContainerPort
  Phase : PodPhase
deriving DecidableEq, Repr

/-- Modelled from the spec: `newNpmPod` is missing from the sources;
    `TestPodMapMarshalJSON` shows that it copies name, namespace, IP and phase
    and starts with no labels and no ports. -/
def newNpmPod (pod : Pod) : NpmPod :=
  { Name := pod.Name, Namespace := pod.Namespace, PodIP := pod.PodIP, Labels := [],
    ContainerPorts := [], Phase := pod.Phase }

/-- Modelled from the spec: the distinguished "all namespaces" list of spec 4.E,
    named `kubeAllNamespaces` in the tests; its declaration is missing. -/
def kubeAllNamespaces : IPSetMetadata := NewIPSetMetadata "all-namespaces" SetType.KeyLabelOfNamespace

/-- Modelled from the spec: the state of the pod controller (spec 3.4, 4.D) as the
    tests read it: the informer's store of pod objects, the pod cache `podMap`,
    the keys of `npmNamespaceCache.NsMap`, the pending keys of the work queue, and
    the calls recorded by the dataplane it was given. -/
structure PodController where
  podLister : List Pod
  podMap : List (String × NpmPod)
  nsMap : List String
  workqueue : List String
  dp : List DPCall
deriving DecidableEq, Repr

/-- Modelled from the spec: `NewPodController` on an informer store holding
    `pods`, with an empty namespace cache as in `newPodController` of the tests. -/
def NewPodController (pods : List Pod) : PodController :=
  { podLister := pods, podMap := [], nsMap := [], workqueue := [], dp := [] }

/-- Lookup in the pod cache. -/
def podMapGet (m : List (String × NpmPod)) (key : String) : Option NpmPod :=
  (m.find? (fun e => e.1 = key)).map (fun e => e.2)

/-- `podMap[key] = entry`. -/
def podMapSet (m : List (String × NpmPod)) (key : String) (entry : NpmPod) :
    List (String × NpmPod) :=
  (key, entry) :: m.filter (fun e => e.1 ≠ key)

/-- `delete(podMap, key)`. -/
def podMapDelete (m : List (String × NpmPod)) (key : String) : List (String × NpmPod) :=
  m.filter (fun e => e.1 ≠ key)

/-- The pod object the informer's store holds under `key`, if any. -/
def listerGet (pods : List Pod) (key : String) : Option Pod :=
  pods.find? (fun p => podKey p = key)

/-- Modelled from the spec: `workqueue.Add`; spec 5 and 8: a key that is already
    pending is not queued again (`TestWorkQueue`). -/
def workqueueAdd (q : List String) (key : String) : List String :=
  if key ∈ q then q else q ++ [key]

/-- Modelled from the spec: "host-network" of spec 4.D. -/
def isHostNetworkPod (pod : Pod) : Bool := pod.HostNetwork

/-- Modelled from the spec: `hasValidPodIP` is called by `TestHasValidPodIP` and
    missing from the sources; spec 4.D: a pod that "has no IP" is not valid. -/
def hasValidPodIP (pod : Pod) : Bool := pod.PodIP != ""

/-- Modelled from the spec: the terminal phases of spec 4.D, `Succeeded` and `Failed`. -/
def isTerminalPhase : PodPhase → Bool
  | PodPhase.Succeeded => true
  | PodPhase.Failed => true
  | _ => false

/-- The set of a namespace, `NewIPSetMetadata(ns, ipsets.Namespace)` in the tests. -/
def namespaceSet (ns : String) : IPSetMetadata := NewIPSetMetadata ns SetType.Namespace

/-- The set of a pod label key, `NewIPSetMetadata(k, ipsets.KeyLabelOfPod)` in the
    tests. -/
def labelKeySet (k : String) : IPSetMetadata := NewIPSetMetadata k SetType.KeyLabelOfPod

/-- The set of a pod label `k=v`, named `k:v` and of kind `KeyValueLabelOfPod` as in
    the tests (`app:test-pod`). -/
def labelKeyValueSet (k v : String) : IPSetMetadata :=
  NewIPSetMetadata (k ++ ":" ++ v) SetType.KeyValueLabelOfPod

/-- The set of a named port, named after the port and of kind `NamedPorts` as in the
    tests. -/
def namedPortSet (port : ContainerPort) : IPSetMetadata :=
  NewIPSetMetadata port.Name SetType.NamedPorts

/-- Modelled from the spec: the member `<ip>,<port>` of a named-port set (spec 4.A). -/
def namedPortMember (ip : String) (port : ContainerPort) : String :=
  ip ++ "," ++ toString port.ContainerPort

/-- Modelled from the spec: spec 4.D adds `ip,port` "to each named-port set"; a
    port without a name has no such set. -/
def namedPorts (ports : List ContainerPort) : List ContainerPort :=
  ports.filter (fun p => p.Name != "")

/-- Modelled from the spec: the calls that put a pod with this key, IP, labels and
    ports into its sets (spec 4.D, Add), in the grouping the tests expect: the
    namespace set, then one call per label for its key set and its key:value set,
    then one call per named port. With `add := false` the same calls remove it
    (spec 4.D, Delete). -/
def podSetCalls (add : Bool) (key ns ip : String) (labels : List (String × String))
    (ports : List ContainerPort) : List DPCall :=
  let call := fun (sets : List IPSetMetadata) (member : String) =>
    if add then DPCall.AddToSets sets (NewPodMetadata key member "")
    else DPCall.RemoveFromSets sets (NewPodMetadata key member "")
  [call [namespaceSet ns] ip]
    ++ labels.map (fun kv => call [labelKeySet kv.1, labelKeyValueSet kv.1 kv.2] ip)
    ++ (namedPorts ports).map (fun p => call [namedPortSet p] (namedPortMember ip p))

/-- Modelled from the spec: the "otherwise" branch of Add in spec 4.D: ensure the
    namespace entry exists, which for a namespace not yet cached adds its set to
    the all-namespaces list; add the pod to its sets; cache it with the labels
    and ports now reflected in the sets. -/
def PodController.syncAddedPod (c : PodController) (pod : Pod) : PodController :=
  let nsCalls :=
    if pod.Namespace ∈ c.nsMap then []
    else [DPCall.AddToLists [kubeAllNamespaces] [namespaceSet pod.Namespace]]
  let nsMap := if pod.Namespace ∈ c.nsMap then c.nsMap else c.nsMap ++ [pod.Namespace]
  { c with
    nsMap := nsMap
    dp := c.dp ++ nsCalls ++
      podSetCalls true (podKey pod) pod.Namespace pod.PodIP pod.Labels (getContainerPortList pod)
    podMap := podMapSet c.podMap (podKey pod)
      { newNpmPod pod with Labels := pod.Labels, ContainerPorts := getContainerPortList pod } }

/-- Modelled from the spec: Delete of spec 4.D: remove the cached entry from every
    set it participates in, with the cached IP, labels and ports, and drop the
    entry; a key that is not cached is left alone. -/
def PodController.cleanUpDeletedPod (c : PodController) (key : String) : PodController :=
  match podMapGet c.podMap key with
  | none => c
  | some cached =>
    { c with
      dp := c.dp ++
        podSetCalls false key cached.Namespace cached.PodIP cached.Labels cached.ContainerPorts
      podMap := podMapDelete c.podMap key }

/-- Modelled from the spec: the sets to leave for a label change (spec 4.D, Update,
    delta 2): key set and key:value set of a lost label, the old key:value set of
    a label whose value changed. -/
def labelSetsToRemove (oldLabels newLabels : List (String × String)) : List IPSetMetadata :=
  oldLabels.flatMap (fun kv =>
    match labelGet newLabels kv.1 with
    | none => [labelKeySet kv.1, labelKeyValueSet kv.1 kv.2]
    | some v => if v = kv.2 then [] else [labelKeyValueSet kv.1 kv.2])

/-- Modelled from the spec: the sets to join for a label change (spec 4.D, Update,
    delta 2): key set and key:value set of a gained label, the new key:value set
    of a label whose value changed. -/
def labelSetsToAdd (oldLabels newLabels : List (String × String)) : List IPSetMetadata :=
  newLabels.flatMap (fun kv =>
    match labelGet oldLabels kv.1 with
    | none => [labelKeySet kv.1, labelKeyValueSet kv.1 kv.2]
    | some v => if v = kv.2 then [] else [labelKeyValueSet kv.1 kv.2])

/-- Modelled from the spec: Add and Update of spec 4.D for a pod that is not in a
    terminal phase. Not cached: Add, which ignores a host-network pod and a pod
    without IP. Cached with another IP: full remove with the old IP, then full
    add with the new one. Cached with the same IP: one call per set of the label
    difference, removals first, and the cache takes the new labels and phase. -/
def PodController.syncAddAndUpdatePod (c : PodController) (pod : Pod) : PodController :=
  match podMapGet c.podMap (podKey pod) with
  | none =>
    if isHostNetworkPod pod || !hasValidPodIP pod then c else c.syncAddedPod pod
  | some cached =>
    if cached.PodIP ≠ pod.PodIP then
      (c.cleanUpDeletedPod (podKey pod)).syncAddedPod pod
    else
      let pm := NewPodMetadata (podKey pod) cached.PodIP ""
      { c with
        dp := c.dp
          ++ (labelSetsToRemove cached.Labels pod.Labels).map
              (fun s => DPCall.RemoveFromSets [s] pm)
          ++ (labelSetsToAdd cached.Labels pod.Labels).map (fun s => DPCall.AddToSets [s] pm)
        podMap := podMapSet c.podMap (podKey pod)
          { cached with Labels := pod.Labels, Phase := pod.Phase } }

/-- Modelled from the spec: the reconciler of spec 4.D for one key: a key the
    informer no longer holds is a Delete; a pod in a terminal phase is treated as
    Delete; any other pod is an Add or an Update. The pass ends with one
    `ApplyDataPlane`, as the tests count them. -/
def PodController.syncPod (c : PodController) (key : String) : PodController :=
  let c1 :=
    match listerGet c.podLister key with
    | none => c.cleanUpDeletedPod key
    | some pod =>
      if isTerminalPhase pod.Phase then c.cleanUpDeletedPod key
      else c.syncAddAndUpdatePod pod
  { c1 with dp := c1.dp ++ [DPCall.ApplyDataPlane] }

/-- Modelled from the spec: `processNextWorkItem`, called by the tests when the
    queue is not empty: take the first pending key and reconcile it. -/
def PodController.processNextWorkItem (c : PodController) : PodController :=
  match c.workqueue with
  | [] => c
  | key :: rest => PodController.syncPod { c with workqueue := rest } key

/-- Modelled from the spec: the informer callback for Add (spec 4.D): a pod that
    is host-network, has no IP or is in a terminal phase is ignored; otherwise
    its key is queued. -/
def PodController.addPod (c : PodController) (obj : Pod) : PodController :=
  if isHostNetworkPod obj || !hasValidPodIP obj || isTerminalPhase obj.Phase then c
  else { c with workqueue := workqueueAdd c.workqueue (podKey obj) }

/-- Modelled from the spec: the informer callback for Update: host-network pods
    and pods without IP are dropped (spec 7, input validation); otherwise the key
    is queued. -/
def PodController.updatePod (c : PodController) (_oldObj newObj : Pod) : PodController :=
  if isHostNetworkPod newObj || !hasValidPodIP newObj then c
  else { c with workqueue := workqueueAdd c.workqueue (podKey newObj) }

/-- What a delete notification carries: the pod, or a tombstone
    `cache.DeletedFinalStateUnknown{Key, Obj}` (podController_test.go:138-141). -/
inductive DeletedObject where
  | pod (obj : Pod)
  | tombstone (Key : String) (Obj : Pod)
deriving DecidableEq, Repr

/-- Modelled from the spec: the informer callback for Delete (spec 4.D, 9): both
    forms of the notification are accepted; a host-network pod is ignored;
    otherwise the key is queued, for a tombstone the key it carries. -/
def PodController.deletePod (c : PodController) (obj : DeletedObject) : PodController :=
  match obj with
  | DeletedObject.pod p =>
    if isHostNetworkPod p then c
    else { c with workqueue := workqueueAdd c.workqueue (podKey p) }
  | DeletedObject.tombstone key p =>
    if isHostNetworkPod p then c
    else { c with workqueue := workqueueAdd c.workqueue key }

/-- `addPod` of the test file (podController_test.go:117-127): the Add callback,
    then one reconcile pass unless the queue is empty. -/
def fixtureAddPod (c : PodController) (podObj : Pod) : PodController :=
  let c1 := c.addPod podObj
  if c1.workqueue.length = 0 then c1 else c1.processNextWorkItem

/-- `deletePod` of the test file (podController_test.go:129-153): add the pod, take
    it out of the informer's store, deliver the delete notification, as a
    tombstone or not, then one reconcile pass unless the queue is empty. -/
def fixtureDeletePod (c : PodController) (podObj : Pod)
    (isDeletedFinalStateUnknownObject : Bool) : PodController :=
  let c1 := fixtureAddPod c podObj
  let c2 := { c1 with podLister := c1.podLister.filter (fun p => podKey p ≠ podKey podObj) }
  let c3 :=
    if isDeletedFinalStateUnknownObject then
      c2.deletePod (DeletedObject.tombstone (podKey podObj) podObj)
    else c2.deletePod (DeletedObject.pod podObj)
  if c3.workqueue.length = 0 then c3 else c3.processNextWorkItem

/-- `updatePod` of the test file (podController_test.go:156-170): add the old pod,
    replace it by the new one in the informer's store, deliver the update, then
    one reconcile pass unless the queue is empty. -/
def fixtureUpdatePod (c : PodController) (oldPodObj newPodObj : Pod) : PodController :=
  let c1 := fixtureAddPod c oldPodObj
  let c2 :=
    { c1 with podLister :=
        newPodObj :: c1.podLister.filter (fun p => podKey p ≠ podKey newPodObj) }
  let c3 := c2.updatePod oldPodObj newPodObj
  if c3.workqueue.length = 0 then c3 else c3.processNextWorkItem

/-! ### The IP-set store behind the dataplane (spec 3.3, 4.A) -/

/-- Modelled from the spec: an IP-set of spec 3.3 (name and kind, members,
    reference count, dirty flag); the store's code is missing from the sources. -/
structure IPSet where
  Metadata : IPSetMetadata
  members : List String
  refCount : Nat
  dirty : Bool
  /-- Set by a `deleteIPSet` that could not delete the set (spec 4.A). -/
  deleteWhenPossible : Bool := false
deriving DecidableEq, Repr

/-- Modelled from the spec: lookup of a set in the store, a list of sets with one
    set per name and kind (`GetIPSet` of dataplane_test.go). -/
def getIPSet (store : List IPSet) (m : IPSetMetadata) : Option IPSet :=
  store.find? (fun s => s.Metadata = m)

/-- The members of a set of the store; a set that does not exist has none. -/
def membersOf (store : List IPSet) (m : IPSetMetadata) : List String :=
  match getIPSet store m with
  | some s => s.members
  | none => []

/-- Modelled from the spec: `createOrGet` of spec 4.A: idempotent; a new set has
    `refCount = 0`, no members and `dirty = true`. -/
def createOrGet (store : List IPSet) (m : IPSetMetadata) : List IPSet :=
  match getIPSet store m with
  | some _ => store
  | none => store ++ [{ Metadata := m, members := [], refCount := 0, dirty := true }]

/-- Modelled from the spec: adding a member marks the set dirty; adding a
    duplicate is a no-op (spec 4.A). -/
def IPSet.addMember (s : IPSet) (x : String) : IPSet :=
  if x ∈ s.members then s else { s with members := s.members ++ [x], dirty := true }

/-- Modelled from the spec: removing a member marks the set dirty; removing a
    non-member is a no-op (spec 4.A). -/
def IPSet.removeMember (s : IPSet) (x : String) : IPSet :=
  if x ∈ s.members then { s with members := s.members.filter (fun y => y ≠ x), dirty := true }
  else s

/-- Modelled from the spec: `addToSets([meta], podMeta)` of spec 4.A; the sets are
    created on demand, the pod controller making no other call to create them. -/
def addToSets (store : List IPSet) (sets : List IPSetMetadata) (pod : PodMetadata) :
    List IPSet :=
  sets.foldl (fun st m =>
    (createOrGet st m).map (fun s => if s.Metadata = m then s.addMember pod.PodIP else s)) store

/-- Modelled from the spec: `removeFromSets([meta], podMeta)` of spec 4.A. -/
def removeFromSets (store : List IPSet) (sets : List IPSetMetadata) (pod : PodMetadata) :
    List IPSet :=
  sets.foldl (fun st m =>
    st.map (fun s => if s.Metadata = m then s.removeMember pod.PodIP else s)) store

/-- Modelled from the spec: the kinds that can hold other sets (spec 4.A:
    "Namespace-list, Nested"). -/
def isListKind : SetType → Bool
  | SetType.KeyLabelOfNamespace => true
  | SetType.KeyValueLabelOfNamespace => true
  | SetType.NestedLabelOfPod => true
  | _ => false

/-- Modelled from the spec: `addToLists(parent, children)` of spec 4.A: the parents
    must be of a list kind and the children must exist already, else the call is
    refused (`none`); the names of the children become members of each parent. -/
def addToLists (store : List IPSet) (lists children : List IPSetMetadata) :
    Option (List IPSet) :=
  if lists.all (fun l => isListKind l.Kind) &&
      children.all (fun c => (getIPSet store c).isSome) then
    some (lists.foldl (fun st l =>
      (createOrGet st l).map (fun s =>
        if s.Metadata = l then children.foldl (fun t c => t.addMember c.Name) s else s)) store)
  else none

/-- Modelled from the spec: a successful `apply()` of spec 4.B clears the dirty flags. -/
def applyDataPlane (store : List IPSet) : List IPSet :=
  store.map (fun s => { s with dirty := false })

/-- Modelled from the spec: `CreateIPSets` of dataplane_test.go, `createOrGet` of
    spec 4.A for each set of the list. -/
def CreateIPSets (store : List IPSet) (sets : List IPSetMetadata) : List IPSet :=
  sets.foldl createOrGet store

/-- Modelled from the spec: a set is destroyable iff `refCount = 0` and it has no
    member (spec 3.3). -/
def IPSet.canBeDeleted (s : IPSet) : Bool :=
  decide (s.refCount = 0) && s.members.isEmpty

/-- Modelled from the spec: `DeleteIPSet` of dataplane_test.go, `deleteIPSet(meta)`
    of spec 4.A: the set is taken out of the store only if it is destroyable;
    otherwise it stays and is marked delete-when-possible. A set that does not
    exist is left alone. -/
def DeleteIPSet (store : List IPSet) (m : IPSetMetadata) : List IPSet :=
  match getIPSet store m with
  | none => store
  | some s =>
    if s.canBeDeleted then store.filter (fun t => t.Metadata ≠ m)
    else store.map (fun t => if t.Metadata = m then { t with deleteWhenPossible := true } else t)

/-- One `DeleteIPSet` per set of the list, in order (dataplane_test.go:139-141). -/
def DeleteIPSets (store : List IPSet) (sets : List IPSetMetadata) : List IPSet :=
  sets.foldl DeleteIPSet store

/-- One `RemoveFromSets([m], pod)` per pod of the list, in order. -/
def removeEachFromSet (store : List IPSet) (m : IPSetMetadata) (pods : List PodMetadata) :
    List IPSet :=
  pods.foldl (fun st pod => removeFromSets st [m] pod) store

/-- Modelled from the spec: the effect of one recorded dataplane call on the
    store; `none` if refused. The pod controller makes no other call to create a
    set (the tests expect none), so the dataplane creates the sets a call names
    before it hands them to the store: `AddToLists` is "ensure the namespace
    entry exists" of spec 4.D, the child sets are created if they are missing and
    then put on the lists by `addToLists` of spec 4.A, for which they now exist;
    `AddToSets` creates its sets in `addToSets`. -/
def DPCall.run (call : DPCall) (store : List IPSet) : Option (List IPSet) :=
  match call with
  | DPCall.AddToLists lists sets => addToLists (CreateIPSets store sets) lists sets
  | DPCall.AddToSets sets pod => some (addToSets store sets pod)
  | DPCall.RemoveFromSets sets pod => some (removeFromSets store sets pod)
  | DPCall.ApplyDataPlane => some (applyDataPlane store)

/-- The effect of a sequence of recorded calls on the store, in order. -/
def runCalls : List DPCall → List IPSet → Option (List IPSet)
  | [], store => some store
  | call :: rest, store =>
    match call.run store with
    | some st => runCalls rest st
    | none => none

/-- The call that undoes a membership call: `RemoveFromSets` with the same sets and
    the same pod metadata for an `AddToSets`; the other calls have none. -/
def DPCall.undo : DPCall → Option DPCall
  | DPCall.AddToSets sets pod => some (DPCall.RemoveFromSets sets pod)
  | _ => none

/-- Every cached pod has its namespace in the namespace cache: the reconciler
    caches the namespace before it caches a pod and never drops a namespace. -/
def PodController.namespacesCached (c : PodController) : Prop :=
  ∀ e ∈ c.podMap, e.2.Namespace ∈ c.nsMap

instance (c : PodController) : Decidable c.namespacesCached := by
  unfold PodController.namespacesCached
  infer_instance

/-- The pod of `TestAddPod`, `TestDeletePod`, `TestLabelUpdatePod` and
    `TestIPAddressUpdatePod` (podController_test.go:270, 342, 508, 564). -/
def testPod : Pod :=
  createPod "test-pod" "test-namespace" "0" "1.2.3.4" [("app", "test-pod")] false PodPhase.Running

/-- The host-network pod of `TestAddHostNetworkPod` (podController_test.go:313). -/
def testHostNetworkPod : Pod :=
  createPod "test-pod" "test-namespace" "0" "1.2.3.4" [("app", "test-pod")] true PodPhase.Running

/-- The updated pod of `TestIPAddressUpdatePod` (podController_test.go:577-582). -/
def testPodNewIP : Pod :=
  { testPod with ResourceVersion := "1", PodIP := "4.3.2.1" }

/-- The controller of the update tests once the old pod was added and the
    informer's store holds the updated pod `newPodObj`. -/
def afterAddThenStore (newPodObj : Pod) : PodController :=
  { fixtureAddPod (NewPodController [testPod]) testPod with podLister := [newPodObj] }

/-- The member list of a set after a member was added to it. -/
def addMem (x : String) (l : List String) : List String :=
  if x ∈ l then l else l ++ [x]

/-- The member list of a set after a member was removed from it. -/
def remMem (x : String) (l : List String) : List String :=
  l.filter (fun y => y ≠ x)

/-- What a recorded call does to the member list of the set `x`, when `x` is not
    a list the call adds to. -/
def DPCall.effect (x : IPSetMetadata) : DPCall → List String → List String
  | DPCall.AddToSets sets pod, l => if x ∈ sets then addMem pod.PodIP l else l
  | DPCall.RemoveFromSets sets pod, l => if x ∈ sets then remMem pod.PodIP l else l
  | _, l => l

/-- Whether one of the calls removes the member `y` from the set `x`. -/
def removesFrom (x : IPSetMetadata) (calls : List DPCall) (y : String) : Bool :=
  calls.any (fun c =>
    match c with
    | DPCall.RemoveFromSets sets pod => decide (x ∈ sets) && decide (pod.PodIP = y)
    | _ => false)

/-- Whether the members a call adds are new to the store: for an `AddToSets`, the
    member is in none of the sets it names; the other calls add no member. -/
def DPCall.addsNewMembers (store : List IPSet) : DPCall → Bool
  | DPCall.AddToSets sets pod => sets.all (fun s => decide (pod.PodIP ∉ membersOf store s))
  | _ => true

/-- Whether a call names the set `x` among the sets or lists whose members it
    changes. -/
def DPCall.touches (x : IPSetMetadata) : DPCall → Bool
  | DPCall.AddToLists lists _ => decide (x ∈ lists)
  | DPCall.AddToSets sets _ => decide (x ∈ sets)
  | DPCall.RemoveFromSets sets _ => decide (x ∈ sets)
  | DPCall.ApplyDataPlane => false

/-- Whether a call names the set `x`, so that the set exists after the call. -/
def DPCall.creates (x : IPSetMetadata) : DPCall → Bool
  | DPCall.AddToLists lists sets => decide (x ∈ lists) || decide (x ∈ sets)
  | DPCall.AddToSets sets _ => decide (x ∈ sets)
  | _ => false

/-- The sets a pod with this namespace, labels and ports takes part in (spec 4.D):
    the namespace set, the key set and the key:value set of each label, and the
    set of each named port. -/
def podSets (ns : String) (labels : List (String × String)) (ports : List ContainerPort) :
    List IPSetMetadata :=
  [namespaceSet ns]
    ++ labels.flatMap (fun kv => [labelKeySet kv.1, labelKeyValueSet kv.1 kv.2])
    ++ (namedPorts ports).map namedPortSet

/-- The updated pod of `TestPodStatusUpdatePod` (podController_test.go:648-654). -/
def testPodSucceeded : Pod :=
  { testPod with ResourceVersion := "1", Phase := PodPhase.Succeeded }

/-- The controller after a Delete notification took the pod with this key out of
    the informer's store. -/
def PodController.withoutPod (c : PodController) (key : String) : PodController :=
  { c with podLister := c.podLister.filter (fun p => podKey p ≠ key) }

/-- The loop of `TestWorkQueue` (podController_test.go:759-766): the keys are added
    to the queue one after the other; the result is the queue after the last add
    and the queue lengths read after each add. -/
def workqueueAddAll : List String → List String → List String × List Nat
  | q, [] => (q, [])
  | q, key :: rest =>
    let q1 := workqueueAdd q key
    let r := workqueueAddAll q1 rest
    (r.1, q1.length :: r.2)

/-! ### npm/pkg/dataplane/dataplane_test.go: policies and the scripted host calls -/

/-- `ipsets.TranslatedIPSet{Metadata, Members}` as built in dataplane_test.go:24-57. -/
structure TranslatedIPSet where
  Metadata : IPSetMetadata
  Members : List String
deriving DecidableEq, Repr

/-- The verdict of an ACL: `policies.Dropped` in the tests, `Allowed` in spec 3.5. -/
inductive Verdict where
  | Allowed
  | Dropped
deriving DecidableEq, Repr

/-- The direction of an ACL: `policies.Ingress`, `policies.Egress` in the tests. -/
inductive Direction where
  | Ingress
  | Egress
deriving DecidableEq, Repr

/-- `policies.ACLPolicy{PolicyID, Target, Direction}` as built in
    dataplane_test.go:58-64. -/
structure ACLPolicy where
  PolicyID : String
  Target : Verdict
  Direction : Direction
deriving DecidableEq, Repr

/-- `policies.NPMNetworkPolicy{Name, PodSelectorIPSets, RuleIPSets, ACLs}` as built
    in dataplane_test.go:27-65. -/
structure NPMNetworkPolicy where
  Name : String
  PodSelectorIPSets : List TranslatedIPSet
  RuleIPSets : List TranslatedIPSet
  ACLs : List ACLPolicy
deriving DecidableEq, Repr

/-- `setPodKey1` (dataplane_test.go:24-26). -/
def setPodKey1 : TranslatedIPSet :=
  { Metadata := NewIPSetMetadata "setpodkey1" SetType.KeyLabelOfPod, Members := [] }

/-- `testPolicyobj` (dataplane_test.go:27-65). -/
def testPolicyobj : NPMNetworkPolicy :=
  { Name := "ns1/testpolicy"
    PodSelectorIPSets :=
      [{ Metadata := NewIPSetMetadata "setns1" SetType.Namespace, Members := [] },
       setPodKey1,
       { Metadata := NewIPSetMetadata "nestedset1" SetType.NestedLabelOfPod,
         Members := ["setpodkey1"] }]
    RuleIPSets :=
      [{ Metadata := NewIPSetMetadata "setns2" SetType.Namespace, Members := [] },
       { Metadata := NewIPSetMetadata "setpodkey2" SetType.KeyLabelOfPod, Members := [] },
       { Metadata := NewIPSetMetadata "setpodkeyval2" SetType.KeyValueLabelOfPod, Members := [] },
       { Metadata := NewIPSetMetadata "testcidr1" SetType.CIDRBlocks,
         Members := ["10.0.0.0/8"] }]
    ACLs := [{ PolicyID := "testpol1", Target := Verdict.Dropped,
               Direction := Direction.Egress }] }

/-- `updatedTestPolicyobj` of `TestUpdatePolicy` (dataplane_test.go:243-250). -/
def updatedTestPolicyobj : NPMNetworkPolicy :=
  { testPolicyobj with
    ACLs := [{ PolicyID := "testpol1", Target := Verdict.Dropped,
               Direction := Direction.Ingress }] }

/-- The helpers of other packages that give the host commands a dataplane
    operation is expected to run; their code is not among the sources, so they
    are parameters. `Cmd` stands for `testutils.TestCmd`. -/
structure TestCallHelpers (Cmd : Type) where
  /-- `ipsets.GetResetTestCalls()`. -/
  GetResetTestCalls : List Cmd
  /-- `ipsets.GetApplyIPSetsTestCalls(toAddOrUpdateIPSets, toDeleteIPSets)`. -/
  GetApplyIPSetsTestCalls : List IPSetMetadata → List IPSetMetadata → List Cmd
  /-- `policies.GetAddPolicyTestCalls(networkPolicy)`. -/
  GetAddPolicyTestCalls : NPMNetworkPolicy → List Cmd
  /-- `policies.GetRemovePolicyTestCalls(networkPolicy)`. -/
  GetRemovePolicyTestCalls : NPMNetworkPolicy → List Cmd

/-- `getAffectedIPSets` (dataplane_test.go:300-309). -/
def getAffectedIPSets (networkPolicy : NPMNetworkPolicy) : List IPSetMetadata :=
  networkPolicy.PodSelectorIPSets.map (fun t => t.Metadata)
    ++ networkPolicy.RuleIPSets.map (fun t => t.Metadata)

/-- `getInitializeTestCalls` (dataplane_test.go:273-277). -/
def getInitializeTestCalls {Cmd : Type} (_h : TestCallHelpers Cmd) : List Cmd := []

/-- `getResetTestCalls` (dataplane_test.go:279-283). -/
def getResetTestCalls {Cmd : Type} (h : TestCallHelpers Cmd) : List Cmd := h.GetResetTestCalls

/-- `getNewDataplaneTestCalls` (dataplane_test.go:269-271). -/
def getNewDataplaneTestCalls {Cmd : Type} (h : TestCallHelpers Cmd) : List Cmd :=
  getResetTestCalls h ++ getInitializeTestCalls h

/-- `getAddPolicyTestCallsForDP` (dataplane_test.go:285-290). -/
def getAddPolicyTestCallsForDP {Cmd : Type} (h : TestCallHelpers Cmd)
    (networkPolicy : NPMNetworkPolicy) : List Cmd :=
  h.GetApplyIPSetsTestCalls (getAffectedIPSets networkPolicy) []
    ++ h.GetAddPolicyTestCalls networkPolicy

/-- `getRemovePolicyTestCallsForDP` (dataplane_test.go:292-298). -/
def getRemovePolicyTestCallsForDP {Cmd : Type} (h : TestCallHelpers Cmd)
    (networkPolicy : NPMNetworkPolicy) : List Cmd :=
  h.GetRemovePolicyTestCalls networkPolicy
    ++ h.GetApplyIPSetsTestCalls [] (getAffectedIPSets networkPolicy)

/-- The `calls` that `TestApplyPolicy` scripts for `NewDataPlane` followed by
    `AddPolicy(policy)` (dataplane_test.go:215), with the policy as an argument. -/
def addPolicyScript {Cmd : Type} (h : TestCallHelpers Cmd) (policy : NPMNetworkPolicy) :
    List Cmd :=
  getNewDataplaneTestCalls h ++ getAddPolicyTestCallsForDP h policy

/-- The `calls` that `TestUpdatePolicy` scripts for `NewDataPlane`, `AddPolicy(old)`
    and `UpdatePolicy(updated)` (dataplane_test.go:252-254), with the two policies
    as arguments. -/
def updatePolicyScript {Cmd : Type} (h : TestCallHelpers Cmd)
    (old updated : NPMNetworkPolicy) : List Cmd :=
  (getNewDataplaneTestCalls h ++ getAddPolicyTestCallsForDP h old
    ++ getRemovePolicyTestCallsForDP h old)
    ++ getAddPolicyTestCallsForDP h updated

/-- A group of host commands, named after the helper call that returns it. -/
inductive HostCalls where
  | ResetIPSets
  | ApplyIPSets (toAddOrUpdate toDelete : List IPSetMetadata)
  | AddPolicy (policy : NPMNetworkPolicy)
  | RemovePolicy (policy : NPMNetworkPolicy)
deriving DecidableEq, Repr

/-- The helpers read symbolically: each returns the one group that names it. -/
def namedHelpers : TestCallHelpers HostCalls :=
  { GetResetTestCalls := [HostCalls.ResetIPSets]
    GetApplyIPSetsTestCalls := fun a d => [HostCalls.ApplyIPSets a d]
    GetAddPolicyTestCalls := fun p => [HostCalls.AddPolicy p]
    GetRemovePolicyTestCalls := fun p => [HostCalls.RemovePolicy p] }

/-- `setsTocreate` of `TestCreateAndDeleteIpSets` and `TestAddToSet`
    (dataplane_test.go:117-126, 157-166). -/
def setsTocreate : List IPSetMetadata :=
  [{ Name := "test", Kind := SetType.Namespace }, { Name := "test1", Kind := SetType.Namespace }]

/-- `podMetadata` of `TestAddToSet` (dataplane_test.go:176). -/
def podMetadata : PodMetadata := NewPodMetadata "testns/a" "10.0.0.1" "testnode"

/-- `v6PodMetadata` of `TestAddToSet` (dataplane_test.go:180). -/
def v6PodMetadata : PodMetadata := NewPodMetadata "testns/a" "2001:db8:0:0:0:0:2:1" "testnode"

/-- The store of `TestAddToSet` after its two `AddToSets` calls
    (dataplane_test.go:168-183). -/
def storeAfterAddToSets : List IPSet :=
  addToSets (addToSets (CreateIPSets [] setsTocreate) setsTocreate podMetadata)
    setsTocreate v6PodMetadata

/-- Every set called `x` that the store holds is destroyable. -/
def destroyableIn (store : List IPSet) (x : IPSetMetadata) : Prop :=
  ∀ s, getIPSet store x = some s → s.canBeDeleted = true

/-! ### The pod cache as JSON (`TestPodMapMarshalJSON`) -/

/-- The text of a phase: `corev1.PodPhase` is a string type. -/
def PodPhase.text : PodPhase → String
  | .Pending => "Pending"
  | .Running => "Running"
  | .Succeeded => "Succeeded"
  | .Failed => "Failed"
  | .Unknown => "Unknown"

/-- `json.Marshal` of a `corev1.ContainerPort` with the two fields `createPod`
    sets: the tags of the type are `name,omitempty` and `containerPort`, and the
    fields left at their zero value are omitted. -/
def ContainerPort.toJSON (p : npm.ContainerPort) : JSON :=
  JSON.obj ((if p.Name = "" then [] else [("name", JSON.str p.Name)])
    ++ [("containerPort", JSON.num (processlock.Itoa p.ContainerPort))])

/-- Modelled from the spec: the declaration of `NpmPod` is missing from the
    sources. `TestPodMapMarshalJSON` shows its encoding: the six fields under
    their Go names in this order, the labels as an object and the container ports
    as an array. -/
def NpmPod.toJSON (p : NpmPod) : JSON :=
  JSON.obj [("Name", JSON.str p.Name), ("Namespace", JSON.str p.Namespace),
    ("PodIP", JSON.str p.PodIP),
    ("Labels", JSON.obj ((JSON.mapEntries p.Labels).map (fun e => (e.1, JSON.str e.2)))),
    ("ContainerPorts", JSON.arr (p.ContainerPorts.map ContainerPort.toJSON)),
    ("Phase", JSON.str p.Phase.text)]

/-- Modelled from the spec: the JSON value behind `PodController.MarshalJSON`, the
    pod cache as an object with one member for each key `namespace/name`. -/
def PodController.podMapJSON (c : PodController) : JSON :=
  JSON.obj ((JSON.mapEntries c.podMap).map (fun e => (e.1, e.2.toJSON)))

/-- Modelled from the spec: `PodController.MarshalJSON` is missing from the
    sources; `TestPodMapMarshalJSON` shows the bytes it returns for a cache of
    one pod, which are those of `json.Marshal` of the pod cache, and that it
    returns no error. -/
def PodController.MarshalJSON (c : PodController) : String × Option GoError :=
  (c.podMapJSON.render, none)

/-- The controller of `TestPodMapMarshalJSON` (podController_test.go:698-712): no
    pod in the informer's store, and the entry of `newNpmPod` put into the cache
    under the key of the pod. -/
def marshalTestController : PodController :=
  { NewPodController [] with podMap := podMapSet [] (podKey testPod) (newNpmPod testPod) }

end npm

/-! ## network/hnswrapper/hnsv2wrapperfake.go -/

namespace hnswrapper

/-- `hcn.HostComputeNetwork` of the hcsshim library, with its fields `Id` and
    `Name`. The fake sets no other field; the fields left out hold their zero
    values in the objects it builds. A `*hcn.HostComputeNetwork` is an
    `Option`, `none` being the nil pointer. -/
structure HostComputeNetwork where
  Id : String
  Name : String
deriving DecidableEq, Repr

/-- `hcn.HostComputeEndpoint`, with its fields `Id`, `Name` and
    `HostComputeNetwork` (the id of its network); the others are left out. -/
structure HostComputeEndpoint where
  Id : String
  Name : String
  HostComputeNetwork : String
deriving DecidableEq, Repr

/-- `hcn.HostComputeNamespace`, with its fields `Id` and `NamespaceId` (a
    `uint32`). -/
structure HostComputeNamespace where
  Id : String
  NamespaceId : Nat
deriving DecidableEq, Repr

/-- The struct `Hnsv2wrapperFake` (hnsv2wrapperfake.go:13-14): it has no field.
    All its methods have a value receiver. -/
structure Hnsv2wrapperFake where
deriving DecidableEq, Repr

/-- `CreateNetwork` (hnsv2wrapperfake.go:16-18). -/
def Hnsv2wrapperFake.CreateNetwork (_f : Hnsv2wrapperFake)
    (network : Option HostComputeNetwork) : Option HostComputeNetwork × Option GoError :=
  (network, none)

/-- `DeleteNetwork` (hnsv2wrapperfake.go:20-22). -/
def Hnsv2wrapperFake.DeleteNetwork (_f : Hnsv2wrapperFake)
    (_network : Option HostComputeNetwork) : Option GoError :=
  none

/-- `ModifyNetworkSettings` (hnsv2wrapperfake.go:24-26); `Q` is the type of the
    request, `*hcn.ModifyNetworkSettingRequest`. -/
def Hnsv2wrapperFake.ModifyNetworkSettings {Q : Type} (_f : Hnsv2wrapperFake)
    (_network : Option HostComputeNetwork) (_request : Q) : Option GoError :=
  none

/-- `AddNetworkPolicy` (hnsv2wrapperfake.go:28-30); `Q` is `hcn.PolicyNetworkRequest`. -/
def Hnsv2wrapperFake.AddNetworkPolicy {Q : Type} (_f : Hnsv2wrapperFake)
    (_network : Option HostComputeNetwork) (_networkPolicy : Q) : Option GoError :=
  none

/-- `RemoveNetworkPolicy` (hnsv2wrapperfake.go:32-34); `Q` is `hcn.PolicyNetworkRequest`. -/
def Hnsv2wrapperFake.RemoveNetworkPolicy {Q : Type} (_f : Hnsv2wrapperFake)
    (_network : Option HostComputeNetwork) (_networkPolicy : Q) : Option GoError :=
  none

/-- `GetNetworkByName` (hnsv2wrapperfake.go:36-38): a pointer to a zero network. -/
def Hnsv2wrapperFake.GetNetworkByName (_f : Hnsv2wrapperFake) (_networkName : String) :
    Option HostComputeNetwork × Option GoError :=
  (some { Id := "", Name := "" }, none)

/-- `GetNetworkByID` (hnsv2wrapperfake.go:40-43). -/
def Hnsv2wrapperFake.GetNetworkByID (_f : Hnsv2wrapperFake) (networkID : String) :
    Option HostComputeNetwork × Option GoError :=
  let network : HostComputeNetwork := { Id := networkID, Name := "" }
  (some network, none)

/-- `GetEndpointByID` (hnsv2wrapperfake.go:45-48). -/
def Hnsv2wrapperFake.GetEndpointByID (_f : Hnsv2wrapperFake) (endpointID : String) :
    Option HostComputeEndpoint × Option GoError :=
  let endpoint : HostComputeEndpoint := { Id := endpointID, Name := "", HostComputeNetwork := "" }
  (some endpoint, none)

/-- `CreateEndpoint` (hnsv2wrapperfake.go:50-52). -/
def Hnsv2wrapperFake.CreateEndpoint (_f : Hnsv2wrapperFake)
    (endpoint : Option HostComputeEndpoint) : Option HostComputeEndpoint × Option GoError :=
  (endpoint, none)

/-- `DeleteEndpoint` (hnsv2wrapperfake.go:54-56). -/
def Hnsv2wrapperFake.DeleteEndpoint (_f : Hnsv2wrapperFake)
    (_endpoint : Option HostComputeEndpoint) : Option GoError :=
  none

/-- `GetNamespaceByID` (hnsv2wrapperfake.go:58-61). -/
def Hnsv2wrapperFake.GetNamespaceByID (_f : Hnsv2wrapperFake) (_netNamespacePath : String) :
    Option HostComputeNamespace × Option GoError :=
  let nameSpace : HostComputeNamespace :=
    { Id := "ea37ac15-119e-477b-863b-cc23d6eeaa4d", NamespaceId := 1000 }
  (some nameSpace, none)

/-- `AddNamespaceEndpoint` (hnsv2wrapperfake.go:63-65). -/
def Hnsv2wrapperFake.AddNamespaceEndpoint (_f : Hnsv2wrapperFake)
    (_namespaceId _endpointId : String) : Option GoError :=
  none

/-- `RemoveNamespaceEndpoint` (hnsv2wrapperfake.go:67-69). -/
def Hnsv2wrapperFake.RemoveNamespaceEndpoint (_f : Hnsv2wrapperFake)
    (_namespaceId _endpointId : String) : Option GoError :=
  none

/-- `ListEndpointsOfNetwork` (hnsv2wrapperfake.go:71-73). -/
def Hnsv2wrapperFake.ListEndpointsOfNetwork (_f : Hnsv2wrapperFake) (_networkId : String) :
    List HostComputeEndpoint × Option GoError :=
  ([], none)

/-- `ApplyEndpointPolicy` (hnsv2wrapperfake.go:75-77); `Q` is `hcn.RequestType` and
    `Q2` is `hcn.PolicyEndpointRequest`. -/
def Hnsv2wrapperFake.ApplyEndpointPolicy {Q Q2 : Type} (_f : Hnsv2wrapperFake)
    (_endpoint : Option HostComputeEndpoint) (_requestType : Q) (_endpointPolicy : Q2) :
    Option GoError :=
  none

/-- One call on the wrapper with its arguments. Arguments of the request types of
    `hcn`, which the fake never reads, are values of the type `Q`. -/
inductive Call (Q : Type) where
  | CreateNetwork (network : Option HostComputeNetwork)
  | DeleteNetwork (network : Option HostComputeNetwork)
  | ModifyNetworkSettings (network : Option HostComputeNetwork) (request : Q)
  | AddNetworkPolicy (network : Option HostComputeNetwork) (networkPolicy : Q)
  | RemoveNetworkPolicy (network : Option HostComputeNetwork) (networkPolicy : Q)
  | GetNetworkByName (networkName : String)
  | GetNetworkByID (networkID : String)
  | GetEndpointByID (endpointID : String)
  | CreateEndpoint (endpoint : Option HostComputeEndpoint)
  | DeleteEndpoint (endpoint : Option HostComputeEndpoint)
  | GetNamespaceByID (netNamespacePath : String)
  | AddNamespaceEndpoint (namespaceId endpointId : String)
  | RemoveNamespaceEndpoint (namespaceId endpointId : String)
  | ListEndpointsOfNetwork (networkId : String)
  | ApplyEndpointPolicy (endpoint : Option HostComputeEndpoint) (requestType : Q)
      (endpointPolicy : Q)

/-- What a call returns: the value, when the method has one, and the error. -/
inductive Returned where
  | network (value : Option HostComputeNetwork) (err : Option GoError)
  | endpoint (value : Option HostComputeEndpoint) (err : Option GoError)
  | nameSpace (value : Option HostComputeNamespace) (err : Option GoError)
  | endpoints (value : List HostComputeEndpoint) (err : Option GoError)
  | errorOnly (err : Option GoError)
deriving DecidableEq, Repr

/-- The error a call returned. -/
def Returned.err : Returned → Option GoError
  | .network _ e => e
  | .endpoint _ e => e
  | .nameSpace _ e => e
  | .endpoints _ e => e
  | .errorOnly e => e

/-- Dispatch of a call to the method it names. -/
def Hnsv2wrapperFake.call {Q : Type} (f : Hnsv2wrapperFake) : Call Q → Returned
  | .CreateNetwork network => .network (f.CreateNetwork network).1 (f.CreateNetwork network).2
  | .DeleteNetwork network => .errorOnly (f.DeleteNetwork network)
  | .ModifyNetworkSettings network request => .errorOnly (f.ModifyNetworkSettings network request)
  | .AddNetworkPolicy network networkPolicy => .errorOnly (f.AddNetworkPolicy network networkPolicy)
  | .RemoveNetworkPolicy network networkPolicy =>
    .errorOnly (f.RemoveNetworkPolicy network networkPolicy)
  | .GetNetworkByName networkName =>
    .network (f.GetNetworkByName networkName).1 (f.GetNetworkByName networkName).2
  | .GetNetworkByID networkID =>
    .network (f.GetNetworkByID networkID).1 (f.GetNetworkByID networkID).2
  | .GetEndpointByID endpointID =>
    .endpoint (f.GetEndpointByID endpointID).1 (f.GetEndpointByID endpointID).2
  | .CreateEndpoint endpoint => .endpoint (f.CreateEndpoint endpoint).1 (f.CreateEndpoint endpoint).2
  | .DeleteEndpoint endpoint => .errorOnly (f.DeleteEndpoint endpoint)
  | .GetNamespaceByID netNamespacePath =>
    .nameSpace (f.GetNamespaceByID netNamespacePath).1 (f.GetNamespaceByID netNamespacePath).2
  | .AddNamespaceEndpoint namespaceId endpointId =>
    .errorOnly (f.AddNamespaceEndpoint namespaceId endpointId)
  | .RemoveNamespaceEndpoint namespaceId endpointId =>
    .errorOnly (f.RemoveNamespaceEndpoint namespaceId endpointId)
  | .ListEndpointsOfNetwork networkId =>
    .endpoints (f.ListEndpointsOfNetwork networkId).1 (f.ListEndpointsOfNetwork networkId).2
  | .ApplyEndpointPolicy endpoint requestType endpointPolicy =>
    .errorOnly (f.ApplyEndpointPolicy endpoint requestType endpointPolicy)

/-- The wrapper a caller holds after one call: every method has a value receiver
    and the struct has no field or pointer, so the call works on a copy and the
    caller's value is as before. -/
def Hnsv2wrapperFake.afterCall {Q : Type} (f : Hnsv2wrapperFake) (_c : Call Q) :
    Hnsv2wrapperFake :=
  f

/-- The wrapper after a history of calls, and what each call returned. -/
def Hnsv2wrapperFake.run {Q : Type} (f : Hnsv2wrapperFake) :
    List (Call Q) → Hnsv2wrapperFake × List Returned
  | [] => (f, [])
  | c :: rest =>
    let r := f.call c
    let (g, rs) := (f.afterCall c).run rest
    (g, r :: rs)

end hnswrapper

/-! # Theorems -/

/-! ## Go strings and UTF-8 -/

namespace utf8

/-- `DecodeRune` reads back the character `EncodeRune` wrote, whatever follows. -/
theorem DecodeRune_EncodeRune (c : Char) (tail : List Nat) :
    DecodeRune (EncodeRune c ++ tail) = (c, (EncodeRune c).length) := by
  have hv := c.valid
  have hn : c.toNat = c.val.toNat := rfl
  simp only [UInt32.isValidChar, Nat.isValidChar] at hv
  rw [← hn] at hv
  generalize hcn : c.toNat = n at hv
  have hc : Char.ofNat n = c := by rw [← hcn]; exact Char.ofNat_toNat c
  unfold EncodeRune
  rw [hcn]
  by_cases h1 : n < 128
  · simp [h1, DecodeRune, hc]
  · by_cases h2 : n < 2048
    · have hq : n / 64 < 32 := by omega
      have hq2 : 2 ≤ n / 64 := by omega
      have hb0 : ¬ (192 + n / 64 < 128) := by omega
      have hl : first (192 + n / 64) = some (2, 128, 191) := by
        unfold first
        rw [if_pos (by omega)]
      have hm0 : (192 + n / 64) % 32 = n / 64 := by omega
      have hm1 : (128 + n % 64) % 64 = n % 64 := by omega
      have hr : n / 64 * 64 + n % 64 = n := by omega
      have hlt : n % 64 < 64 := Nat.mod_lt _ (by decide)
      simp only [h1, h2, if_false, if_true, List.cons_append, List.nil_append, DecodeRune, hb0,
        hl, hm0, hm1, hr, hc, List.length_cons, List.length_nil]
      rw [if_pos (by omega)]
    · by_cases h3 : n < 65536
      · have hq : n / 4096 < 16 := by omega
        have hm0 : (224 + n / 4096) % 16 = n / 4096 := by omega
        have hm1 : (128 + n / 64 % 64) % 64 = n / 64 % 64 := by omega
        have hm2 : (128 + n % 64) % 64 = n % 64 := by omega
        have hr : n / 4096 * 4096 + n / 64 % 64 * 64 + n % 64 = n := by omega
        have hb0 : ¬ (224 + n / 4096 < 128) := by omega
        have hlt : n % 64 < 64 := Nat.mod_lt _ (by decide)
        have hlt1 : n / 64 % 64 < 64 := Nat.mod_lt _ (by decide)
        simp only [h1, h2, h3, if_false, if_true, List.cons_append, List.nil_append, DecodeRune,
          hb0, List.length_cons, List.length_nil]
        by_cases e0 : n / 4096 = 0
        · have hl : first (224 + n / 4096) = some (3, 160, 191) := by
            rw [e0]; rfl
          simp only [hl, hm0, hm1, hm2, hr, hc]
          rw [if_pos (by omega)]
        · by_cases e13 : n / 4096 = 13
          · have hl : first (224 + n / 4096) = some (3, 128, 159) := by
              rw [e13]; rfl
            simp only [hl, hm0, hm1, hm2, hr, hc]
            rw [if_pos (by omega)]
          · have hl : first (224 + n / 4096) = some (3, 128, 191) := by
              unfold first
              rw [if_neg (by omega), if_neg (by omega), if_neg (by omega), if_pos (by omega)]
            simp only [hl, hm0, hm1, hm2, hr, hc]
            rw [if_pos (by omega)]
      · have hq : n / 262144 < 5 := by omega
        have hq1 : 1 ≤ n / 262144 ∨ 16 ≤ n / 4096 % 64 := by omega
        have hm0 : (240 + n / 262144) % 8 = n / 262144 := by omega
        have hm1 : (128 + n / 4096 % 64) % 64 = n / 4096 % 64 := by omega
        have hm2 : (128 + n / 64 % 64) % 64 = n / 64 % 64 := by omega
        have hm3 : (128 + n % 64) % 64 = n % 64 := by omega
        have hr : n / 262144 * 262144 + n / 4096 % 64 * 4096 + n / 64 % 64 * 64 + n % 64 = n := by
          omega
        have hb0 : ¬ (240 + n / 262144 < 128) := by omega
        have hlt : n % 64 < 64 := Nat.mod_lt _ (by decide)
        have hlt1 : n / 64 % 64 < 64 := Nat.mod_lt _ (by decide)
        have hlt2 : n / 4096 % 64 < 64 := Nat.mod_lt _ (by decide)
        simp only [h1, h2, h3, if_false, if_true, List.cons_append, List.nil_append, DecodeRune,
          hb0, List.length_cons, List.length_nil]
        by_cases e0 : n / 262144 = 0
        · have hl : first (240 + n / 262144) = some (4, 144, 191) := by
            rw [e0]; rfl
          simp only [hl, hm0, hm1, hm2, hm3, hr, hc]
          rw [if_pos (by omega)]
        · by_cases e4 : n / 262144 = 4
          · have hl : first (240 + n / 262144) = some (4, 128, 143) := by
              rw [e4]; rfl
            simp only [hl, hm0, hm1, hm2, hm3, hr, hc]
            rw [if_pos (by omega)]
          · have hl : first (240 + n / 262144) = some (4, 128, 191) := by
              unfold first
              rw [if_neg (by omega), if_neg (by omega), if_neg (by omega), if_neg (by omega),
                if_neg (by omega), if_neg (by omega), if_pos (by omega)]
            simp only [hl, hm0, hm1, hm2, hm3, hr, hc]
            rw [if_pos (by omega)]

/-- A character takes at least one byte. -/
theorem length_EncodeRune_pos (c : Char) : 1 ≤ (EncodeRune c).length := by
  unfold EncodeRune
  split_ifs <;> simp

/-- With enough fuel the bytes of a text decode to the text. -/
theorem decodeRunes_Encode (s : List Char) :
    ∀ fuel, (Encode s).length ≤ fuel → decodeRunes fuel (Encode s) = s := by
  induction s with
  | nil =>
    intro fuel _
    cases fuel <;> rfl
  | cons c cs ih =>
    intro fuel hfuel
    have henc : Encode (c :: cs) = EncodeRune c ++ Encode cs := by
      simp [Encode]
    rw [henc] at hfuel ⊢
    have hpos := length_EncodeRune_pos c
    rw [List.length_append] at hfuel
    cases fuel with
    | zero => omega
    | succ f =>
      cases hsplit : EncodeRune c ++ Encode cs with
      | nil =>
        have hlen := congrArg List.length hsplit
        rw [List.length_append, List.length_nil] at hlen
        omega
      | cons p0 rest =>
        simp only [decodeRunes]
        rw [← hsplit, DecodeRune_EncodeRune, List.drop_left, ih f (by omega)]

/-- The bytes of a text decode to the text: no byte is replaced. -/
theorem DecodeLossy_Encode (s : List Char) : DecodeLossy (Encode s) = s :=
  decodeRunes_Encode s _ (le_refl _)


/-- The code point of `Char.ofNat n` is `n` when `n` is a scalar value. -/
theorem toNat_ofNat_valid (n : Nat) (h : n < 55296 ∨ (57343 < n ∧ n < 1114112)) :
    (Char.ofNat n).toNat = n := by
  have hv : n.isValidChar := h
  unfold Char.ofNat
  rw [dif_pos hv]
  rfl

/-- The code point of `RuneError`. -/
theorem RuneError_toNat : RuneError.toNat = 65533 := by decide

/-- The rows of the table `first`. -/
theorem first_cases (p0 : Nat) :
    first p0 = none
    ∨ (first p0 = some (2, 128, 191) ∧ 194 ≤ p0 ∧ p0 ≤ 223)
    ∨ (first p0 = some (3, 160, 191) ∧ p0 = 224)
    ∨ (first p0 = some (3, 128, 159) ∧ p0 = 237)
    ∨ (first p0 = some (3, 128, 191) ∧ 225 ≤ p0 ∧ p0 ≤ 239 ∧ p0 ≠ 237)
    ∨ (first p0 = some (4, 144, 191) ∧ p0 = 240)
    ∨ (first p0 = some (4, 128, 143) ∧ p0 = 244)
    ∨ (first p0 = some (4, 128, 191) ∧ 241 ≤ p0 ∧ p0 ≤ 243) := by
  unfold first
  split_ifs <;> simp <;> omega

/-- A well-formed sequence of two bytes is the encoding of what it decodes to. -/
theorem EncodeRune_two (p0 b1 : Nat) (h0 : 194 ≤ p0 ∧ p0 ≤ 223) (h1 : 128 ≤ b1 ∧ b1 ≤ 191) :
    EncodeRune (Char.ofNat (p0 % 32 * 64 + b1 % 64)) = [p0, b1] := by
  unfold EncodeRune
  rw [toNat_ofNat_valid _ (by omega)]
  have a1 : ¬ (p0 % 32 * 64 + b1 % 64 < 128) := by omega
  have a2 : p0 % 32 * 64 + b1 % 64 < 2048 := by omega
  have e1 : 192 + (p0 % 32 * 64 + b1 % 64) / 64 = p0 := by omega
  have e2 : 128 + (p0 % 32 * 64 + b1 % 64) % 64 = b1 := by omega
  simp only [a1, a2, if_false, if_true, e1, e2]

/-- A well-formed sequence of three bytes is the encoding of what it decodes to. -/
theorem EncodeRune_three (p0 b1 b2 : Nat) (h0 : 224 ≤ p0 ∧ p0 ≤ 239)
    (h1 : 128 ≤ b1 ∧ b1 ≤ 191) (h2 : 128 ≤ b2 ∧ b2 ≤ 191)
    (hlo : p0 = 224 → 160 ≤ b1) (hhi : p0 = 237 → b1 ≤ 159) :
    EncodeRune (Char.ofNat (p0 % 16 * 4096 + b1 % 64 * 64 + b2 % 64)) = [p0, b1, b2] := by
  unfold EncodeRune
  rw [toNat_ofNat_valid _ (by omega)]
  have a1 : ¬ (p0 % 16 * 4096 + b1 % 64 * 64 + b2 % 64 < 128) := by omega
  have a2 : ¬ (p0 % 16 * 4096 + b1 % 64 * 64 + b2 % 64 < 2048) := by omega
  have a3 : p0 % 16 * 4096 + b1 % 64 * 64 + b2 % 64 < 65536 := by omega
  have e1 : 224 + (p0 % 16 * 4096 + b1 % 64 * 64 + b2 % 64) / 4096 = p0 := by omega
  have e2 : 128 + (p0 % 16 * 4096 + b1 % 64 * 64 + b2 % 64) / 64 % 64 = b1 := by omega
  have e3 : 128 + (p0 % 16 * 4096 + b1 % 64 * 64 + b2 % 64) % 64 = b2 := by omega
  simp only [a1, a2, a3, if_false, if_true, e1, e2, e3]

/-- A well-formed sequence of four bytes is the encoding of what it decodes to. -/
theorem EncodeRune_four (p0 b1 b2 b3 : Nat) (h0 : 240 ≤ p0 ∧ p0 ≤ 244)
    (h1 : 128 ≤ b1 ∧ b1 ≤ 191) (h2 : 128 ≤ b2 ∧ b2 ≤ 191) (h3 : 128 ≤ b3 ∧ b3 ≤ 191)
    (hlo : p0 = 240 → 144 ≤ b1) (hhi : p0 = 244 → b1 ≤ 143) :
    EncodeRune (Char.ofNat (p0 % 8 * 262144 + b1 % 64 * 4096 + b2 % 64 * 64 + b3 % 64))
      = [p0, b1, b2, b3] := by
  unfold EncodeRune
  rw [toNat_ofNat_valid _ (by omega)]
  have a1 : ¬ (p0 % 8 * 262144 + b1 % 64 * 4096 + b2 % 64 * 64 + b3 % 64 < 128) := by omega
  have a2 : ¬ (p0 % 8 * 262144 + b1 % 64 * 4096 + b2 % 64 * 64 + b3 % 64 < 2048) := by omega
  have a3 : ¬ (p0 % 8 * 262144 + b1 % 64 * 4096 + b2 % 64 * 64 + b3 % 64 < 65536) := by omega
  have e1 : 240 + (p0 % 8 * 262144 + b1 % 64 * 4096 + b2 % 64 * 64 + b3 % 64) / 262144 = p0 := by
    omega
  have e2 : 128 + (p0 % 8 * 262144 + b1 % 64 * 4096 + b2 % 64 * 64 + b3 % 64) / 4096 % 64
      = b1 := by omega
  have e3 : 128 + (p0 % 8 * 262144 + b1 % 64 * 4096 + b2 % 64 * 64 + b3 % 64) / 64 % 64
      = b2 := by omega
  have e4 : 128 + (p0 % 8 * 262144 + b1 % 64 * 4096 + b2 % 64 * 64 + b3 % 64) % 64 = b3 := by
    omega
  simp only [a1, a2, a3, if_false, e1, e2, e3, e4]

/-- Where `DecodeRune` finds a well-formed sequence, the bytes it read are the
    encoding of the character it returns. -/
theorem EncodeRune_DecodeRune (p0 : Nat) (rest : List Nat)
    (hv : DecodeRune (p0 :: rest) ≠ (RuneError, 1)) :
    EncodeRune (DecodeRune (p0 :: rest)).1 = (p0 :: rest).take (DecodeRune (p0 :: rest)).2
    ∧ 1 ≤ (DecodeRune (p0 :: rest)).2 := by
  unfold DecodeRune at hv ⊢
  by_cases h0 : p0 < 128
  · simp only [h0, if_true]
    refine ⟨?_, le_refl _⟩
    unfold EncodeRune
    rw [toNat_ofNat_valid p0 (by omega)]
    simp [h0]
  · simp only [h0, if_false] at hv ⊢
    rcases first_cases p0 with hf | ⟨hf, hr⟩ | ⟨hf, hr⟩ | ⟨hf, hr⟩ | ⟨hf, hr⟩ | ⟨hf, hr⟩ |
      ⟨hf, hr⟩ | ⟨hf, hr⟩
    · rw [hf] at hv
      exact absurd rfl hv
    all_goals rw [hf] at hv ⊢
    · cases rest with
      | nil => exact absurd rfl hv
      | cons b1 r1 =>
        simp only at hv ⊢
        by_cases hc : 128 ≤ b1 ∧ b1 ≤ 191
        · simp only [hc, and_self, if_true, List.take_succ_cons, List.take_zero]
          exact ⟨EncodeRune_two p0 b1 hr hc, by omega⟩
        · rw [if_neg hc] at hv
          exact absurd rfl hv
    · cases rest with
      | nil => exact absurd rfl hv
      | cons b1 r1 =>
        cases r1 with
        | nil => exact absurd rfl hv
        | cons b2 r2 =>
          simp only at hv ⊢
          by_cases hc : 160 ≤ b1 ∧ b1 ≤ 191 ∧ 128 ≤ b2 ∧ b2 ≤ 191
          · simp only [hc, and_self, if_true, List.take_succ_cons, List.take_zero]
            exact ⟨EncodeRune_three p0 b1 b2 (by omega) (by omega) (by omega) (by omega)
              (by omega), by omega⟩
          · rw [if_neg hc] at hv
            exact absurd rfl hv
    · cases rest with
      | nil => exact absurd rfl hv
      | cons b1 r1 =>
        cases r1 with
        | nil => exact absurd rfl hv
        | cons b2 r2 =>
          simp only at hv ⊢
          by_cases hc : 128 ≤ b1 ∧ b1 ≤ 159 ∧ 128 ≤ b2 ∧ b2 ≤ 191
          · simp only [hc, and_self, if_true, List.take_succ_cons, List.take_zero]
            exact ⟨EncodeRune_three p0 b1 b2 (by omega) (by omega) (by omega) (by omega)
              (by omega), by omega⟩
          · rw [if_neg hc] at hv
            exact absurd rfl hv
    · cases rest with
      | nil => exact absurd rfl hv
      | cons b1 r1 =>
        cases r1 with
        | nil => exact absurd rfl hv
        | cons b2 r2 =>
          simp only at hv ⊢
          by_cases hc : 128 ≤ b1 ∧ b1 ≤ 191 ∧ 128 ≤ b2 ∧ b2 ≤ 191
          · simp only [hc, and_self, if_true, List.take_succ_cons, List.take_zero]
            exact ⟨EncodeRune_three p0 b1 b2 (by omega) (by omega) (by omega) (by omega)
              (by omega), by omega⟩
          · rw [if_neg hc] at hv
            exact absurd rfl hv
    · cases rest with
      | nil => exact absurd rfl hv
      | cons b1 r1 =>
        cases r1 with
        | nil => exact absurd rfl hv
        | cons b2 r2 =>
          cases r2 with
          | nil => exact absurd rfl hv
          | cons b3 r3 =>
            simp only at hv ⊢
            by_cases hc : 144 ≤ b1 ∧ b1 ≤ 191 ∧ 128 ≤ b2 ∧ b2 ≤ 191 ∧ 128 ≤ b3 ∧ b3 ≤ 191
            · simp only [hc, and_self, if_true, List.take_succ_cons, List.take_zero]
              exact ⟨EncodeRune_four p0 b1 b2 b3 (by omega) (by omega) (by omega) (by omega)
                (by omega) (by omega), by omega⟩
            · rw [if_neg hc] at hv
              exact absurd rfl hv
    · cases rest with
      | nil => exact absurd rfl hv
      | cons b1 r1 =>
        cases r1 with
        | nil => exact absurd rfl hv
        | cons b2 r2 =>
          cases r2 with
          | nil => exact absurd rfl hv
          | cons b3 r3 =>
            simp only at hv ⊢
            by_cases hc : 128 ≤ b1 ∧ b1 ≤ 143 ∧ 128 ≤ b2 ∧ b2 ≤ 191 ∧ 128 ≤ b3 ∧ b3 ≤ 191
            · simp only [hc, and_self, if_true, List.take_succ_cons, List.take_zero]
              exact ⟨EncodeRune_four p0 b1 b2 b3 (by omega) (by omega) (by omega) (by omega)
                (by omega) (by omega), by omega⟩
            · rw [if_neg hc] at hv
              exact absurd rfl hv
    · cases rest with
      | nil => exact absurd rfl hv
      | cons b1 r1 =>
        cases r1 with
        | nil => exact absurd rfl hv
        | cons b2 r2 =>
          cases r2 with
          | nil => exact absurd rfl hv
          | cons b3 r3 =>
            simp only at hv ⊢
            by_cases hc : 128 ≤ b1 ∧ b1 ≤ 191 ∧ 128 ≤ b2 ∧ b2 ≤ 191 ∧ 128 ≤ b3 ∧ b3 ≤ 191
            · simp only [hc, and_self, if_true, List.take_succ_cons, List.take_zero]
              exact ⟨EncodeRune_four p0 b1 b2 b3 (by omega) (by omega) (by omega) (by omega)
                (by omega) (by omega), by omega⟩
            · rw [if_neg hc] at hv
              exact absurd rfl hv

/-- `DecodeRune` reads at least one byte and no more than there are. -/
theorem DecodeRune_size_le (p0 : Nat) (rest : List Nat) :
    (DecodeRune (p0 :: rest)).2 ≤ (p0 :: rest).length ∧ 1 ≤ (DecodeRune (p0 :: rest)).2 := by
  unfold DecodeRune
  by_cases h0 : p0 < 128
  · simp [h0]
  · simp only [h0, if_false]
    split <;> (try split_ifs) <;> simp

/-- Bytes that `Valid` accepts are the bytes of the text they decode to. -/
theorem Encode_decodeRunes (fuel : Nat) :
    ∀ p : List Nat, p.length ≤ fuel → validRunes fuel p = true →
      Encode (decodeRunes fuel p) = p := by
  induction fuel with
  | zero =>
    intro p hp _
    cases p with
    | nil => rfl
    | cons a b => simp at hp
  | succ f ih =>
    intro p hp hval
    cases p with
    | nil => rfl
    | cons p0 rest =>
      simp only [validRunes, Bool.and_eq_true, decide_eq_true_eq] at hval
      obtain ⟨hstep, hrest⟩ := hval
      obtain ⟨henc, hpos⟩ := EncodeRune_DecodeRune p0 rest hstep
      have hsz := (DecodeRune_size_le p0 rest).1
      have hlen : ((p0 :: rest).drop (DecodeRune (p0 :: rest)).2).length ≤ f := by
        rw [List.length_drop]
        simp only [List.length_cons] at hp hsz ⊢
        omega
      simp only [decodeRunes]
      have hcons : Encode ((DecodeRune (p0 :: rest)).1 ::
          decodeRunes f ((p0 :: rest).drop (DecodeRune (p0 :: rest)).2))
          = EncodeRune (DecodeRune (p0 :: rest)).1 ++
            Encode (decodeRunes f ((p0 :: rest).drop (DecodeRune (p0 :: rest)).2)) := by
        simp [Encode]
      rw [hcons, ih _ hlen hrest, henc, List.take_append_drop]

/-- The bytes of a text are accepted by `Valid`. -/
theorem validRunes_Encode (s : List Char) :
    ∀ fuel, (Encode s).length ≤ fuel → validRunes fuel (Encode s) = true := by
  induction s with
  | nil =>
    intro fuel _
    cases fuel <;> rfl
  | cons c cs ih =>
    intro fuel hfuel
    have henc : Encode (c :: cs) = EncodeRune c ++ Encode cs := by
      simp [Encode]
    rw [henc] at hfuel ⊢
    have hpos := length_EncodeRune_pos c
    rw [List.length_append] at hfuel
    cases fuel with
    | zero => omega
    | succ f =>
      cases hsplit : EncodeRune c ++ Encode cs with
      | nil =>
        have hlen := congrArg List.length hsplit
        rw [List.length_append, List.length_nil] at hlen
        omega
      | cons p0 rest =>
        simp only [validRunes, Bool.and_eq_true, decide_eq_true_eq]
        rw [← hsplit, DecodeRune_EncodeRune, List.drop_left]
        refine ⟨?_, ih f (by omega)⟩
        intro h
        simp only [Prod.mk.injEq] at h
        obtain ⟨h1, h2⟩ := h
        rw [h1] at h2
        revert h2
        decide

/-- Bytes are valid UTF-8 exactly when they are the bytes of their own text. -/
theorem Valid_iff (p : List Nat) : Valid p = true ↔ Encode (DecodeLossy p) = p := by
  constructor
  · intro h
    exact Encode_decodeRunes p.length p (le_refl _) h
  · intro h
    rw [← h]
    exact validRunes_Encode _ _ (le_refl _)

end utf8

/-- A text stored in a Go string is read back as it is. -/
theorem GoString.toText_ofText (s : String) : (GoString.ofText s).toText = s := by
  simp [GoString.toText, GoString.ofText, utf8.DecodeLossy_Encode]

/-- Writing the text of a Go string back gives the string exactly when it is
    valid UTF-8. -/
theorem GoString.ofText_toText_iff (g : GoString) :
    GoString.ofText g.toText = g ↔ g.ValidUTF8 = true := by
  cases g with
  | mk bytes =>
    simp only [GoString.ofText, GoString.toText, GoString.ValidUTF8, utf8.Valid_iff,
      GoString.mk.injEq]

/-- A Go string is valid UTF-8 exactly when it holds the bytes of a text. -/
theorem GoString.validUTF8_iff_text (g : GoString) :
    g.ValidUTF8 = true ↔ ∃ s : String, g = GoString.ofText s := by
  rw [← GoString.ofText_toText_iff]
  constructor
  · intro h
    exact ⟨g.toText, h.symm⟩
  · rintro ⟨s, rfl⟩
    rw [GoString.toText_ofText]

/-! ## cns/api.go -/

namespace cns

/-- What `UnmarshalJSON` gives for the encoding of a record, decoded into a
    zero-valued record: the text of each string field, and the PodInfo or the
    error of `UnmarshalPodInfo` on the encoded PodInfo. -/
theorem unmarshalJSON_marshal {P : Type} (marshalPodInfo : P → JSON)
    (U : JSON → Except GoError (Option P)) (r : IPConfigurationStatus P) :
    IPConfigurationStatus.UnmarshalJSON U (IPConfigurationStatus.zero P)
        (.ok (r.Marshal marshalPodInfo))
      = match U (marshalPodInfoField marshalPodInfo r.PodInfo) with
        | .ok v =>
          (none, { NCID := GoString.ofText r.NCID.toText, ID := GoString.ofText r.ID.toText,
                   IPAddress := GoString.ofText r.IPAddress.toText,
                   State := GoString.ofText r.State.toText, PodInfo := v })
        | .error e =>
          (some e, { NCID := GoString.ofText r.NCID.toText, ID := GoString.ofText r.ID.toText,
                     IPAddress := GoString.ofText r.IPAddress.toText,
                     State := GoString.ofText r.State.toText, PodInfo := none }) := by
  cases r
  simp only [IPConfigurationStatus.Marshal]
  cases hu : U (marshalPodInfoField marshalPodInfo _) <;>
    simp [IPConfigurationStatus.UnmarshalJSON, JSON.unmarshalRawMap, JSON.rawMapGet,
      JSON.unmarshalString, IPConfigurationStatus.zero, hu]

/-- C1, as stated, fails. A record whose NCID holds a byte that is not UTF-8 (`nc`
    followed by the byte 255) is encoded with U+FFFD in its place and decodes,
    without error, to a record whose NCID holds the three bytes of U+FFFD, which
    is not the record encoded; this is so for every decoder of the PodInfo. And
    with a decoder of the usual Go shape, which decodes into a fresh value, a
    record with no PodInfo, encoded with `"PodInfo": null`, decodes to a record
    with a PodInfo, the zero one. -/
theorem unmarshalJSON_marshal_not_identity :
    IPConfigurationStatus.UnmarshalJSON freshUnmarshalPodInfo (IPConfigurationStatus.zero String)
        (.ok (IPConfigurationStatus.Marshal JSON.str
          { NCID := ⟨[110, 99, 255]⟩, ID := "uuid-2", IPAddress := "10.0.0.5",
            State := Allocated, PodInfo := some "default/pod-a" }))
      = (none, { NCID := ⟨[110, 99, 239, 191, 189]⟩, ID := "uuid-2", IPAddress := "10.0.0.5",
                 State := Allocated, PodInfo := some "default/pod-a" })
    ∧ (⟨[110, 99, 239, 191, 189]⟩ : GoString) ≠ ⟨[110, 99, 255]⟩
    ∧ GoString.ValidUTF8 ⟨[110, 99, 255]⟩ = false
    ∧ IPConfigurationStatus.UnmarshalJSON freshUnmarshalPodInfo (IPConfigurationStatus.zero String)
        (.ok (IPConfigurationStatus.Marshal JSON.str
          { NCID := "nc1", ID := "uuid-1", IPAddress := "10.0.0.4", State := Available,
            PodInfo := none }))
      = (none, { NCID := "nc1", ID := "uuid-1", IPAddress := "10.0.0.4", State := Available,
                 PodInfo := some "" }) := by
  refine ⟨rfl, by decide, by decide, rfl⟩

/-- C1, amended. For every record `r`, decoding the JSON encoding of `r` with
    `UnmarshalJSON` into a zero-valued record stores in NCID, ID, IPAddress and
    State the text of the field of `r`, which is the field itself exactly when
    the field is valid UTF-8 (`utf8.Valid`: it holds the bytes of a text), and
    hands the encoded PodInfo (`null` for a record with none) to
    `UnmarshalPodInfo`, whose result is the PodInfo stored and whose error is the
    error returned, the PodInfo staying nil. So the call succeeds and yields `r`
    exactly when the four string fields of `r` are valid UTF-8 and
    `UnmarshalPodInfo` gives back the PodInfo of `r` from its encoding. -/
theorem unmarshalJSON_marshal_roundtrip_iff {P : Type} (marshalPodInfo : P → JSON)
    (U : JSON → Except GoError (Option P)) (r : IPConfigurationStatus P) :
    (IPConfigurationStatus.UnmarshalJSON U (IPConfigurationStatus.zero P)
        (.ok (r.Marshal marshalPodInfo))).2.NCID = GoString.ofText r.NCID.toText
    ∧ (IPConfigurationStatus.UnmarshalJSON U (IPConfigurationStatus.zero P)
        (.ok (r.Marshal marshalPodInfo))).2.ID = GoString.ofText r.ID.toText
    ∧ (IPConfigurationStatus.UnmarshalJSON U (IPConfigurationStatus.zero P)
        (.ok (r.Marshal marshalPodInfo))).2.IPAddress = GoString.ofText r.IPAddress.toText
    ∧ (IPConfigurationStatus.UnmarshalJSON U (IPConfigurationStatus.zero P)
        (.ok (r.Marshal marshalPodInfo))).2.State = GoString.ofText r.State.toText
    ∧ (∀ g : GoString, GoString.ofText g.toText = g ↔ g.ValidUTF8 = true)
    ∧ (∀ g : GoString, g.ValidUTF8 = true ↔ ∃ s : String, g = GoString.ofText s)
    ∧ (∀ v, U (marshalPodInfoField marshalPodInfo r.PodInfo) = .ok v →
        (IPConfigurationStatus.UnmarshalJSON U (IPConfigurationStatus.zero P)
          (.ok (r.Marshal marshalPodInfo))).1 = none
        ∧ (IPConfigurationStatus.UnmarshalJSON U (IPConfigurationStatus.zero P)
          (.ok (r.Marshal marshalPodInfo))).2.PodInfo = v)
    ∧ (∀ e, U (marshalPodInfoField marshalPodInfo r.PodInfo) = .error e →
        (IPConfigurationStatus.UnmarshalJSON U (IPConfigurationStatus.zero P)
          (.ok (r.Marshal marshalPodInfo))).1 = some e
        ∧ (IPConfigurationStatus.UnmarshalJSON U (IPConfigurationStatus.zero P)
          (.ok (r.Marshal marshalPodInfo))).2.PodInfo = none)
    ∧ (IPConfigurationStatus.UnmarshalJSON U (IPConfigurationStatus.zero P)
          (.ok (r.Marshal marshalPodInfo)) = (none, r)
        ↔ (r.NCID.ValidUTF8 = true ∧ r.ID.ValidUTF8 = true ∧ r.IPAddress.ValidUTF8 = true
          ∧ GoString.ValidUTF8 r.State = true
          ∧ U (marshalPodInfoField marshalPodInfo r.PodInfo) = .ok r.PodInfo)) := by
  rw [unmarshalJSON_marshal]
  refine ⟨?_, ?_, ?_, ?_, GoString.ofText_toText_iff, GoString.validUTF8_iff_text, ?_, ?_, ?_⟩
  · split <;> rfl
  · split <;> rfl
  · split <;> rfl
  · split <;> rfl
  · intro v hv
    rw [hv]
    exact ⟨rfl, rfl⟩
  · intro e he
    rw [he]
    exact ⟨rfl, rfl⟩
  · obtain ⟨n, d, ip, st, pi⟩ := r
    simp only
    constructor
    · intro h
      cases hu : U (marshalPodInfoField marshalPodInfo pi) with
      | error e => simp [hu] at h
      | ok v =>
        simp only [hu, Prod.mk.injEq, IPConfigurationStatus.mk.injEq, true_and] at h
        obtain ⟨h1, h2, h3, h4, h5⟩ := h
        exact ⟨(GoString.ofText_toText_iff n).mp h1, (GoString.ofText_toText_iff d).mp h2,
          (GoString.ofText_toText_iff ip).mp h3, (GoString.ofText_toText_iff st).mp h4,
          by rw [h5]⟩
    · rintro ⟨h1, h2, h3, h4, h5⟩
      rw [h5]
      simp only [(GoString.ofText_toText_iff n).mpr h1, (GoString.ofText_toText_iff d).mpr h2,
        (GoString.ofText_toText_iff ip).mpr h3, (GoString.ofText_toText_iff st).mpr h4]

/-- Witness of the amended C1 on a record with a PodInfo whose strings are valid
    UTF-8 (one of them not ASCII), with the decoder of the usual Go shape: the
    round trip gives the record back. -/
theorem unmarshalJSON_marshal_roundtrip_iff_witness :
    IPConfigurationStatus.UnmarshalJSON freshUnmarshalPodInfo (IPConfigurationStatus.zero String)
        (.ok (IPConfigurationStatus.Marshal JSON.str
          { NCID := "nc-é1", ID := "uuid-2", IPAddress := "10.0.0.5", State := Allocated,
            PodInfo := some "default/pod-a" }))
      = (none, { NCID := "nc-é1", ID := "uuid-2", IPAddress := "10.0.0.5", State := Allocated,
                 PodInfo := some "default/pod-a" }) :=
  (unmarshalJSON_marshal_roundtrip_iff JSON.str freshUnmarshalPodInfo
    { NCID := "nc-é1", ID := "uuid-2", IPAddress := "10.0.0.5", State := Allocated,
      PodInfo := some "default/pod-a" }).2.2.2.2.2.2.2.2.mpr
    ⟨by decide, by decide, by decide, by decide, rfl⟩

/-- A string field whose value, when the key is present, is a string or `null`
    decodes without error. -/
theorem fieldAfter_ok (goType key : String) (m : List (String × JSON)) (x : GoString)
    (h : ∀ s, JSON.rawMapGet key m = some s → stringOrNull s = true) :
    ∃ y, fieldAfter goType key m x = .ok y := by
  unfold fieldAfter
  cases hk : JSON.rawMapGet key m with
  | none => exact ⟨x, rfl⟩
  | some s =>
    have hs := h s hk
    cases s <;> simp [stringOrNull] at hs <;> simp [JSON.unmarshalString]

/-- `UnmarshalJSON` written with `fieldAfter`: the four string fields in order, then
    the PodInfo dispatch. -/
theorem unmarshalJSON_obj {P : Type} (U : JSON → Except GoError (Option P))
    (i : IPConfigurationStatus P) (m : List (String × JSON)) (a b c d : GoString)
    (ha : fieldAfter "string" "NCID" m i.NCID = .ok a)
    (hb : fieldAfter "string" "ID" m i.ID = .ok b)
    (hc : fieldAfter "string" "IPAddress" m i.IPAddress = .ok c)
    (hd : fieldAfter "cns.IPConfigState" "State" m i.State = .ok d) :
    IPConfigurationStatus.UnmarshalJSON U i (.ok (JSON.obj m)) =
      match JSON.rawMapGet "PodInfo" m with
      | some s =>
        match U s with
        | .error err =>
          (some err, { NCID := a, ID := b, IPAddress := c, State := d, PodInfo := i.PodInfo })
        | .ok pi => (none, { NCID := a, ID := b, IPAddress := c, State := d, PodInfo := pi })
      | none => (none, { NCID := a, ID := b, IPAddress := c, State := d, PodInfo := i.PodInfo }) := by
  unfold fieldAfter at ha hb hc hd
  simp only [IPConfigurationStatus.UnmarshalJSON, JSON.unmarshalRawMap, ha, hb, hc, hd]

/-- C2, as stated, fails: the object below has a "PodInfo" key whose raw value
    `UnmarshalPodInfo` decodes without error, yet `UnmarshalJSON` stops at the
    "NCID" value (a number), returns that type error and leaves PodInfo nil. -/
theorem unmarshalJSON_podInfo_skipped_after_field_error :
    JSON.rawMapGet "PodInfo" [("NCID", JSON.num "5"), ("PodInfo", JSON.str "default/pod-a")]
        = some (JSON.str "default/pod-a")
    ∧ keyUnmarshalPodInfo (JSON.str "default/pod-a") = .ok (some "default/pod-a")
    ∧ (IPConfigurationStatus.UnmarshalJSON keyUnmarshalPodInfo (IPConfigurationStatus.zero String)
        (.ok (JSON.obj [("NCID", JSON.num "5"), ("PodInfo", JSON.str "default/pod-a")]))).2.PodInfo
        = none
    ∧ (IPConfigurationStatus.UnmarshalJSON keyUnmarshalPodInfo (IPConfigurationStatus.zero String)
        (.ok (JSON.obj [("NCID", JSON.num "5"), ("PodInfo", JSON.str "default/pod-a")]))).1
        = some (JSON.typeError (JSON.num "5") "string") := by
  refine ⟨rfl, rfl, rfl, rfl⟩

/-- C2, amended. For every JSON object that has a "PodInfo" key and whose "NCID",
    "ID", "IPAddress" and "State" values, where present, are strings or null, the
    method hands the raw value of the key (the last one, if repeated) to
    `UnmarshalPodInfo`: when that succeeds the call returns no error and PodInfo is
    exactly the value returned, and when it fails the call returns that very error
    and PodInfo is as it was. -/
theorem unmarshalJSON_podInfo_dispatch {P : Type} (U : JSON → Except GoError (Option P))
    (i : IPConfigurationStatus P) (m : List (String × JSON)) (raw : JSON)
    (hraw : JSON.rawMapGet "PodInfo" m = some raw)
    (hfields : ∀ key ∈ ["NCID", "ID", "IPAddress", "State"],
      ∀ s, JSON.rawMapGet key m = some s → stringOrNull s = true) :
    (∀ v, U raw = .ok v →
      (IPConfigurationStatus.UnmarshalJSON U i (.ok (JSON.obj m))).1 = none ∧
      (IPConfigurationStatus.UnmarshalJSON U i (.ok (JSON.obj m))).2.PodInfo = v) ∧
    (∀ e, U raw = .error e →
      (IPConfigurationStatus.UnmarshalJSON U i (.ok (JSON.obj m))).1 = some e ∧
      (IPConfigurationStatus.UnmarshalJSON U i (.ok (JSON.obj m))).2.PodInfo = i.PodInfo) := by
  obtain ⟨a, ha⟩ := fieldAfter_ok "string" "NCID" m i.NCID (hfields _ (by simp))
  obtain ⟨b, hb⟩ := fieldAfter_ok "string" "ID" m i.ID (hfields _ (by simp))
  obtain ⟨c, hc⟩ := fieldAfter_ok "string" "IPAddress" m i.IPAddress (hfields _ (by simp))
  obtain ⟨d, hd⟩ := fieldAfter_ok "cns.IPConfigState" "State" m i.State (hfields _ (by simp))
  rw [unmarshalJSON_obj U i m a b c d ha hb hc hd, hraw]
  constructor
  · intro v hv
    simp [hv]
  · intro e he
    simp [he]

/-- Witness of the amended C2 on an object whose PodInfo value is malformed for the
    sample decoder: its error comes back and PodInfo keeps its earlier value. -/
theorem unmarshalJSON_podInfo_dispatch_witness :
    (IPConfigurationStatus.UnmarshalJSON keyUnmarshalPodInfo (IPConfigurationStatus.zero String)
        (.ok (JSON.obj [("ID", JSON.str "uuid-1"), ("PodInfo", JSON.arr [])]))).1
      = some (JSON.typeError (JSON.arr []) "cns.PodInfo")
    ∧ (IPConfigurationStatus.UnmarshalJSON keyUnmarshalPodInfo (IPConfigurationStatus.zero String)
        (.ok (JSON.obj [("ID", JSON.str "uuid-1"), ("PodInfo", JSON.arr [])]))).2.PodInfo
      = (IPConfigurationStatus.zero String).PodInfo :=
  (unmarshalJSON_podInfo_dispatch keyUnmarshalPodInfo (IPConfigurationStatus.zero String)
    [("ID", JSON.str "uuid-1"), ("PodInfo", JSON.arr [])] (JSON.arr []) rfl
    (by
      intro key hkey s hs
      simp only [List.mem_cons, List.mem_singleton, List.mem_nil_iff, or_false] at hkey
      rcases hkey with h | h | h | h <;> subst h <;> simp [JSON.rawMapGet] at hs
      subst hs
      rfl)).2 _ rfl

end cns

/-! ## processlock/processlock.go -/

namespace processlock

theorem digitVal_digitChar (d : Nat) (h : d < 10) : digitVal (digitChar d) = some d := by
  interval_cases d <;> decide

theorem digitChar_ne_sign (d : Nat) (h : d < 10) :
    digitChar d ≠ '-' ∧ digitChar d ≠ '+' := by
  interval_cases d <;> decide

/-- Parsing the digits written by `digitsAux` adds the number to the accumulator,
    shifted by the number of digits. -/
theorem parseDigits_digitsAux (fuel : Nat) :
    ∀ (n : Nat) (acc : List Char), n < fuel →
      ∃ k, ∀ a, parseDigits (digitsAux fuel n acc) a = parseDigits acc (a * 10 ^ k + n) := by
  induction fuel with
  | zero => intro n acc h; omega
  | succ f ih =>
    intro n acc h
    by_cases hn : n < 10
    · refine ⟨1, fun a => ?_⟩
      simp [digitsAux, hn, parseDigits, digitVal_digitChar n hn]
    · have hlt : n / 10 < f := by omega
      obtain ⟨k, hk⟩ := ih (n / 10) (digitChar (n % 10) :: acc) hlt
      refine ⟨k + 1, fun a => ?_⟩
      have hmod : n % 10 < 10 := Nat.mod_lt _ (by decide)
      simp only [digitsAux, hn, if_false, hk, parseDigits, digitVal_digitChar _ hmod]
      congr 1
      rw [pow_succ]
      have := Nat.div_add_mod n 10
      nlinarith [Nat.div_add_mod n 10]

/-- The digits written by `digitsAux` start with a digit, not with a sign. -/
theorem digitsAux_head (fuel : Nat) :
    ∀ (n : Nat) (acc : List Char), n < fuel →
      ∃ d rest, d < 10 ∧ digitsAux fuel n acc = digitChar d :: rest := by
  induction fuel with
  | zero => intro n acc h; omega
  | succ f ih =>
    intro n acc h
    by_cases hn : n < 10
    · exact ⟨n, acc, hn, by simp [digitsAux, hn]⟩
    · have hlt : n / 10 < f := by omega
      obtain ⟨d, rest, hd, hrest⟩ := ih (n / 10) (digitChar (n % 10) :: acc) hlt
      exact ⟨d, rest, hd, by simp [digitsAux, hn, hrest]⟩

/-- `strconv.Atoi` reads back what `strconv.Itoa` wrote. -/
theorem Atoi_Itoa (n : Nat) : Atoi (Itoa n) = some (n : Int) := by
  obtain ⟨d, rest, hd, hrest⟩ := digitsAux_head (n + 1) n [] (Nat.lt_succ_self n)
  obtain ⟨k, hk⟩ := parseDigits_digitsAux (n + 1) n [] (Nat.lt_succ_self n)
  have hsign := digitChar_ne_sign d hd
  have hparse : parseDigits (digitChar d :: rest) 0 = some n := by
    rw [← hrest, hk 0]
    simp [parseDigits]
  simp only [Atoi, Itoa, hrest, hsign.1, hsign.2, if_false, hparse]
  rfl

theorem hasInfix_self (sub : List Char) : hasInfix sub sub = true := by
  cases sub with
  | nil => rfl
  | cons c cs =>
    have h : (c :: cs).isPrefixOf (c :: cs) = true :=
      List.isPrefixOf_iff_prefix.mpr (List.prefix_refl _)
    simp [hasInfix, h]

theorem hasInfix_append (xs sub : List Char) : hasInfix (xs ++ sub) sub = true := by
  induction xs with
  | nil => simpa using hasInfix_self sub
  | cons x xs ih => simp [hasInfix, ih]

/-- The error of closing a closed file mentions `fs.ErrClosed`. -/
theorem stringsContains_pathError (op path : String) :
    stringsContains (pathError op path fsErrClosed).msg fsErrClosed.msg = true := by
  simp only [stringsContains, pathError, String.data_append]
  exact hasInfix_append _ _

/-- C3. For every lock-file path and every earlier state of the files, whether the
    lock file did not exist or existed with any content: when `AcquireLock`
    returns no error, the content of the lock file is exactly the decimal string
    of the current process id, and parsing it as an integer gives that id. -/
theorem acquireLock_writes_pid (l : fileLock) (h : Host)
    (hok : (l.AcquireLock h).1 = none) :
    (l.AcquireLock h).2.2.readFile l.filePath = some (Itoa h.pid) ∧
    ((l.AcquireLock h).2.2.readFile l.filePath).bind Atoi = some (h.pid : Int) := by
  have key : (l.AcquireLock h).2.2.readFile l.filePath = some (Itoa h.pid) := by
    unfold fileLock.AcquireLock lockedfileCreate at hok ⊢
    cases hc : h.createErr with
    | some e => simp [hc] at hok
    | none =>
      simp only [hc] at hok ⊢
      cases hw : h.writeErr with
      | some e => simp [File.WriteString, Host.withFile, hw] at hok
      | none =>
        simp [File.WriteString, Host.withFile, hw, Host.readFile, List.find?]
  exact ⟨key, by rw [key]; exact Atoi_Itoa h.pid⟩

/-- Witness of C3: the lock file exists with earlier content and is overwritten. -/
theorem acquireLock_writes_pid_witness :
    (fileLock.AcquireLock { filePath := "testfiles/azure.lock", file := none }
        { files := [("testfiles/azure.lock", "99999 stale")], pid := 4242,
          createErr := none, writeErr := none, closeErr := none }).1 = none ∧
    (fileLock.AcquireLock { filePath := "testfiles/azure.lock", file := none }
        { files := [("testfiles/azure.lock", "99999 stale")], pid := 4242,
          createErr := none, writeErr := none, closeErr := none }).2.2.readFile
        "testfiles/azure.lock" = some (Itoa 4242) ∧
    ((fileLock.AcquireLock { filePath := "testfiles/azure.lock", file := none }
        { files := [("testfiles/azure.lock", "99999 stale")], pid := 4242,
          createErr := none, writeErr := none, closeErr := none }).2.2.readFile
        "testfiles/azure.lock").bind Atoi = some (4242 : Int) :=
  ⟨by decide,
   acquireLock_writes_pid { filePath := "testfiles/azure.lock", file := none }
    { files := [("testfiles/azure.lock", "99999 stale")], pid := 4242,
      createErr := none, writeErr := none, closeErr := none } (by decide)⟩

/-- C4. For every `fileLock` whose file handle is nil, as it is when `AcquireLock`
    was never called, `ReleaseLock` returns `ErrInvalidFile`, whose message is
    "Invalid File pointer", and touches neither the lock nor any file. -/
theorem releaseLock_without_acquire (l : fileLock) (h : Host) (hnil : l.file = none) :
    l.ReleaseLock h = (some ErrInvalidFile, l, h) ∧
    ErrInvalidFile.msg = "Invalid File pointer" := by
  simp [fileLock.ReleaseLock, hnil, ErrInvalidFile]

/-- Witness of C4 on the lock of `TestReleaseFileLockError`. -/
theorem releaseLock_without_acquire_witness :
    fileLock.ReleaseLock { filePath := "testfiles/newaz.lock", file := none }
        { files := [], pid := 1, createErr := none, writeErr := none, closeErr := none }
      = (some ErrInvalidFile, { filePath := "testfiles/newaz.lock", file := none },
          { files := [], pid := 1, createErr := none, writeErr := none, closeErr := none }) ∧
    ErrInvalidFile.msg = "Invalid File pointer" :=
  releaseLock_without_acquire _ _ rfl

/-- After any `ReleaseLock` on a lock that holds a handle, the handle is closed. -/
theorem releaseLock_closes (l : fileLock) (h : Host) (f : File) (hf : l.file = some f) :
    ∃ g, (l.ReleaseLock h).2.1.file = some g ∧ g.closed = true ∧
      (l.ReleaseLock h).2.1.filePath = l.filePath := by
  unfold fileLock.ReleaseLock File.Close
  simp only [hf]
  by_cases hcl : f.closed = true
  · simp [hcl, stringsContains_pathError]
  · simp only [hcl, Bool.false_eq_true, if_false]
    cases h.closeErr with
    | none => simp
    | some e => by_cases hc : stringsContains e.msg fsErrClosed.msg = true <;> simp [hc]

/-- C5. `ReleaseLock` is idempotent after a successful acquire: once `AcquireLock`
    has returned no error and a first `ReleaseLock` has returned no error, a
    further `ReleaseLock`, in whatever state the host is, returns no error and
    leaves lock and host as they are, so that the same holds for every later one:
    the "file already closed" error of the second `Close` is swallowed. -/
theorem releaseLock_idempotent (l : fileLock) (h hr : Host)
    (hacq : (l.AcquireLock h).1 = none)
    (_hrel : ((l.AcquireLock h).2.1.ReleaseLock hr).1 = none) :
    ∀ h3 : Host, ((l.AcquireLock h).2.1.ReleaseLock hr).2.1.ReleaseLock h3
      = (none, ((l.AcquireLock h).2.1.ReleaseLock hr).2.1, h3) := by
  intro h3
  have hfile : ∃ f, (l.AcquireLock h).2.1.file = some f := by
    unfold fileLock.AcquireLock lockedfileCreate at hacq ⊢
    cases hc : h.createErr with
    | some e => simp [hc] at hacq
    | none =>
      simp only [hc]
      split <;> exact ⟨_, rfl⟩
  obtain ⟨f, hf⟩ := hfile
  obtain ⟨g, hg, hclosed, _⟩ := releaseLock_closes (l.AcquireLock h).2.1 hr f hf
  generalize ((l.AcquireLock h).2.1.ReleaseLock hr).2.1 = l2 at hg ⊢
  cases l2 with
  | mk fp fl =>
    simp only at hg
    subst hg
    simp [fileLock.ReleaseLock, File.Close, hclosed, stringsContains_pathError]

/-- Witness of C5 on the first case of `TestFileLock`: the second `ReleaseLock`. -/
theorem releaseLock_idempotent_witness :
    ((fileLock.AcquireLock { filePath := "testfiles/newaz.lock", file := none }
          { files := [], pid := 7, createErr := none, writeErr := none, closeErr := none }).2.1.ReleaseLock
          { files := [("testfiles/newaz.lock", "7")], pid := 7, createErr := none,
            writeErr := none, closeErr := none }).2.1.ReleaseLock
        { files := [("testfiles/newaz.lock", "7")], pid := 7, createErr := none,
          writeErr := none, closeErr := none }
      = (none,
         ((fileLock.AcquireLock { filePath := "testfiles/newaz.lock", file := none }
          { files := [], pid := 7, createErr := none, writeErr := none, closeErr := none }).2.1.ReleaseLock
          { files := [("testfiles/newaz.lock", "7")], pid := 7, createErr := none,
            writeErr := none, closeErr := none }).2.1,
         { files := [("testfiles/newaz.lock", "7")], pid := 7, createErr := none,
           writeErr := none, closeErr := none }) :=
  releaseLock_idempotent { filePath := "testfiles/newaz.lock", file := none }
    { files := [], pid := 7, createErr := none, writeErr := none, closeErr := none }
    { files := [("testfiles/newaz.lock", "7")], pid := 7, createErr := none,
      writeErr := none, closeErr := none } (by decide) (by decide)
    { files := [("testfiles/newaz.lock", "7")], pid := 7, createErr := none,
      writeErr := none, closeErr := none }

/-- Examples of `filepath.Dir` from the documentation of the Go standard library. -/
theorem filepathDir_examples :
    ["/foo/bar/baz.js", "/foo/bar/baz/", "/dirty//path///", "dev.txt", "../todo.txt", "..",
      ".", "/", ""].map filepathDir
      = ["/foo/bar", "/foo/bar/baz", "/dirty/path", ".", "..", ".", ".", "/", "."] := by
  decide

/-- C22. `NewFileLock` with the empty path returns a nil lock and `ErrEmptyFilePath`,
    whose message is "Empty file path", and leaves the host as it is: no directory
    is made. For a path that is not empty and whose parent directory `MkdirAll`
    can make, it returns no error and a lock for that path that holds no file
    handle; the files of the host are as before, so the lock file is neither
    created nor locked; it is `AcquireLock` that, when the file can be created,
    creates it and leaves an open handle in the lock. -/
theorem newFileLock_holds_no_file (path : String) (h : Host) :
    NewFileLock "" h = ((none, some ErrEmptyFilePath), h)
    ∧ ErrEmptyFilePath.msg = "Empty file path"
    ∧ (path ≠ "" → h.mkdirErr = none →
        (NewFileLock path h).1 = (some { filePath := path, file := none }, none)
        ∧ (NewFileLock path h).2.files = h.files
        ∧ (∀ p, (NewFileLock path h).2.readFile p = h.readFile p)
        ∧ filepathDir path ∈ (NewFileLock path h).2.dirs
        ∧ (∀ h2 : Host, h2.createErr = none →
            (fileLock.AcquireLock { filePath := path, file := none } h2).2.1.file
              = some { name := path, closed := false }
            ∧ (fileLock.AcquireLock { filePath := path, file := none } h2).2.2.readFile path
              ≠ none)) := by
  refine ⟨by simp [NewFileLock], rfl, ?_⟩
  intro hne hmk
  have hnew : NewFileLock path h
      = ((some { filePath := path, file := none }, none),
         if filepathDir path ∈ h.dirs then h
         else { h with dirs := filepathDir path :: h.dirs }) := by
    simp [NewFileLock, MkdirAll, hne, hmk]
  rw [hnew]
  refine ⟨rfl, ?_, ?_, ?_, ?_⟩
  · split <;> rfl
  · intro p
    split <;> rfl
  · split
    · assumption
    · simp
  · intro h2 hc
    unfold fileLock.AcquireLock lockedfileCreate
    simp only [hc]
    unfold File.WriteString
    cases hw : h2.writeErr with
    | some e => simp [Host.withFile, Host.readFile, List.find?, hw]
    | none => simp [Host.withFile, Host.readFile, List.find?, hw]

/-- Witness of C22 on the lock file of the CNI state: the directory is made, the
    lock holds no handle and no file exists. -/
theorem newFileLock_holds_no_file_witness :
    (NewFileLock "/var/run/azure-vnet.json.lock"
        { files := [], pid := 7, createErr := none, writeErr := none, closeErr := none }).1
      = (some { filePath := "/var/run/azure-vnet.json.lock", file := none }, none)
    ∧ (NewFileLock "/var/run/azure-vnet.json.lock"
        { files := [], pid := 7, createErr := none, writeErr := none, closeErr := none }).2.files
      = []
    ∧ (NewFileLock "/var/run/azure-vnet.json.lock"
        { files := [], pid := 7, createErr := none, writeErr := none, closeErr := none }).2.dirs
      = ["/var/run"] :=
  have key := (newFileLock_holds_no_file "/var/run/azure-vnet.json.lock"
    { files := [], pid := 7, createErr := none, writeErr := none, closeErr := none }).2.2
    (by decide) rfl
  ⟨key.1, key.2.1, by decide⟩

/-- C25. `AcquireLock` does not release on a failed write of the process id: when
    the file is created and locked and the write fails with `e`, the call returns
    `e` wrapped in "Write to lockfile failed" and the lock keeps the open handle
    of the file, so that a following `ReleaseLock` closes that handle and, its
    `Close` meeting no error, returns no error; the only error it can return is
    the one `Close` meets, wrapped in "Failed to release lock". When creating the file fails with
    `e`, the call returns `e` wrapped in "Failed to acquire lock" and the host is
    as before: no process id is written. -/
theorem acquireLock_keeps_handle_on_write_error (l : fileLock) (h : Host) (e : GoError) :
    (h.createErr = none → h.writeErr = some e →
      (l.AcquireLock h).1 = some (e.Wrap "Write to lockfile failed")
      ∧ (e.Wrap "Write to lockfile failed").msg = "Write to lockfile failed: " ++ e.msg
      ∧ (l.AcquireLock h).2.1.file = some { name := l.filePath, closed := false }
      ∧ (∀ hr : Host, hr.closeErr = none →
          (l.AcquireLock h).2.1.ReleaseLock hr
            = (none, { filePath := l.filePath,
                       file := some { name := l.filePath, closed := true } }, hr))
      ∧ (∀ hr : Host,
          ((l.AcquireLock h).2.1.ReleaseLock hr).2.1.file
            = some { name := l.filePath, closed := true }
          ∧ (((l.AcquireLock h).2.1.ReleaseLock hr).1 = none
            ∨ ∃ e2, hr.closeErr = some e2
              ∧ ((l.AcquireLock h).2.1.ReleaseLock hr).1
                = some (e2.Wrap "Failed to release lock"))))
    ∧ (h.createErr = some e →
      (l.AcquireLock h).1 = some (e.Wrap "Failed to acquire lock")
      ∧ (e.Wrap "Failed to acquire lock").msg = "Failed to acquire lock: " ++ e.msg
      ∧ (l.AcquireLock h).2.2 = h) := by
  constructor
  · intro hc hw
    have hacq : l.AcquireLock h
        = (some (e.Wrap "Write to lockfile failed"),
           { l with file := some { name := l.filePath, closed := false } },
           h.withFile l.filePath "") := by
      simp [fileLock.AcquireLock, lockedfileCreate, hc, File.WriteString, Host.withFile, hw]
    rw [hacq]
    refine ⟨rfl, rfl, rfl, ?_, ?_⟩
    · intro hr hcl
      simp [fileLock.ReleaseLock, File.Close, hcl]
    · intro hr
      cases hcl : hr.closeErr with
      | none => simp [fileLock.ReleaseLock, File.Close, hcl]
      | some e2 =>
        by_cases hs : stringsContains e2.msg fsErrClosed.msg = true
        · simp [fileLock.ReleaseLock, File.Close, hcl, hs]
        · simp [fileLock.ReleaseLock, File.Close, hcl, hs]
  · intro hc
    simp [fileLock.AcquireLock, lockedfileCreate, hc, GoError.Wrap]

/-- Witness of C25: the write fails on a full disk, the handle stays and the next
    `ReleaseLock` returns no error. -/
theorem acquireLock_keeps_handle_on_write_error_witness :
    (fileLock.AcquireLock { filePath := "testfiles/azure.lock", file := none }
        { files := [], pid := 4242, createErr := none,
          writeErr := some ⟨"no space left on device"⟩, closeErr := none }).1
      = some ⟨"Write to lockfile failed: no space left on device"⟩
    ∧ ((fileLock.AcquireLock { filePath := "testfiles/azure.lock", file := none }
        { files := [], pid := 4242, createErr := none,
          writeErr := some ⟨"no space left on device"⟩, closeErr := none }).2.1.ReleaseLock
        { files := [("testfiles/azure.lock", "")], pid := 4242, createErr := none,
          writeErr := none, closeErr := none }).1 = none :=
  have key := (acquireLock_keeps_handle_on_write_error
    { filePath := "testfiles/azure.lock", file := none }
    { files := [], pid := 4242, createErr := none,
      writeErr := some ⟨"no space left on device"⟩, closeErr := none }
    ⟨"no space left on device"⟩).1 rfl rfl
  ⟨key.1, by rw [key.2.2.2.1 _ rfl]⟩

end processlock

/-! ## npm pod controller -/

namespace npm

theorem podMapGet_podMapSet (m : List (String × NpmPod)) (key : String) (e : NpmPod) :
    podMapGet (podMapSet m key e) key = some e := by
  simp [podMapGet, podMapSet, List.find?]

/-- Deleting a key that is not cached leaves the cache as it is. -/
theorem podMapDelete_of_get_none (m : List (String × NpmPod)) (key : String)
    (h : podMapGet m key = none) : podMapDelete m key = m := by
  simp only [podMapGet, Option.map_eq_none', List.find?_eq_none] at h
  simp only [podMapDelete, List.filter_eq_self]
  intro e he
  simpa using h e he

theorem mem_of_podMapGet (m : List (String × NpmPod)) (key : String) (e : NpmPod)
    (h : podMapGet m key = some e) : (key, e) ∈ m := by
  simp only [podMapGet, Option.map_eq_some'] at h
  obtain ⟨a, ha, rfl⟩ := h
  have hk := List.find?_some ha
  have hm := List.mem_of_find?_eq_some ha
  simp only [decide_eq_true_eq] at hk
  subst hk
  exact hm

/-- The invariant `namespacesCached` holds when the controller is created. -/
theorem namespacesCached_new (pods : List Pod) : (NewPodController pods).namespacesCached := by
  intro e he
  simp [NewPodController] at he

theorem namespacesCached_cleanUp (c : PodController) (key : String)
    (h : c.namespacesCached) : (c.cleanUpDeletedPod key).namespacesCached := by
  unfold PodController.cleanUpDeletedPod
  cases podMapGet c.podMap key with
  | none => exact h
  | some cached =>
    intro e he
    simp only [podMapDelete, List.mem_filter] at he
    exact h e he.1

theorem namespacesCached_syncAdded (c : PodController) (pod : Pod)
    (h : c.namespacesCached) : (c.syncAddedPod pod).namespacesCached := by
  intro e he
  simp only [PodController.syncAddedPod, podMapSet, List.mem_cons, List.mem_filter] at he
  simp only [PodController.syncAddedPod]
  rcases he with rfl | ⟨he, _⟩
  · by_cases hns : pod.Namespace ∈ c.nsMap <;> simp [hns, newNpmPod]
  · have := h e he
    by_cases hns : pod.Namespace ∈ c.nsMap <;> simp [hns, this]

/-- The invariant `namespacesCached` is kept by every reconcile pass. -/
theorem namespacesCached_syncPod (c : PodController) (key : String)
    (h : c.namespacesCached) : (c.syncPod key).namespacesCached := by
  have hstep : ∀ pod : Pod, (c.syncAddAndUpdatePod pod).namespacesCached := by
    intro pod
    unfold PodController.syncAddAndUpdatePod
    cases hg : podMapGet c.podMap (podKey pod) with
    | none =>
      simp only
      split
      · exact h
      · exact namespacesCached_syncAdded c pod h
    | some cached =>
      simp only
      split
      · exact namespacesCached_syncAdded _ pod (namespacesCached_cleanUp c _ h)
      · intro e he
        simp only [podMapSet, List.mem_cons, List.mem_filter] at he
        rcases he with rfl | ⟨he, _⟩
        · exact h (podKey pod, cached) (mem_of_podMapGet _ _ cached hg)
        · exact h e he
  have hmid : (match listerGet c.podLister key with
        | none => c.cleanUpDeletedPod key
        | some pod =>
          if isTerminalPhase pod.Phase then c.cleanUpDeletedPod key
          else c.syncAddAndUpdatePod pod).namespacesCached := by
    cases listerGet c.podLister key with
    | none => exact namespacesCached_cleanUp c key h
    | some pod =>
      simp only
      split
      · exact namespacesCached_cleanUp c key h
      · exact hstep pod
  intro e he
  exact hmid e he

/-- The invariant `namespacesCached` is kept by `processNextWorkItem`; the informer
    callbacks only touch the queue. -/
theorem namespacesCached_processNextWorkItem (c : PodController)
    (h : c.namespacesCached) : c.processNextWorkItem.namespacesCached := by
  unfold PodController.processNextWorkItem
  cases hq : c.workqueue with
  | nil => exact h
  | cons key rest => exact namespacesCached_syncPod _ key h

/-- C6. For a pod that is not host-network, is in a non-terminal phase and has a
    non-empty IP, whose namespace and which itself are not yet cached, the Add
    event followed by its reconcile pass issues exactly these calls: the
    namespace set is added to the all-namespaces list; the pod IP is added to the
    namespace set; for every label `k=v` the IP is added to the key set `k` and to
    the key:value set `k:v`; for every named port `ip,port` is added to the
    named-port set; then `ApplyDataPlane`, called once. Afterwards the pod cache
    has an entry under `ns/name` with the IP, labels and container ports of the
    pod, the namespace is cached and the queue is empty. -/
theorem addPod_reconcile (c : PodController) (pod : Pod)
    (hhost : pod.HostNetwork = false) (hphase : isTerminalPhase pod.Phase = false)
    (hip : pod.PodIP ≠ "") (hns : pod.Namespace ∉ c.nsMap)
    (hnew : podMapGet c.podMap (podKey pod) = none)
    (hlister : listerGet c.podLister (podKey pod) = some pod)
    (hqueue : c.workqueue = []) :
    (fixtureAddPod c pod).dp = c.dp
        ++ [DPCall.AddToLists [kubeAllNamespaces] [namespaceSet pod.Namespace],
            DPCall.AddToSets [namespaceSet pod.Namespace]
              (NewPodMetadata (pod.Namespace ++ "/" ++ pod.Name) pod.PodIP "")]
        ++ pod.Labels.map (fun kv =>
            DPCall.AddToSets [labelKeySet kv.1, labelKeyValueSet kv.1 kv.2]
              (NewPodMetadata (pod.Namespace ++ "/" ++ pod.Name) pod.PodIP ""))
        ++ (namedPorts (getContainerPortList pod)).map (fun p =>
            DPCall.AddToSets [namedPortSet p]
              (NewPodMetadata (pod.Namespace ++ "/" ++ pod.Name)
                (pod.PodIP ++ "," ++ toString p.ContainerPort) ""))
        ++ [DPCall.ApplyDataPlane]
    ∧ ((fixtureAddPod c pod).dp.drop c.dp.length).count DPCall.ApplyDataPlane = 1
    ∧ (∃ e, podMapGet (fixtureAddPod c pod).podMap (pod.Namespace ++ "/" ++ pod.Name) = some e
        ∧ e.PodIP = pod.PodIP ∧ e.Labels = pod.Labels
        ∧ e.ContainerPorts = getContainerPortList pod)
    ∧ pod.Namespace ∈ (fixtureAddPod c pod).nsMap
    ∧ (fixtureAddPod c pod).workqueue = [] := by
  have hval : hasValidPodIP pod = true := by simp [hasValidPodIP, hip]
  have hfix : fixtureAddPod c pod = PodController.syncPod c (podKey pod) := by
    cases c
    simp only at hqueue
    subst hqueue
    simp [fixtureAddPod, PodController.addPod, isHostNetworkPod, hhost, hval, hphase,
      workqueueAdd, PodController.processNextWorkItem]
  have hsync : PodController.syncPod c (podKey pod) =
      { c.syncAddedPod pod with dp := (c.syncAddedPod pod).dp ++ [DPCall.ApplyDataPlane] } := by
    simp [PodController.syncPod, hlister, hphase, PodController.syncAddAndUpdatePod, hnew,
      isHostNetworkPod, hhost, hval]
  have hdp : (fixtureAddPod c pod).dp = c.dp
        ++ [DPCall.AddToLists [kubeAllNamespaces] [namespaceSet pod.Namespace],
            DPCall.AddToSets [namespaceSet pod.Namespace]
              (NewPodMetadata (pod.Namespace ++ "/" ++ pod.Name) pod.PodIP "")]
        ++ pod.Labels.map (fun kv =>
            DPCall.AddToSets [labelKeySet kv.1, labelKeyValueSet kv.1 kv.2]
              (NewPodMetadata (pod.Namespace ++ "/" ++ pod.Name) pod.PodIP ""))
        ++ (namedPorts (getContainerPortList pod)).map (fun p =>
            DPCall.AddToSets [namedPortSet p]
              (NewPodMetadata (pod.Namespace ++ "/" ++ pod.Name)
                (pod.PodIP ++ "," ++ toString p.ContainerPort) ""))
        ++ [DPCall.ApplyDataPlane] := by
    rw [hfix, hsync]
    simp [PodController.syncAddedPod, hns, podSetCalls, podKey, namedPortMember]
  refine ⟨hdp, ?_, ?_, ?_, ?_⟩
  · rw [hdp]
    simp only [List.append_assoc, List.drop_left, List.count_append]
    have h1 : ∀ l : List (String × String), (l.map (fun kv =>
        DPCall.AddToSets [labelKeySet kv.1, labelKeyValueSet kv.1 kv.2]
          (NewPodMetadata (pod.Namespace ++ "/" ++ pod.Name) pod.PodIP ""))).count
          DPCall.ApplyDataPlane = 0 := by
      intro l
      simp [List.count_eq_zero]
    have h2 : ∀ l : List ContainerPort, (l.map (fun p =>
        DPCall.AddToSets [namedPortSet p]
          (NewPodMetadata (pod.Namespace ++ "/" ++ pod.Name)
            (pod.PodIP ++ "," ++ toString p.ContainerPort) ""))).count
          DPCall.ApplyDataPlane = 0 := by
      intro l
      simp [List.count_eq_zero]
    rw [h1, h2]
    simp [List.count_cons]
  · rw [hfix, hsync]
    refine ⟨_, podMapGet_podMapSet _ _ _, ?_, ?_, ?_⟩ <;> rfl
  · rw [hfix, hsync]
    simp [PodController.syncAddedPod, hns]
  · rw [hfix, hsync]
    simp [PodController.syncAddedPod, hqueue]

/-- Witness of C6 on the pod of `TestAddPod`: the five calls the test expects. -/
theorem addPod_reconcile_witness :
    (fixtureAddPod (NewPodController [testPod]) testPod).dp =
      [DPCall.AddToLists [kubeAllNamespaces] [NewIPSetMetadata "test-namespace" SetType.Namespace],
       DPCall.AddToSets [NewIPSetMetadata "test-namespace" SetType.Namespace]
         (NewPodMetadata "test-namespace/test-pod" "1.2.3.4" ""),
       DPCall.AddToSets [NewIPSetMetadata "app" SetType.KeyLabelOfPod,
           NewIPSetMetadata "app:test-pod" SetType.KeyValueLabelOfPod]
         (NewPodMetadata "test-namespace/test-pod" "1.2.3.4" ""),
       DPCall.AddToSets [NewIPSetMetadata "app:test-pod" SetType.NamedPorts]
         (NewPodMetadata "test-namespace/test-pod" "1.2.3.4,8080" ""),
       DPCall.ApplyDataPlane] :=
  (addPod_reconcile (NewPodController [testPod]) testPod rfl rfl (by decide) (by decide)
    rfl rfl rfl).1.trans (by decide)

/-- C8. For every host-network pod the Add callback and the Delete callback, for
    the pod itself or for a tombstone, leave the controller exactly as it was: no
    key is queued, so no reconcile pass follows, no pod-cache or namespace-cache
    entry is created and no dataplane call is made. With an empty queue the test
    drivers `addPod` and `deletePod` therefore leave pod cache, namespace cache,
    queue and recorded calls unchanged. -/
theorem hostNetworkPod_no_side_effects (c : PodController) (pod : Pod)
    (hhost : pod.HostNetwork = true) :
    c.addPod pod = c
    ∧ c.deletePod (DeletedObject.pod pod) = c
    ∧ (∀ key, c.deletePod (DeletedObject.tombstone key pod) = c)
    ∧ (c.workqueue = [] → fixtureAddPod c pod = c)
    ∧ (c.workqueue = [] → ∀ tombstone : Bool,
        (fixtureDeletePod c pod tombstone).podMap = c.podMap
        ∧ (fixtureDeletePod c pod tombstone).nsMap = c.nsMap
        ∧ (fixtureDeletePod c pod tombstone).workqueue = []
        ∧ (fixtureDeletePod c pod tombstone).dp = c.dp) := by
  have hadd : c.addPod pod = c := by simp [PodController.addPod, isHostNetworkPod, hhost]
  have hfix : c.workqueue = [] → fixtureAddPod c pod = c := by
    intro hq
    simp [fixtureAddPod, hadd, hq]
  refine ⟨hadd, ?_, ?_, hfix, ?_⟩
  · simp [PodController.deletePod, isHostNetworkPod, hhost]
  · intro key
    simp [PodController.deletePod, isHostNetworkPod, hhost]
  · intro hq tombstone
    cases tombstone <;>
      simp [fixtureDeletePod, hfix hq, PodController.deletePod, isHostNetworkPod, hhost, hq]

/-- Witness of C8 on the pod of `TestAddHostNetworkPod` and `TestDeleteHostNetworkPod`. -/
theorem hostNetworkPod_no_side_effects_witness :
    fixtureAddPod (NewPodController [testHostNetworkPod]) testHostNetworkPod
      = NewPodController [testHostNetworkPod]
    ∧ (fixtureDeletePod (NewPodController [testHostNetworkPod]) testHostNetworkPod false).dp = []
    ∧ (fixtureDeletePod (NewPodController [testHostNetworkPod]) testHostNetworkPod false).podMap
        = [] :=
  have h := hostNetworkPod_no_side_effects (NewPodController [testHostNetworkPod])
    testHostNetworkPod rfl
  ⟨h.2.2.2.1 rfl, (h.2.2.2.2 rfl false).2.2.2, (h.2.2.2.2 rfl false).1⟩

/-- C10, as stated, fails: the cached pod of `TestIPAddressUpdatePod` changes its
    IP from 1.2.3.4 to 4.3.2.1 with labels and ports unchanged, but the updated
    pod is in phase `Succeeded`. The reconcile pass treats it as a Delete: the
    old IP is removed from every set, the new IP is added to none, and no cache
    entry is left to hold it. -/
theorem ip_update_terminal_phase_is_delete :
    (podMapGet (afterAddThenStore { testPodNewIP with Phase := PodPhase.Succeeded }).podMap
        "test-namespace/test-pod").map
        (fun e => (e.PodIP, e.Labels, e.ContainerPorts))
      = some ("1.2.3.4", ({ testPodNewIP with Phase := PodPhase.Succeeded } : Pod).Labels,
          getContainerPortList { testPodNewIP with Phase := PodPhase.Succeeded })
    ∧ ({ testPodNewIP with Phase := PodPhase.Succeeded } : Pod).PodIP = "4.3.2.1"
    ∧ (((afterAddThenStore { testPodNewIP with Phase := PodPhase.Succeeded }).syncPod
          "test-namespace/test-pod").dp.drop
        (afterAddThenStore { testPodNewIP with Phase := PodPhase.Succeeded }).dp.length)
      = [DPCall.RemoveFromSets [namespaceSet "test-namespace"]
           (NewPodMetadata "test-namespace/test-pod" "1.2.3.4" ""),
         DPCall.RemoveFromSets [labelKeySet "app", labelKeyValueSet "app" "test-pod"]
           (NewPodMetadata "test-namespace/test-pod" "1.2.3.4" ""),
         DPCall.RemoveFromSets [NewIPSetMetadata "app:test-pod" SetType.NamedPorts]
           (NewPodMetadata "test-namespace/test-pod" "1.2.3.4,8080" ""),
         DPCall.ApplyDataPlane]
    ∧ podMapGet ((afterAddThenStore { testPodNewIP with Phase := PodPhase.Succeeded }).syncPod
          "test-namespace/test-pod").podMap "test-namespace/test-pod" = none := by
  decide

/-- C10, amended. For every cached pod whose IP changes from `a` to `b`, `a ≠ b`,
    with labels and ports unchanged, and whose new phase is not terminal, the
    reconcile pass of the Update first removes `a` from the namespace set and
    from the key set and key:value set of every label and removes `a,port` from
    every named-port set, then adds `b` to the same sets and `b,port` to the
    same named-port sets, then applies the dataplane; it makes no `AddToLists`
    call, the namespace cache is unchanged, and the cached IP becomes `b`. The
    state is one in which every cached pod has its namespace cached. -/
theorem ip_update_reconcile (c : PodController) (pod : Pod) (cached : NpmPod)
    (hinv : c.namespacesCached)
    (hlister : listerGet c.podLister (podKey pod) = some pod)
    (hcached : podMapGet c.podMap (podKey pod) = some cached)
    (hns : cached.Namespace = pod.Namespace)
    (hip : cached.PodIP ≠ pod.PodIP)
    (hlabels : cached.Labels = pod.Labels)
    (hports : cached.ContainerPorts = getContainerPortList pod)
    (hphase : isTerminalPhase pod.Phase = false) :
    (c.syncPod (podKey pod)).dp = c.dp
        ++ [DPCall.RemoveFromSets [namespaceSet pod.Namespace]
              (NewPodMetadata (podKey pod) cached.PodIP "")]
        ++ pod.Labels.map (fun kv =>
            DPCall.RemoveFromSets [labelKeySet kv.1, labelKeyValueSet kv.1 kv.2]
              (NewPodMetadata (podKey pod) cached.PodIP ""))
        ++ (namedPorts (getContainerPortList pod)).map (fun p =>
            DPCall.RemoveFromSets [namedPortSet p]
              (NewPodMetadata (podKey pod) (cached.PodIP ++ "," ++ toString p.ContainerPort) ""))
        ++ [DPCall.AddToSets [namespaceSet pod.Namespace]
              (NewPodMetadata (podKey pod) pod.PodIP "")]
        ++ pod.Labels.map (fun kv =>
            DPCall.AddToSets [labelKeySet kv.1, labelKeyValueSet kv.1 kv.2]
              (NewPodMetadata (podKey pod) pod.PodIP ""))
        ++ (namedPorts (getContainerPortList pod)).map (fun p =>
            DPCall.AddToSets [namedPortSet p]
              (NewPodMetadata (podKey pod) (pod.PodIP ++ "," ++ toString p.ContainerPort) ""))
        ++ [DPCall.ApplyDataPlane]
    ∧ (∀ lists sets,
        DPCall.AddToLists lists sets ∉ (c.syncPod (podKey pod)).dp.drop c.dp.length)
    ∧ (c.syncPod (podKey pod)).nsMap = c.nsMap
    ∧ ∃ e, podMapGet (c.syncPod (podKey pod)).podMap (podKey pod) = some e
        ∧ e.PodIP = pod.PodIP ∧ e.Labels = pod.Labels
        ∧ e.ContainerPorts = getContainerPortList pod := by
  have hnsin : pod.Namespace ∈ c.nsMap := by
    have := hinv (podKey pod, cached) (mem_of_podMapGet _ _ _ hcached)
    simpa [hns] using this
  have hsync : c.syncPod (podKey pod) =
      { (c.cleanUpDeletedPod (podKey pod)).syncAddedPod pod with
        dp := ((c.cleanUpDeletedPod (podKey pod)).syncAddedPod pod).dp
          ++ [DPCall.ApplyDataPlane] } := by
    simp [PodController.syncPod, hlister, hphase, PodController.syncAddAndUpdatePod, hcached,
      hip]
  have hdp : (c.syncPod (podKey pod)).dp = c.dp
        ++ [DPCall.RemoveFromSets [namespaceSet pod.Namespace]
              (NewPodMetadata (podKey pod) cached.PodIP "")]
        ++ pod.Labels.map (fun kv =>
            DPCall.RemoveFromSets [labelKeySet kv.1, labelKeyValueSet kv.1 kv.2]
              (NewPodMetadata (podKey pod) cached.PodIP ""))
        ++ (namedPorts (getContainerPortList pod)).map (fun p =>
            DPCall.RemoveFromSets [namedPortSet p]
              (NewPodMetadata (podKey pod) (cached.PodIP ++ "," ++ toString p.ContainerPort) ""))
        ++ [DPCall.AddToSets [namespaceSet pod.Namespace]
              (NewPodMetadata (podKey pod) pod.PodIP "")]
        ++ pod.Labels.map (fun kv =>
            DPCall.AddToSets [labelKeySet kv.1, labelKeyValueSet kv.1 kv.2]
              (NewPodMetadata (podKey pod) pod.PodIP ""))
        ++ (namedPorts (getContainerPortList pod)).map (fun p =>
            DPCall.AddToSets [namedPortSet p]
              (NewPodMetadata (podKey pod) (pod.PodIP ++ "," ++ toString p.ContainerPort) ""))
        ++ [DPCall.ApplyDataPlane] := by
    rw [hsync]
    simp [PodController.syncAddedPod, PodController.cleanUpDeletedPod, hcached, hnsin,
      podSetCalls, namedPortMember, hns, hlabels, hports]
  refine ⟨hdp, ?_, ?_, ?_⟩
  · intro lists sets hmem
    rw [hdp] at hmem
    simp only [List.append_assoc, List.drop_left] at hmem
    simp at hmem
  · rw [hsync]
    simp [PodController.syncAddedPod, PodController.cleanUpDeletedPod, hcached, hnsin]
  · rw [hsync]
    exact ⟨_, podMapGet_podMapSet _ _ _, rfl, rfl, rfl⟩

/-- Witness of the amended C10 on `TestIPAddressUpdatePod`: the calls the test
    expects after the Add. -/
theorem ip_update_reconcile_witness :
    ((afterAddThenStore testPodNewIP).syncPod (podKey testPodNewIP)).dp.drop
        (afterAddThenStore testPodNewIP).dp.length
      = [DPCall.RemoveFromSets [NewIPSetMetadata "test-namespace" SetType.Namespace]
           (NewPodMetadata "test-namespace/test-pod" "1.2.3.4" ""),
         DPCall.RemoveFromSets [NewIPSetMetadata "app" SetType.KeyLabelOfPod,
             NewIPSetMetadata "app:test-pod" SetType.KeyValueLabelOfPod]
           (NewPodMetadata "test-namespace/test-pod" "1.2.3.4" ""),
         DPCall.RemoveFromSets [NewIPSetMetadata "app:test-pod" SetType.NamedPorts]
           (NewPodMetadata "test-namespace/test-pod" "1.2.3.4,8080" ""),
         DPCall.AddToSets [NewIPSetMetadata "test-namespace" SetType.Namespace]
           (NewPodMetadata "test-namespace/test-pod" "4.3.2.1" ""),
         DPCall.AddToSets [NewIPSetMetadata "app" SetType.KeyLabelOfPod,
             NewIPSetMetadata "app:test-pod" SetType.KeyValueLabelOfPod]
           (NewPodMetadata "test-namespace/test-pod" "4.3.2.1" ""),
         DPCall.AddToSets [NewIPSetMetadata "app:test-pod" SetType.NamedPorts]
           (NewPodMetadata "test-namespace/test-pod" "4.3.2.1,8080" ""),
         DPCall.ApplyDataPlane] := by
  have h := (ip_update_reconcile (afterAddThenStore testPodNewIP) testPodNewIP
    { newNpmPod testPod with Labels := testPod.Labels,
                             ContainerPorts := getContainerPortList testPod }
    (by decide) (by decide) (by decide) (by decide) (by decide) (by decide) (by decide)
    (by decide)).1
  rw [h]
  decide

/-! ### The IP-set store under the recorded calls -/

theorem addMember_members (s : IPSet) (x : String) :
    (s.addMember x).members = addMem x s.members := by
  unfold IPSet.addMember addMem
  split <;> rfl

theorem addMember_Metadata (s : IPSet) (x : String) : (s.addMember x).Metadata = s.Metadata := by
  unfold IPSet.addMember
  split <;> rfl

theorem removeMember_members (s : IPSet) (x : String) :
    (s.removeMember x).members = remMem x s.members := by
  unfold IPSet.removeMember remMem
  split
  · rfl
  · rename_i h
    symm
    rw [List.filter_eq_self]
    intro y hy
    simp only [ne_eq, decide_eq_true_eq]
    rintro rfl
    exact h hy

theorem removeMember_Metadata (s : IPSet) (x : String) :
    (s.removeMember x).Metadata = s.Metadata := by
  unfold IPSet.removeMember
  split <;> rfl

theorem getIPSet_Metadata (store : List IPSet) (m : IPSetMetadata) (s : IPSet)
    (h : getIPSet store m = some s) : s.Metadata = m := by
  have := List.find?_some h
  simpa using this

theorem getIPSet_map (store : List IPSet) (f : IPSet → IPSet)
    (hf : ∀ s, (f s).Metadata = s.Metadata) (x : IPSetMetadata) :
    getIPSet (store.map f) x = (getIPSet store x).map f := by
  induction store with
  | nil => rfl
  | cons a rest ih =>
    simp only [getIPSet, List.map_cons, List.find?_cons, hf] at ih ⊢
    by_cases h : a.Metadata = x
    · simp [h]
    · simp only [h, decide_False]
      exact ih

theorem membersOf_createOrGet (store : List IPSet) (m x : IPSetMetadata) :
    membersOf (createOrGet store m) x = membersOf store x := by
  unfold createOrGet
  cases hm : getIPSet store m with
  | some s => rfl
  | none =>
    simp only [membersOf, getIPSet, List.find?_append]
    cases hx : List.find? (fun s => decide (s.Metadata = x)) store with
    | some t => simp
    | none =>
      by_cases hmx : m = x
      · simp [List.find?, hmx]
      · simp [List.find?, hmx]

theorem getIPSet_createOrGet_self (store : List IPSet) (m : IPSetMetadata) :
    ∃ s, getIPSet (createOrGet store m) m = some s := by
  unfold createOrGet
  cases hm : getIPSet store m with
  | some s => exact ⟨s, hm⟩
  | none =>
    simp only [getIPSet] at hm
    simp [getIPSet, List.find?_append, hm, List.find?]

/-- Updating the set `m` of a store by a function that keeps the name and acts on
    the members as `h` does. -/
theorem membersOf_map_update (store : List IPSet) (m : IPSetMetadata) (g : IPSet → IPSet)
    (h : List String → List String) (x : IPSetMetadata)
    (hg : ∀ s, (g s).Metadata = s.Metadata) (hh : ∀ s, (g s).members = h s.members)
    (hex : (∃ s, getIPSet store m = some s) ∨ h [] = []) :
    membersOf (store.map (fun s => if s.Metadata = m then g s else s)) x =
      if x = m then h (membersOf store x) else membersOf store x := by
  have hf : ∀ s : IPSet, (if s.Metadata = m then g s else s).Metadata = s.Metadata := by
    intro s
    split
    · exact hg s
    · rfl
  unfold membersOf
  rw [getIPSet_map store _ hf x]
  cases hx : getIPSet store x with
  | none =>
    simp only [Option.map_none']
    by_cases hxm : x = m
    · subst hxm
      simp only [if_true]
      rcases hex with ⟨s, hs⟩ | h0
      · rw [hs] at hx
        cases hx
      · exact h0.symm
    · simp [hxm]
  | some s =>
    have hmeta := getIPSet_Metadata store x s hx
    simp only [Option.map_some']
    by_cases hxm : x = m
    · subst hxm
      simp [hmeta, hh]
    · have : ¬ s.Metadata = m := by rw [hmeta]; exact hxm
      simp [this, hxm]

theorem addMem_idem (x : String) (l : List String) : addMem x (addMem x l) = addMem x l := by
  unfold addMem
  by_cases h : x ∈ l <;> simp [h]

theorem remMem_idem (x : String) (l : List String) : remMem x (remMem x l) = remMem x l := by
  simp [remMem, List.filter_filter]

theorem remMem_nil (x : String) : remMem x [] = [] := rfl

/-- Members of a set after `addToSets`. -/
theorem membersOf_addToSets (sets : List IPSetMetadata) (pod : PodMetadata) :
    ∀ (store : List IPSet) (x : IPSetMetadata),
      membersOf (addToSets store sets pod) x =
        if x ∈ sets then addMem pod.PodIP (membersOf store x) else membersOf store x := by
  induction sets with
  | nil => intro store x; simp [addToSets]
  | cons m rest ih =>
    intro store x
    have hstep : membersOf ((createOrGet store m).map
        (fun s => if s.Metadata = m then s.addMember pod.PodIP else s)) x =
        if x = m then addMem pod.PodIP (membersOf store x) else membersOf store x := by
      rw [membersOf_map_update (createOrGet store m) m (fun s => s.addMember pod.PodIP)
        (addMem pod.PodIP) x (fun s => addMember_Metadata s _) (fun s => addMember_members s _)
        (Or.inl (getIPSet_createOrGet_self store m)), membersOf_createOrGet]
    have hfold : addToSets store (m :: rest) pod = addToSets ((createOrGet store m).map
        (fun s => if s.Metadata = m then s.addMember pod.PodIP else s)) rest pod := by
      simp [addToSets]
    rw [hfold, ih, hstep]
    by_cases hxm : x = m
    · subst hxm
      by_cases hxr : x ∈ rest <;> simp [hxr, addMem_idem]
    · by_cases hxr : x ∈ rest <;> simp [hxr, hxm]

/-- Members of a set after `removeFromSets`. -/
theorem membersOf_removeFromSets (sets : List IPSetMetadata) (pod : PodMetadata) :
    ∀ (store : List IPSet) (x : IPSetMetadata),
      membersOf (removeFromSets store sets pod) x =
        if x ∈ sets then remMem pod.PodIP (membersOf store x) else membersOf store x := by
  induction sets with
  | nil => intro store x; simp [removeFromSets]
  | cons m rest ih =>
    intro store x
    have hstep : membersOf (store.map
        (fun s => if s.Metadata = m then s.removeMember pod.PodIP else s)) x =
        if x = m then remMem pod.PodIP (membersOf store x) else membersOf store x :=
      membersOf_map_update store m (fun s => s.removeMember pod.PodIP)
        (remMem pod.PodIP) x (fun s => removeMember_Metadata s _)
        (fun s => removeMember_members s _) (Or.inr (remMem_nil _))
    have hfold : removeFromSets store (m :: rest) pod = removeFromSets (store.map
        (fun s => if s.Metadata = m then s.removeMember pod.PodIP else s)) rest pod := by
      simp [removeFromSets]
    rw [hfold, ih, hstep]
    by_cases hxm : x = m
    · subst hxm
      by_cases hxr : x ∈ rest <;> simp [hxr, remMem_idem]
    · by_cases hxr : x ∈ rest <;> simp [hxr, hxm]

theorem membersOf_map_update_ne (store : List IPSet) (m : IPSetMetadata) (g : IPSet → IPSet)
    (x : IPSetMetadata) (hg : ∀ s, (g s).Metadata = s.Metadata) (hxm : x ≠ m) :
    membersOf (store.map (fun s => if s.Metadata = m then g s else s)) x = membersOf store x := by
  have hf : ∀ s : IPSet, (if s.Metadata = m then g s else s).Metadata = s.Metadata := by
    intro s
    split
    · exact hg s
    · rfl
  unfold membersOf
  rw [getIPSet_map store _ hf x]
  cases hx : getIPSet store x with
  | none => rfl
  | some s =>
    have hmeta := getIPSet_Metadata store x s hx
    have : ¬ s.Metadata = m := by rw [hmeta]; exact hxm
    simp [this]

theorem foldl_addMember_Metadata (children : List IPSetMetadata) :
    ∀ s : IPSet, (children.foldl (fun t c => t.addMember c.Name) s).Metadata = s.Metadata := by
  induction children with
  | nil => intro s; rfl
  | cons c rest ih =>
    intro s
    simp only [List.foldl_cons]
    rw [ih, addMember_Metadata]

/-- A set that is not one of the parent lists keeps its members under `addToLists`. -/
theorem membersOf_addToLists (lists children : List IPSetMetadata) (x : IPSetMetadata)
    (hx : x ∉ lists) (store store1 : List IPSet)
    (h : addToLists store lists children = some store1) :
    membersOf store1 x = membersOf store x := by
  unfold addToLists at h
  split at h
  · simp only [Option.some.injEq] at h
    subst h
    clear * - hx
    induction lists generalizing store with
    | nil => rfl
    | cons l rest ih =>
      simp only [List.mem_cons, not_or] at hx
      simp only [List.foldl_cons]
      rw [ih hx.2, membersOf_map_update_ne _ l _ x (foldl_addMember_Metadata children) hx.1,
        membersOf_createOrGet]
  · cases h

/-- Creating sets changes the members of no set. -/
theorem membersOf_CreateIPSets (sets : List IPSetMetadata) (x : IPSetMetadata) :
    ∀ store : List IPSet, membersOf (CreateIPSets store sets) x = membersOf store x := by
  induction sets with
  | nil => intro store; rfl
  | cons m rest ih =>
    intro store
    have hstep : CreateIPSets store (m :: rest) = CreateIPSets (createOrGet store m) rest := rfl
    rw [hstep, ih, membersOf_createOrGet]

theorem membersOf_applyDataPlane (store : List IPSet) (x : IPSetMetadata) :
    membersOf (applyDataPlane store) x = membersOf store x := by
  unfold membersOf applyDataPlane
  rw [getIPSet_map store (fun s => { s with dirty := false }) (fun _ => rfl) x]
  cases getIPSet store x <;> rfl

/-- The member list of a set after one recorded call. -/
theorem membersOf_run (call : DPCall) (x : IPSetMetadata) (store store1 : List IPSet)
    (hx : ∀ lists sets, call = DPCall.AddToLists lists sets → x ∉ lists)
    (h : call.run store = some store1) :
    membersOf store1 x = call.effect x (membersOf store x) := by
  cases call with
  | AddToLists lists sets =>
    rw [membersOf_addToLists lists sets x (hx lists sets rfl) _ store1 h,
      membersOf_CreateIPSets]
    rfl
  | AddToSets sets pod =>
    simp only [DPCall.run, Option.some.injEq] at h
    subst h
    exact membersOf_addToSets sets pod store x
  | RemoveFromSets sets pod =>
    simp only [DPCall.run, Option.some.injEq] at h
    subst h
    exact membersOf_removeFromSets sets pod store x
  | ApplyDataPlane =>
    simp only [DPCall.run, Option.some.injEq] at h
    subst h
    exact membersOf_applyDataPlane store x

/-- The member list of a set after a sequence of recorded calls. -/
theorem membersOf_runCalls (calls : List DPCall) (x : IPSetMetadata) :
    ∀ (store store1 : List IPSet),
      (∀ lists sets, DPCall.AddToLists lists sets ∈ calls → x ∉ lists) →
      runCalls calls store = some store1 →
      membersOf store1 x = calls.foldl (fun l c => c.effect x l) (membersOf store x) := by
  induction calls with
  | nil =>
    intro store store1 _ h
    simp only [runCalls, Option.some.injEq] at h
    subst h
    rfl
  | cons c rest ih =>
    intro store store1 hx h
    simp only [runCalls] at h
    cases hc : c.run store with
    | none => simp [hc] at h
    | some st =>
      simp only [hc] at h
      rw [List.foldl_cons, ← membersOf_run c x store st
        (fun lists sets heq => hx lists sets (heq ▸ List.mem_cons_self _ _)) hc]
      exact ih st store1 (fun lists sets hmem => hx lists sets (List.mem_cons_of_mem _ hmem)) h

theorem runCalls_append (a b : List DPCall) :
    ∀ store, runCalls (a ++ b) store = (runCalls a store).bind (runCalls b) := by
  induction a with
  | nil => intro store; rfl
  | cons c rest ih =>
    intro store
    simp only [List.cons_append, runCalls]
    cases c.run store with
    | none => rfl
    | some st => exact ih st

/-- Calls that only add: starting from `l ++ r`, the members of `l` stay in front
    and what follows them was put there by one of the calls or was in `r`. -/
theorem foldl_effect_adds (x : IPSetMetadata) (P : String → Prop) (l : List String)
    (calls : List DPCall)
    (hadd : ∀ sets pod, DPCall.RemoveFromSets sets pod ∉ calls)
    (hP : ∀ sets pod, DPCall.AddToSets sets pod ∈ calls → x ∈ sets → P pod.PodIP) :
    ∀ r : List String, (∀ y ∈ r, P y) →
      ∃ r1, calls.foldl (fun l c => c.effect x l) (l ++ r) = l ++ r1 ∧ ∀ y ∈ r1, P y := by
  induction calls with
  | nil => intro r hr; exact ⟨r, rfl, hr⟩
  | cons c rest ih =>
    intro r hr
    have ih1 := ih (fun sets pod hmem => hadd sets pod (List.mem_cons_of_mem _ hmem))
      (fun sets pod hmem => hP sets pod (List.mem_cons_of_mem _ hmem))
    simp only [List.foldl_cons]
    cases c with
    | AddToLists lists sets => exact ih1 r hr
    | ApplyDataPlane => exact ih1 r hr
    | RemoveFromSets sets pod => exact absurd (List.mem_cons_self _ _) (hadd sets pod)
    | AddToSets sets pod =>
      simp only [DPCall.effect]
      by_cases hx : x ∈ sets
      · simp only [hx, if_true, addMem]
        by_cases hin : pod.PodIP ∈ l ++ r
        · simp only [hin, if_true]
          exact ih1 r hr
        · simp only [hin, if_false, List.append_assoc]
          refine ih1 (r ++ [pod.PodIP]) ?_
          intro y hy
          simp only [List.mem_append, List.mem_singleton] at hy
          rcases hy with hy | rfl
          · exact hr y hy
          · exact hP sets pod (List.mem_cons_self _ _) hx
      · simp only [hx, if_false]
        exact ih1 r hr

/-- Calls that only remove: what is left are the members no call removes. -/
theorem foldl_effect_removes (x : IPSetMetadata) (calls : List DPCall)
    (hrem : ∀ sets pod, DPCall.AddToSets sets pod ∉ calls) :
    ∀ l : List String,
      calls.foldl (fun l c => c.effect x l) l = l.filter (fun y => !removesFrom x calls y) := by
  induction calls with
  | nil => intro l; simp [removesFrom]
  | cons c rest ih =>
    intro l
    have ih1 := ih (fun sets pod hmem => hrem sets pod (List.mem_cons_of_mem _ hmem))
    simp only [List.foldl_cons]
    rw [ih1]
    cases c with
    | AddToSets sets pod => exact absurd (List.mem_cons_self _ _) (hrem sets pod)
    | AddToLists lists sets => simp [DPCall.effect, removesFrom]
    | ApplyDataPlane => simp [DPCall.effect, removesFrom]
    | RemoveFromSets sets pod =>
      simp only [DPCall.effect, removesFrom, List.any_cons]
      by_cases hx : x ∈ sets
      · simp only [hx, if_true, remMem, List.filter_filter, decide_True, Bool.true_and,
          Bool.not_or]
        congr 1
        funext y
        by_cases hy : y = pod.PodIP
        · simp [hy]
        · have : ¬ pod.PodIP = y := fun h => hy h.symm
          simp [hy, this, removesFrom]
      · simp [hx, removesFrom]

theorem mem_filterMap_undo (calls : List DPCall) (sets : List IPSetMetadata)
    (pod : PodMetadata) :
    DPCall.RemoveFromSets sets pod ∈ calls.filterMap DPCall.undo ↔
      DPCall.AddToSets sets pod ∈ calls := by
  simp only [List.mem_filterMap]
  constructor
  · rintro ⟨c, hc, hu⟩
    cases c <;> simp [DPCall.undo] at hu
    obtain ⟨rfl, rfl⟩ := hu
    exact hc
  · intro h
    exact ⟨_, h, rfl⟩

theorem not_mem_filterMap_undo (calls : List DPCall) (sets : List IPSetMetadata)
    (pod : PodMetadata) : DPCall.AddToSets sets pod ∉ calls.filterMap DPCall.undo := by
  simp only [List.mem_filterMap, not_exists, not_and]
  intro c _ hu
  cases c <;> simp [DPCall.undo] at hu

/-- Adding members that are new to a set and then undoing every add gives back
    the member list the set had. -/
theorem foldl_effect_add_undo (x : IPSetMetadata) (calls : List DPCall) (l : List String)
    (hadd : ∀ sets pod, DPCall.RemoveFromSets sets pod ∉ calls)
    (hfresh : ∀ sets pod, DPCall.AddToSets sets pod ∈ calls → x ∈ sets → pod.PodIP ∉ l) :
    (calls ++ [DPCall.ApplyDataPlane] ++ calls.filterMap DPCall.undo
        ++ [DPCall.ApplyDataPlane]).foldl (fun l c => c.effect x l) l = l := by
  obtain ⟨r1, hr1, hP⟩ := foldl_effect_adds x
    (fun y => ∃ sets pod, DPCall.AddToSets sets pod ∈ calls ∧ x ∈ sets ∧ pod.PodIP = y)
    l calls hadd (fun sets pod hmem hx => ⟨sets, pod, hmem, hx, rfl⟩) [] (by simp)
  simp only [List.append_nil] at hr1
  have happly : ∀ l : List String, DPCall.ApplyDataPlane.effect x l = l := fun _ => rfl
  simp only [List.foldl_append, List.foldl_cons, List.foldl_nil, happly, hr1]
  rw [foldl_effect_removes x _ (not_mem_filterMap_undo calls), List.filter_append]
  have h1 : l.filter (fun y => !removesFrom x (calls.filterMap DPCall.undo) y) = l := by
    rw [List.filter_eq_self]
    intro y hy
    simp only [Bool.not_eq_true', removesFrom]
    rw [Bool.eq_false_iff]
    intro hany
    simp only [List.any_eq_true] at hany
    obtain ⟨c, hc, hcy⟩ := hany
    cases c with
    | RemoveFromSets sets pod =>
      simp only [Bool.and_eq_true, decide_eq_true_eq] at hcy
      have := hfresh sets pod ((mem_filterMap_undo calls sets pod).mp hc) hcy.1
      exact this (hcy.2 ▸ hy)
    | AddToLists _ _ => simp at hcy
    | AddToSets _ _ => simp at hcy
    | ApplyDataPlane => simp at hcy
  have h2 : r1.filter (fun y => !removesFrom x (calls.filterMap DPCall.undo) y) = [] := by
    rw [List.filter_eq_nil_iff]
    intro y hy
    obtain ⟨sets, pod, hmem, hx, hpod⟩ := hP y hy
    simp only [Bool.not_eq_true', Bool.not_eq_false, removesFrom, List.any_eq_true]
    exact ⟨DPCall.RemoveFromSets sets pod, (mem_filterMap_undo calls sets pod).mpr hmem,
      by simp [hx, hpod]⟩
  rw [h1, h2, List.append_nil]

theorem filterMap_some_fun {α β : Type} (f : α → β) (l : List α) :
    l.filterMap (fun a => some (f a)) = l.map f := by
  induction l with
  | nil => rfl
  | cons a rest ih => simp [List.filterMap_cons, ih]

theorem filterMap_undo_podSetCalls (key ns ip : String) (labels : List (String × String))
    (ports : List ContainerPort) :
    (podSetCalls true key ns ip labels ports).filterMap DPCall.undo =
      podSetCalls false key ns ip labels ports := by
  simp [podSetCalls, List.filterMap_append, List.filterMap_map, DPCall.undo,
    Function.comp_def, filterMap_some_fun]

/-- The Add of a pod that is eligible and not yet cached, from an empty queue, is
    one reconcile pass that ends in `syncAddedPod` and `ApplyDataPlane`. -/
theorem fixtureAddPod_uncached (c : PodController) (pod : Pod)
    (hhost : pod.HostNetwork = false) (hphase : isTerminalPhase pod.Phase = false)
    (hip : pod.PodIP ≠ "") (hnew : podMapGet c.podMap (podKey pod) = none)
    (hlister : listerGet c.podLister (podKey pod) = some pod)
    (hqueue : c.workqueue = []) :
    fixtureAddPod c pod =
      { c.syncAddedPod pod with dp := (c.syncAddedPod pod).dp ++ [DPCall.ApplyDataPlane] } := by
  have hval : hasValidPodIP pod = true := by simp [hasValidPodIP, hip]
  have hfix : fixtureAddPod c pod = PodController.syncPod c (podKey pod) := by
    cases c
    simp only at hqueue
    subst hqueue
    simp [fixtureAddPod, PodController.addPod, isHostNetworkPod, hhost, hval, hphase,
      workqueueAdd, PodController.processNextWorkItem]
  rw [hfix]
  simp [PodController.syncPod, hlister, hphase, PodController.syncAddAndUpdatePod, hnew,
    isHostNetworkPod, hhost, hval]

/-- The calls `syncAddedPod` makes: the namespace is put on the all-namespaces list
    when it is new, then the pod is put into its sets. -/
theorem syncAddedPod_dp (c : PodController) (pod : Pod) :
    (c.syncAddedPod pod).dp = c.dp ++
      ((if pod.Namespace ∈ c.nsMap then []
        else [DPCall.AddToLists [kubeAllNamespaces] [namespaceSet pod.Namespace]]) ++
      podSetCalls true (podKey pod) pod.Namespace pod.PodIP pod.Labels
        (getContainerPortList pod)) := by
  simp [PodController.syncAddedPod]

theorem podSetCalls_true_no_remove (key ns ip : String) (labels : List (String × String))
    (ports : List ContainerPort) (sets : List IPSetMetadata) (pod : PodMetadata) :
    DPCall.RemoveFromSets sets pod ∉ podSetCalls true key ns ip labels ports := by
  simp [podSetCalls]

theorem podSetCalls_no_addToLists (add : Bool) (key ns ip : String)
    (labels : List (String × String)) (ports : List ContainerPort)
    (lists sets : List IPSetMetadata) :
    DPCall.AddToLists lists sets ∉ podSetCalls add key ns ip labels ports := by
  cases add <;> simp [podSetCalls]

/-- The Delete of a pod right after its Add, as the test driver `deletePod` runs
    them: the calls of the Add, then its membership calls undone in the same
    order, then `ApplyDataPlane`; the pod cache is back to what it was. -/
theorem fixtureDeletePod_uncached (c : PodController) (pod : Pod) (tombstone : Bool)
    (hhost : pod.HostNetwork = false) (hphase : isTerminalPhase pod.Phase = false)
    (hip : pod.PodIP ≠ "") (hnew : podMapGet c.podMap (podKey pod) = none)
    (hlister : listerGet c.podLister (podKey pod) = some pod)
    (hqueue : c.workqueue = []) :
    (fixtureDeletePod c pod tombstone).dp = (c.syncAddedPod pod).dp ++ [DPCall.ApplyDataPlane]
        ++ podSetCalls false (podKey pod) pod.Namespace pod.PodIP pod.Labels
            (getContainerPortList pod)
        ++ [DPCall.ApplyDataPlane]
    ∧ (fixtureDeletePod c pod tombstone).podMap = c.podMap := by
  have hadd := fixtureAddPod_uncached c pod hhost hphase hip hnew hlister hqueue
  have hq : (c.syncAddedPod pod).workqueue = [] := by simp [PodController.syncAddedPod, hqueue]
  have hget : podMapGet (c.syncAddedPod pod).podMap (podKey pod) =
      some { newNpmPod pod with Labels := pod.Labels,
                                ContainerPorts := getContainerPortList pod } := by
    simp only [PodController.syncAddedPod]
    exact podMapGet_podMapSet _ _ _
  have hmap : podMapDelete (c.syncAddedPod pod).podMap (podKey pod) = c.podMap := by
    have h0 := podMapDelete_of_get_none _ _ hnew
    simp only [podMapDelete] at h0
    simp only [PodController.syncAddedPod, podMapDelete, podMapSet, List.filter_cons,
      List.filter_filter]
    simpa using h0
  have hl : ∀ l : List Pod,
      listerGet (l.filter (fun p => !decide (podKey p = podKey pod))) (podKey pod) = none := by
    intro l
    simp [listerGet, List.find?_eq_none]
  cases tombstone <;>
    simp [fixtureDeletePod, hadd, PodController.deletePod, isHostNetworkPod, hhost, hq,
      workqueueAdd, PodController.processNextWorkItem, PodController.syncPod,
      hl, PodController.cleanUpDeletedPod, hget, hmap, newNpmPod]

/-- C11. For every cached pod, the reconcile pass of an Update whose new phase is
    terminal (`Succeeded` or `Failed`) leaves pod cache, namespace cache, queue
    and recorded calls exactly as the reconcile pass of a Delete of that pod
    does: `RemoveFromSets` for the namespace set and the label sets with the
    cached IP, for the named-port sets with the cached `ip,port`, then
    `ApplyDataPlane`; the pod-cache entry is removed. -/
theorem terminal_update_is_delete (c : PodController) (pod : Pod) (cached : NpmPod)
    (hlister : listerGet c.podLister (podKey pod) = some pod)
    (hcached : podMapGet c.podMap (podKey pod) = some cached)
    (hphase : isTerminalPhase pod.Phase = true) :
    (c.syncPod (podKey pod)).dp = ((c.withoutPod (podKey pod)).syncPod (podKey pod)).dp
    ∧ (c.syncPod (podKey pod)).podMap = ((c.withoutPod (podKey pod)).syncPod (podKey pod)).podMap
    ∧ (c.syncPod (podKey pod)).nsMap = ((c.withoutPod (podKey pod)).syncPod (podKey pod)).nsMap
    ∧ (c.syncPod (podKey pod)).workqueue
        = ((c.withoutPod (podKey pod)).syncPod (podKey pod)).workqueue
    ∧ (c.syncPod (podKey pod)).dp = c.dp
        ++ [DPCall.RemoveFromSets [namespaceSet cached.Namespace]
              (NewPodMetadata (podKey pod) cached.PodIP "")]
        ++ cached.Labels.map (fun kv =>
            DPCall.RemoveFromSets [labelKeySet kv.1, labelKeyValueSet kv.1 kv.2]
              (NewPodMetadata (podKey pod) cached.PodIP ""))
        ++ (namedPorts cached.ContainerPorts).map (fun p =>
            DPCall.RemoveFromSets [namedPortSet p]
              (NewPodMetadata (podKey pod) (cached.PodIP ++ "," ++ toString p.ContainerPort) ""))
        ++ [DPCall.ApplyDataPlane]
    ∧ podMapGet (c.syncPod (podKey pod)).podMap (podKey pod) = none := by
  have hl : listerGet (c.withoutPod (podKey pod)).podLister (podKey pod) = none := by
    simp [PodController.withoutPod, listerGet, List.find?_eq_none]
  have hupd : c.syncPod (podKey pod) =
      { c.cleanUpDeletedPod (podKey pod) with
        dp := (c.cleanUpDeletedPod (podKey pod)).dp ++ [DPCall.ApplyDataPlane] } := by
    simp [PodController.syncPod, hlister, hphase]
  have hdel : (c.withoutPod (podKey pod)).syncPod (podKey pod) =
      { (c.withoutPod (podKey pod)).cleanUpDeletedPod (podKey pod) with
        dp := ((c.withoutPod (podKey pod)).cleanUpDeletedPod (podKey pod)).dp
          ++ [DPCall.ApplyDataPlane] } := by
    simp [PodController.syncPod, hl]
  have hcw : podMapGet (c.withoutPod (podKey pod)).podMap (podKey pod) = some cached := hcached
  rw [hupd, hdel]
  simp only [PodController.cleanUpDeletedPod, hcached, hcw]
  refine ⟨rfl, rfl, rfl, rfl, ?_, ?_⟩
  · simp [podSetCalls, namedPortMember, PodController.withoutPod]
  · simp [podMapGet, podMapDelete, List.find?_eq_none]

/-- Witness of C11 on `TestPodStatusUpdatePod`: the calls the test expects after
    the Add, which are those of `TestDeletePod`. -/
theorem terminal_update_is_delete_witness :
    ((afterAddThenStore testPodSucceeded).syncPod (podKey testPodSucceeded)).dp
      = (((afterAddThenStore testPodSucceeded).withoutPod (podKey testPodSucceeded)).syncPod
          (podKey testPodSucceeded)).dp
    ∧ podMapGet ((afterAddThenStore testPodSucceeded).syncPod (podKey testPodSucceeded)).podMap
        (podKey testPodSucceeded) = none :=
  have h := terminal_update_is_delete (afterAddThenStore testPodSucceeded) testPodSucceeded
    { newNpmPod testPod with Labels := testPod.Labels,
                             ContainerPorts := getContainerPortList testPod }
    (by decide) (by decide) (by decide)
  ⟨h.1, h.2.2.2.2.2⟩

/-- C12. For every pod that is not host-network, a delete notification delivered
    as a tombstone `{key, lastKnownObject}` changes neither the pod cache, the
    namespace cache nor the informer's store and makes no dataplane call, so
    that no IP-set changes; its only effect is that the key is pending in the
    work queue, which has length 1 if it was empty, as it is for a pod that was
    never added. The callback has no error to raise. -/
theorem tombstone_delete_only_queues (c : PodController) (pod : Pod)
    (hhost : pod.HostNetwork = false) :
    c.deletePod (DeletedObject.tombstone (podKey pod) pod)
      = { c with workqueue := workqueueAdd c.workqueue (podKey pod) }
    ∧ (c.deletePod (DeletedObject.tombstone (podKey pod) pod)).podMap = c.podMap
    ∧ (c.deletePod (DeletedObject.tombstone (podKey pod) pod)).nsMap = c.nsMap
    ∧ (c.deletePod (DeletedObject.tombstone (podKey pod) pod)).dp = c.dp
    ∧ (∀ store, runCalls ((c.deletePod (DeletedObject.tombstone (podKey pod) pod)).dp.drop
          c.dp.length) store = some store)
    ∧ podKey pod ∈ (c.deletePod (DeletedObject.tombstone (podKey pod) pod)).workqueue
    ∧ (c.workqueue = [] →
        (c.deletePod (DeletedObject.tombstone (podKey pod) pod)).workqueue = [podKey pod]
        ∧ (c.deletePod (DeletedObject.tombstone (podKey pod) pod)).workqueue.length = 1) := by
  have h : c.deletePod (DeletedObject.tombstone (podKey pod) pod)
      = { c with workqueue := workqueueAdd c.workqueue (podKey pod) } := by
    simp [PodController.deletePod, isHostNetworkPod, hhost]
  rw [h]
  refine ⟨rfl, rfl, rfl, rfl, ?_, ?_, ?_⟩
  · intro store
    simp [runCalls]
  · simp only [workqueueAdd]
    split
    · assumption
    · simp
  · intro hq
    simp [workqueueAdd, hq]

/-- Witness of C12 on `TestDeletePodWithTombstone`: lengths 0, 0, 1. -/
theorem tombstone_delete_only_queues_witness :
    ((NewPodController []).deletePod (DeletedObject.tombstone (podKey testPod) testPod)).podMap
      = []
    ∧ ((NewPodController []).deletePod (DeletedObject.tombstone (podKey testPod) testPod)).nsMap
      = []
    ∧ ((NewPodController []).deletePod
        (DeletedObject.tombstone (podKey testPod) testPod)).workqueue.length = 1 :=
  have h := tombstone_delete_only_queues (NewPodController []) testPod rfl
  ⟨h.2.1, h.2.2.1, (h.2.2.2.2.2.2 rfl).2⟩

theorem mem_workqueueAdd (q : List String) (k x : String) :
    x ∈ workqueueAdd q k ↔ x ∈ q ∨ x = k := by
  unfold workqueueAdd
  split
  · constructor
    · exact Or.inl
    · rintro (h | rfl)
      · exact h
      · assumption
  · simp

theorem nodup_workqueueAdd (q : List String) (k : String) (h : q.Nodup) :
    (workqueueAdd q k).Nodup := by
  unfold workqueueAdd
  split
  · exact h
  · rename_i hk
    rw [List.nodup_append]
    exact ⟨h, List.nodup_singleton k, by
      intro a ha hb
      simp only [List.mem_singleton] at hb
      exact hk (hb ▸ ha)⟩

/-- Adding a key that is already pending changes nothing. -/
theorem workqueueAdd_idem (q : List String) (k : String) :
    workqueueAdd (workqueueAdd q k) k = workqueueAdd q k := by
  have h : k ∈ workqueueAdd q k := (mem_workqueueAdd q k k).mpr (Or.inr rfl)
  generalize workqueueAdd q k = q1 at h ⊢
  simp [workqueueAdd, h]

theorem workqueueAddAll_replicate (n : Nat) (k : String) :
    ∀ q, (workqueueAddAll (workqueueAdd q k) (List.replicate n k)).1 = workqueueAdd q k := by
  induction n with
  | zero => intro q; rfl
  | succ m ih =>
    intro q
    simp only [List.replicate_succ, workqueueAddAll, workqueueAdd_idem]
    exact ih q

theorem workqueueAddAll_spec (keys : List String) :
    ∀ q, q.Nodup → (workqueueAddAll q keys).1.Nodup ∧
      ∀ x, x ∈ (workqueueAddAll q keys).1 ↔ x ∈ q ∨ x ∈ keys := by
  induction keys with
  | nil => intro q hq; exact ⟨hq, by simp [workqueueAddAll]⟩
  | cons k rest ih =>
    intro q hq
    obtain ⟨h1, h2⟩ := ih (workqueueAdd q k) (nodup_workqueueAdd q k hq)
    refine ⟨h1, fun x => ?_⟩
    simp only [workqueueAddAll, h2, mem_workqueueAdd, List.mem_cons]
    tauto

/-- C13. For every key `k` and every `n ≥ 1`, adding `k` to a work queue `n` times,
    no worker taking anything out meanwhile, leaves exactly one pending item for
    `k`: the queue is the one after the first add. Whatever keys are added, no
    key is pending twice and the queue length is the number of distinct pending
    keys; adding "test-pod", "test-pod", "test-pod1" to the empty queue gives
    lengths 1, 1, 2. -/
theorem workqueue_deduplicates (q : List String) (k : String) (n : Nat)
    (hq : q.Nodup) (hn : 1 ≤ n) :
    (workqueueAddAll q (List.replicate n k)).1 = workqueueAdd q k
    ∧ (workqueueAddAll q (List.replicate n k)).1.count k = 1
    ∧ (∀ keys : List String,
        (workqueueAddAll q keys).1.Nodup
        ∧ (∀ x, x ∈ (workqueueAddAll q keys).1 ↔ x ∈ q ∨ x ∈ keys)
        ∧ (workqueueAddAll q keys).1.length = (q ++ keys).dedup.length)
    ∧ (workqueueAddAll [] ["test-pod", "test-pod", "test-pod1"]).2 = [1, 1, 2] := by
  have hrep : (workqueueAddAll q (List.replicate n k)).1 = workqueueAdd q k := by
    obtain ⟨m, rfl⟩ : ∃ m, n = m + 1 := ⟨n - 1, by omega⟩
    simp only [List.replicate_succ, workqueueAddAll]
    exact workqueueAddAll_replicate m k q
  refine ⟨hrep, ?_, ?_, by decide⟩
  · rw [hrep]
    exact List.count_eq_one_of_mem (nodup_workqueueAdd q k hq)
      ((mem_workqueueAdd q k k).mpr (Or.inr rfl))
  · intro keys
    obtain ⟨h1, h2⟩ := workqueueAddAll_spec keys q hq
    refine ⟨h1, h2, ?_⟩
    apply List.Perm.length_eq
    rw [List.perm_ext_iff_of_nodup h1 (List.nodup_dedup _)]
    intro x
    simp [h2]

/-- Witness of C13: "test-pod" added three times to a queue holding "test-pod1". -/
theorem workqueue_deduplicates_witness :
    (workqueueAddAll ["test-pod1"] (List.replicate 3 "test-pod")).1 = ["test-pod1", "test-pod"]
    ∧ (workqueueAddAll ["test-pod1"] (List.replicate 3 "test-pod")).1.count "test-pod" = 1 :=
  have h := workqueue_deduplicates ["test-pod1"] "test-pod" 3 (by decide) (by decide)
  ⟨h.1.trans (by decide), h.2.1⟩

/-! ### Policy update: the host calls the dataplane tests script -/

/-- What `TestUpdatePolicy` scripts for the fake exec after the calls of
    `NewDataPlane` and `AddPolicy`: the removal of the old policy's rules, the
    apply that deletes its IP-sets, the apply that adds the updated policy's
    IP-sets, the addition of its rules. The script is a list of answers for the
    fake exec, which does not compare commands with it; it says nothing on the
    order in which `UpdatePolicy`, whose code is not among the sources, works on
    the host. -/
theorem testUpdatePolicy_script_order :
    (updatePolicyScript namedHelpers testPolicyobj updatedTestPolicyobj).drop
        (addPolicyScript namedHelpers testPolicyobj).length
      = [HostCalls.RemovePolicy testPolicyobj,
         HostCalls.ApplyIPSets [] (getAffectedIPSets testPolicyobj),
         HostCalls.ApplyIPSets (getAffectedIPSets updatedTestPolicyobj) [],
         HostCalls.AddPolicy updatedTestPolicyobj] := by
  decide

/-! ### Creating and deleting IP-sets -/

theorem getIPSet_filter_ne (store : List IPSet) (m x : IPSetMetadata) :
    getIPSet (store.filter (fun t => t.Metadata ≠ m)) x =
      if x = m then none else getIPSet store x := by
  induction store with
  | nil => simp [getIPSet]
  | cons a rest ih =>
    simp only [getIPSet] at ih ⊢
    by_cases ha : a.Metadata = m
    · simp only [List.filter_cons, ha, ne_eq, not_true_eq_false, decide_False, ih,
        Bool.false_eq_true, if_false]
      by_cases hx : x = m
      · simp [hx]
      · have : ¬ m = x := fun h => hx h.symm
        simp [hx, List.find?_cons, ha, this]
    · simp only [List.filter_cons, ha, ne_eq, not_false_eq_true, decide_True, if_true,
        List.find?_cons]
      by_cases hax : a.Metadata = x
      · have : ¬ x = m := fun h => ha (hax.trans h)
        simp [hax, this]
      · simp only [hax, decide_False]
        exact ih

/-- `DeleteIPSet` on a set that exists and is destroyable takes it out of the store. -/
theorem getIPSet_DeleteIPSet_deletable (store : List IPSet) (m : IPSetMetadata) (s : IPSet)
    (hget : getIPSet store m = some s) (hdel : s.canBeDeleted = true) :
    getIPSet (DeleteIPSet store m) m = none := by
  simp only [DeleteIPSet, hget, hdel, if_true]
  rw [getIPSet_filter_ne]
  simp

/-- `DeleteIPSet` on a set that is not destroyable leaves it in the store, marked. -/
theorem getIPSet_DeleteIPSet_kept (store : List IPSet) (m : IPSetMetadata) (s : IPSet)
    (hget : getIPSet store m = some s) (hdel : s.canBeDeleted = false) :
    getIPSet (DeleteIPSet store m) m = some { s with deleteWhenPossible := true } := by
  have hmeta := getIPSet_Metadata store m s hget
  simp only [DeleteIPSet, hget, hdel, Bool.false_eq_true, if_false]
  rw [getIPSet_map store _ (fun t => by split <;> rfl) m, hget]
  simp [hmeta]

/-- `DeleteIPSet` leaves every other set as it is. -/
theorem getIPSet_DeleteIPSet_other (store : List IPSet) (m x : IPSetMetadata) (hx : x ≠ m) :
    getIPSet (DeleteIPSet store m) x = getIPSet store x := by
  unfold DeleteIPSet
  cases hget : getIPSet store m with
  | none => rfl
  | some s =>
    simp only
    split
    · rw [getIPSet_filter_ne]
      simp [hx]
    · rw [getIPSet_map store _ (fun t => by split <;> rfl) x]
      cases hgx : getIPSet store x with
      | none => rfl
      | some t =>
        have hmeta := getIPSet_Metadata store x t hgx
        have : ¬ t.Metadata = m := by rw [hmeta]; exact hx
        simp [this]

theorem getIPSet_removeFromSets_single (store : List IPSet) (m : IPSetMetadata)
    (pod : PodMetadata) (s : IPSet) (hget : getIPSet store m = some s) :
    getIPSet (removeFromSets store [m] pod) m = some (s.removeMember pod.PodIP) := by
  have hmeta := getIPSet_Metadata store m s hget
  simp only [removeFromSets, List.foldl_cons, List.foldl_nil]
  rw [getIPSet_map store _ (fun t => by
    split
    · exact removeMember_Metadata t _
    · rfl) m, hget]
  simp [hmeta]

theorem removeMember_refCount (s : IPSet) (x : String) :
    (s.removeMember x).refCount = s.refCount := by
  unfold IPSet.removeMember
  split <;> rfl

theorem foldl_remMem_eq_nil (pods : List PodMetadata) :
    ∀ l : List String, (∀ x ∈ l, ∃ p ∈ pods, p.PodIP = x) →
      pods.foldl (fun l p => remMem p.PodIP l) l = [] := by
  induction pods with
  | nil =>
    intro l h
    cases l with
    | nil => rfl
    | cons a rest =>
      obtain ⟨p, hp, _⟩ := h a (List.mem_cons_self _ _)
      cases hp
  | cons p rest ih =>
    intro l h
    simp only [List.foldl_cons]
    apply ih
    intro x hx
    simp only [remMem, List.mem_filter, ne_eq, decide_eq_true_eq] at hx
    obtain ⟨q, hq, hqx⟩ := h x hx.1
    simp only [List.mem_cons] at hq
    rcases hq with rfl | hq
    · exact absurd hqx.symm hx.2
    · exact ⟨q, hq, hqx⟩

/-- The set `m` after one `RemoveFromSets([m], pod)` per pod: it is still there, its
    reference count is unchanged and the members of these pods are gone. -/
theorem getIPSet_removeEachFromSet (m : IPSetMetadata) (pods : List PodMetadata) :
    ∀ (store : List IPSet) (s : IPSet), getIPSet store m = some s →
      ∃ t, getIPSet (removeEachFromSet store m pods) m = some t
        ∧ t.refCount = s.refCount
        ∧ t.members = pods.foldl (fun l p => remMem p.PodIP l) s.members := by
  induction pods with
  | nil => intro store s h; exact ⟨s, h, rfl, rfl⟩
  | cons p rest ih =>
    intro store s h
    have h1 := getIPSet_removeFromSets_single store m p s h
    obtain ⟨t, ht, hr, hm⟩ := ih (removeFromSets store [m] p) _ h1
    refine ⟨t, ?_, ?_, ?_⟩
    · simpa [removeEachFromSet] using ht
    · rw [hr, removeMember_refCount]
    · rw [hm, removeMember_members]
      rfl

/-- C15. For every IP-set of the store that no policy references (`refCount = 0`),
    `DeleteIPSet` removes the set if and only if the set has no members: while a
    member remains the set stays retrievable by `GetIPSet`, with its members;
    and once `RemoveFromSets` has been called for the pods behind all its
    members, `DeleteIPSet` makes `GetIPSet` return nothing for it. -/
theorem deleteIPSet_iff_no_members (store : List IPSet) (m : IPSetMetadata) (s : IPSet)
    (hget : getIPSet store m = some s) (href : s.refCount = 0) :
    (getIPSet (DeleteIPSet store m) m = none ↔ s.members = [])
    ∧ (s.members ≠ [] →
        ∃ t, getIPSet (DeleteIPSet store m) m = some t ∧ t.members = s.members)
    ∧ (∀ pods : List PodMetadata, (∀ x ∈ s.members, ∃ p ∈ pods, p.PodIP = x) →
        getIPSet (DeleteIPSet (removeEachFromSet store m pods) m) m = none) := by
  have hcan : ∀ t : IPSet, t.refCount = 0 → (t.canBeDeleted = true ↔ t.members = []) := by
    intro t ht
    simp [IPSet.canBeDeleted, ht]
  refine ⟨?_, ?_, ?_⟩
  · constructor
    · intro hnone
      by_contra hmem
      have hdel : s.canBeDeleted = false := by
        rw [Bool.eq_false_iff]
        exact fun h => hmem ((hcan s href).mp h)
      rw [getIPSet_DeleteIPSet_kept store m s hget hdel] at hnone
      cases hnone
    · intro hmem
      exact getIPSet_DeleteIPSet_deletable store m s hget ((hcan s href).mpr hmem)
  · intro hmem
    have hdel : s.canBeDeleted = false := by
      rw [Bool.eq_false_iff]
      exact fun h => hmem ((hcan s href).mp h)
    exact ⟨_, getIPSet_DeleteIPSet_kept store m s hget hdel, rfl⟩
  · intro pods hpods
    obtain ⟨t, ht, hr, hm⟩ := getIPSet_removeEachFromSet m pods store s hget
    have hnil : t.members = [] := by rw [hm]; exact foldl_remMem_eq_nil pods _ hpods
    exact getIPSet_DeleteIPSet_deletable _ m t ht ((hcan t (hr.trans href)).mpr hnil)

/-- Witness of C15 on `TestAddToSet`: with its two members the set "test" survives
    `DeleteIPSet`; after both are removed `DeleteIPSet` takes it out. -/
theorem deleteIPSet_iff_no_members_witness :
    (∃ t, getIPSet (DeleteIPSet storeAfterAddToSets { Name := "test", Kind := SetType.Namespace })
          { Name := "test", Kind := SetType.Namespace } = some t
        ∧ t.members = ["10.0.0.1", "2001:db8:0:0:0:0:2:1"])
    ∧ getIPSet (DeleteIPSet (removeEachFromSet storeAfterAddToSets
          { Name := "test", Kind := SetType.Namespace } [podMetadata, v6PodMetadata])
          { Name := "test", Kind := SetType.Namespace })
        { Name := "test", Kind := SetType.Namespace } = none :=
  have h := deleteIPSet_iff_no_members storeAfterAddToSets
    { Name := "test", Kind := SetType.Namespace }
    { Metadata := { Name := "test", Kind := SetType.Namespace },
      members := ["10.0.0.1", "2001:db8:0:0:0:0:2:1"], refCount := 0, dirty := true }
    (by decide) rfl
  ⟨h.2.1 (by decide), h.2.2 [podMetadata, v6PodMetadata] (by decide)⟩

theorem getIPSet_createOrGet (store : List IPSet) (m x : IPSetMetadata) :
    getIPSet (createOrGet store m) x =
      match getIPSet store x with
      | some s => some s
      | none =>
        if x = m then some { Metadata := m, members := [], refCount := 0, dirty := true }
        else none := by
  unfold createOrGet
  cases hm : getIPSet store m with
  | some s =>
    simp only
    cases hx : getIPSet store x with
    | some t => rfl
    | none =>
      by_cases hxm : x = m
      · rw [hxm, hm] at hx
        cases hx
      · simp [hxm]
  | none =>
    simp only [getIPSet, List.find?_append]
    cases hx : List.find? (fun s => decide (s.Metadata = x)) store with
    | some t => simp
    | none =>
      by_cases hxm : x = m
      · simp [List.find?, hxm]
      · have : ¬ m = x := fun h => hxm h.symm
        simp [List.find?, hxm, this]

theorem createOrGet_of_exists (store : List IPSet) (m : IPSetMetadata) (s : IPSet)
    (h : getIPSet store m = some s) : createOrGet store m = store := by
  simp [createOrGet, h]

theorem exists_createOrGet (store : List IPSet) (m x : IPSetMetadata)
    (h : (∃ s, getIPSet store x = some s) ∨ x = m) :
    ∃ s, getIPSet (createOrGet store m) x = some s := by
  rw [getIPSet_createOrGet]
  cases hx : getIPSet store x with
  | some t => exact ⟨t, rfl⟩
  | none =>
    rcases h with ⟨s, hs⟩ | rfl
    · rw [hx] at hs
      cases hs
    · simp

theorem exists_CreateIPSets (sets : List IPSetMetadata) :
    ∀ (store : List IPSet) (x : IPSetMetadata),
      (∃ s, getIPSet store x = some s) ∨ x ∈ sets →
      ∃ s, getIPSet (CreateIPSets store sets) x = some s := by
  induction sets with
  | nil =>
    intro store x h
    rcases h with h | h
    · exact h
    · cases h
  | cons m rest ih =>
    intro store x h
    simp only [CreateIPSets, List.foldl_cons]
    apply ih
    simp only [List.mem_cons] at h
    rcases h with h | h | h
    · exact Or.inl (exists_createOrGet store m x (Or.inl h))
    · exact Or.inl (exists_createOrGet store m x (Or.inr h))
    · exact Or.inr h

theorem CreateIPSets_of_exist (sets : List IPSetMetadata) :
    ∀ store : List IPSet, (∀ m ∈ sets, ∃ s, getIPSet store m = some s) →
      CreateIPSets store sets = store := by
  induction sets with
  | nil => intro store _; rfl
  | cons m rest ih =>
    intro store h
    obtain ⟨s, hs⟩ := h m (List.mem_cons_self _ _)
    simp only [CreateIPSets, List.foldl_cons, createOrGet_of_exists store m s hs]
    exact ih store (fun k hk => h k (List.mem_cons_of_mem _ hk))

theorem nodup_createOrGet (store : List IPSet) (m : IPSetMetadata)
    (h : (store.map (fun s => s.Metadata)).Nodup) :
    ((createOrGet store m).map (fun s => s.Metadata)).Nodup := by
  unfold createOrGet
  cases hm : getIPSet store m with
  | some s => exact h
  | none =>
    simp only [List.map_append, List.map_cons, List.map_nil]
    rw [List.nodup_append]
    refine ⟨h, List.nodup_singleton _, ?_⟩
    intro a ha hb
    simp only [List.mem_singleton] at hb
    subst hb
    simp only [List.mem_map] at ha
    obtain ⟨t, ht, hta⟩ := ha
    simp only [getIPSet, List.find?_eq_none, decide_eq_true_eq] at hm
    exact hm t ht hta

theorem destroyableIn_createOrGet (store : List IPSet) (m x : IPSetMetadata)
    (h : destroyableIn store x) : destroyableIn (createOrGet store m) x := by
  intro s hs
  rw [getIPSet_createOrGet] at hs
  cases hx : getIPSet store x with
  | some t =>
    simp only [hx, Option.some.injEq] at hs
    subst hs
    exact h t hx
  | none =>
    simp only [hx] at hs
    split at hs
    · simp only [Option.some.injEq] at hs
      subst hs
      rfl
    · cases hs

theorem destroyableIn_CreateIPSets (sets : List IPSetMetadata) (x : IPSetMetadata) :
    ∀ store : List IPSet, destroyableIn store x → destroyableIn (CreateIPSets store sets) x := by
  induction sets with
  | nil => intro store h; exact h
  | cons m rest ih =>
    intro store h
    simp only [CreateIPSets, List.foldl_cons]
    exact ih _ (destroyableIn_createOrGet store m x h)

theorem getIPSet_DeleteIPSet_none (store : List IPSet) (m x : IPSetMetadata)
    (h : getIPSet store x = none ∨ (x = m ∧ destroyableIn store x)) :
    getIPSet (DeleteIPSet store m) x = none := by
  by_cases hxm : x = m
  · subst hxm
    cases hx : getIPSet store x with
    | none => simp [DeleteIPSet, hx]
    | some s =>
      rcases h with h | ⟨_, h⟩
      · rw [hx] at h
        cases h
      · exact getIPSet_DeleteIPSet_deletable store x s hx (h s hx)
  · rw [getIPSet_DeleteIPSet_other store m x hxm]
    rcases h with h | ⟨h, _⟩
    · exact h
    · exact absurd h hxm

theorem destroyableIn_DeleteIPSet (store : List IPSet) (m x : IPSetMetadata)
    (h : destroyableIn store x) : destroyableIn (DeleteIPSet store m) x := by
  by_cases hxm : x = m
  · intro s hs
    rw [getIPSet_DeleteIPSet_none store m x (Or.inr ⟨hxm, h⟩)] at hs
    cases hs
  · intro s hs
    rw [getIPSet_DeleteIPSet_other store m x hxm] at hs
    exact h s hs

theorem getIPSet_DeleteIPSets_none (sets : List IPSetMetadata) :
    ∀ store : List IPSet, (∀ m ∈ sets, destroyableIn store m) →
      ∀ x, (x ∈ sets ∨ getIPSet store x = none) →
        getIPSet (DeleteIPSets store sets) x = none := by
  induction sets with
  | nil =>
    intro store _ x hx
    rcases hx with hx | hx
    · cases hx
    · exact hx
  | cons k rest ih =>
    intro store hd x hx
    simp only [DeleteIPSets, List.foldl_cons]
    have hd1 : ∀ m ∈ rest, destroyableIn (DeleteIPSet store k) m :=
      fun m hm => destroyableIn_DeleteIPSet store k m (hd m (List.mem_cons_of_mem _ hm))
    apply ih (DeleteIPSet store k) hd1 x
    simp only [List.mem_cons] at hx
    rcases hx with (rfl | hx) | hx
    · exact Or.inr (getIPSet_DeleteIPSet_none store x x
        (Or.inr ⟨rfl, hd x (List.mem_cons_self _ _)⟩))
    · exact Or.inl hx
    · exact Or.inr (getIPSet_DeleteIPSet_none store k x (Or.inl hx))

/-- C16. `CreateIPSets` is idempotent: for every list of set metadata and every
    store, calling it twice with the list leaves the store as calling it once
    does; every set of the list is then retrievable by `GetIPSet`; no duplicate
    is created, a store with one set per name keeping one set per name; and if
    none of the sets existed before, one `DeleteIPSet` per set then removes each
    of them. -/
theorem createIPSets_idempotent (store : List IPSet) (sets : List IPSetMetadata) :
    CreateIPSets (CreateIPSets store sets) sets = CreateIPSets store sets
    ∧ (∀ m ∈ sets, ∃ s, getIPSet (CreateIPSets store sets) m = some s)
    ∧ ((store.map (fun s => s.Metadata)).Nodup →
        ((CreateIPSets store sets).map (fun s => s.Metadata)).Nodup)
    ∧ ((∀ m ∈ sets, getIPSet store m = none) →
        ∀ m ∈ sets,
          getIPSet (DeleteIPSets (CreateIPSets (CreateIPSets store sets) sets) sets) m = none) := by
  have hex : ∀ m ∈ sets, ∃ s, getIPSet (CreateIPSets store sets) m = some s :=
    fun m hm => exists_CreateIPSets sets store m (Or.inr hm)
  have hidem := CreateIPSets_of_exist sets (CreateIPSets store sets) hex
  refine ⟨hidem, hex, ?_, ?_⟩
  · intro hnodup
    clear hex hidem
    induction sets generalizing store with
    | nil => exact hnodup
    | cons m rest ih =>
      simp only [CreateIPSets, List.foldl_cons]
      exact ih (createOrGet store m) (nodup_createOrGet store m hnodup)
  · intro hnone m hm
    rw [hidem]
    apply getIPSet_DeleteIPSets_none sets _ ?_ m (Or.inl hm)
    intro k hk
    apply destroyableIn_CreateIPSets
    intro s hs
    rw [hnone k hk] at hs
    cases hs

/-- Witness of C16 on `TestCreateAndDeleteIpSets`: the two sets, created twice in
    an empty store, are there once and are gone after their `DeleteIPSet`. -/
theorem createIPSets_idempotent_witness :
    CreateIPSets (CreateIPSets [] setsTocreate) setsTocreate
      = [{ Metadata := { Name := "test", Kind := SetType.Namespace }, members := [],
           refCount := 0, dirty := true },
         { Metadata := { Name := "test1", Kind := SetType.Namespace }, members := [],
           refCount := 0, dirty := true }]
    ∧ getIPSet (DeleteIPSets (CreateIPSets (CreateIPSets [] setsTocreate) setsTocreate)
        setsTocreate) { Name := "test1", Kind := SetType.Namespace } = none :=
  have h := createIPSets_idempotent [] setsTocreate
  ⟨h.1.trans (by decide), h.2.2.2 (by decide) _ (by decide)⟩

/-! ### The pod cache as JSON -/

/-- An entry of a list after `insertEntry` is the new entry or was in the list. -/
theorem mem_insertEntry {α : Type} (k : String) (v : α) (l : List (String × α))
    (e : String × α) (h : e ∈ JSON.insertEntry k v l) : e = (k, v) ∨ e ∈ l := by
  induction l with
  | nil => simpa [JSON.insertEntry] using h
  | cons x rest ih =>
    obtain ⟨k2, v2⟩ := x
    unfold JSON.insertEntry at h
    split at h
    · simpa using h
    · split at h
      · rcases List.mem_cons.mp h with h1 | h1
        · exact Or.inl h1
        · exact Or.inr (List.mem_cons_of_mem _ h1)
      · rcases List.mem_cons.mp h with h1 | h1
        · exact Or.inr (h1 ▸ List.mem_cons_self _ _)
        · rcases ih h1 with h2 | h2
          · exact Or.inl h2
          · exact Or.inr (List.mem_cons_of_mem _ h2)

/-- The keys after `insertEntry` are the new key and the keys of the list. -/
theorem keys_insertEntry {α : Type} (k : String) (v : α) (l : List (String × α))
    (key : String) :
    key ∈ (JSON.insertEntry k v l).map Prod.fst ↔ key = k ∨ key ∈ l.map Prod.fst := by
  induction l with
  | nil => simp [JSON.insertEntry]
  | cons x rest ih =>
    obtain ⟨k2, v2⟩ := x
    unfold JSON.insertEntry
    split
    · simp
    · split
      · rename_i heq
        subst heq
        simp
      · simp only [List.map_cons, List.mem_cons, ih]
        tauto

/-- The sorted entries of a map are entries of the map. -/
theorem mem_mapEntries {α : Type} (m : List (String × α)) (e : String × α)
    (h : e ∈ JSON.mapEntries m) : e ∈ m := by
  induction m with
  | nil => simp [JSON.mapEntries] at h
  | cons x rest ih =>
    simp only [JSON.mapEntries, List.foldr_cons] at h
    rcases mem_insertEntry _ _ _ _ h with h1 | h1
    · subst h1
      exact List.mem_cons_self _ _
    · exact List.mem_cons_of_mem _ (ih h1)

/-- The sorted entries of a map have the keys of the map. -/
theorem keys_mapEntries {α : Type} (m : List (String × α)) (key : String) :
    key ∈ (JSON.mapEntries m).map Prod.fst ↔ key ∈ m.map Prod.fst := by
  induction m with
  | nil => simp [JSON.mapEntries]
  | cons x rest ih =>
    have hstep : JSON.mapEntries (x :: rest) = JSON.insertEntry x.1 x.2 (JSON.mapEntries rest) := rfl
    rw [hstep, keys_insertEntry, ih]
    simp

/-- C21. For every pod, the cache entry `newNpmPod` builds has the name, the
    namespace, the IP and the phase of the pod and no label and no container
    port, whatever labels and ports the pod has; its encoding is the object of
    the fields Name, Namespace, PodIP, Labels (`{}`), ContainerPorts (`[]`) and
    Phase, in this order. `PodController.MarshalJSON` returns no error and the
    text of the pod cache as one JSON object: for a cache holding that entry
    under the key of the pod, the object with the one member `namespace/name`;
    for every cache, an object whose keys are the keys of the cache and whose
    members are each the six fields, in this order, of an entry cached under
    that key. -/
theorem newNpmPod_marshalJSON (pod : Pod) (c : PodController) :
    (newNpmPod pod).Name = pod.Name ∧ (newNpmPod pod).Namespace = pod.Namespace
    ∧ (newNpmPod pod).PodIP = pod.PodIP ∧ (newNpmPod pod).Phase = pod.Phase
    ∧ (newNpmPod pod).Labels = [] ∧ (newNpmPod pod).ContainerPorts = []
    ∧ (newNpmPod pod).toJSON
      = JSON.obj [("Name", JSON.str pod.Name), ("Namespace", JSON.str pod.Namespace),
          ("PodIP", JSON.str pod.PodIP), ("Labels", JSON.obj []),
          ("ContainerPorts", JSON.arr []), ("Phase", JSON.str pod.Phase.text)]
    ∧ PodController.MarshalJSON
        { c with podMap := podMapSet [] (podKey pod) (newNpmPod pod) }
      = ((JSON.obj [(pod.Namespace ++ "/" ++ pod.Name,
          JSON.obj [("Name", JSON.str pod.Name), ("Namespace", JSON.str pod.Namespace),
            ("PodIP", JSON.str pod.PodIP), ("Labels", JSON.obj []),
            ("ContainerPorts", JSON.arr []), ("Phase", JSON.str pod.Phase.text)])]).render,
         none)
    ∧ c.MarshalJSON.2 = none
    ∧ ∃ members, c.MarshalJSON.1 = (JSON.obj members).render
      ∧ (∀ key, key ∈ members.map Prod.fst ↔ key ∈ c.podMap.map Prod.fst)
      ∧ (∀ key v, (key, v) ∈ members → ∃ e, (key, e) ∈ c.podMap ∧
          v = JSON.obj [("Name", JSON.str e.Name), ("Namespace", JSON.str e.Namespace),
            ("PodIP", JSON.str e.PodIP),
            ("Labels", JSON.obj ((JSON.mapEntries e.Labels).map (fun l => (l.1, JSON.str l.2)))),
            ("ContainerPorts", JSON.arr (e.ContainerPorts.map ContainerPort.toJSON)),
            ("Phase", JSON.str e.Phase.text)]) := by
  refine ⟨rfl, rfl, rfl, rfl, rfl, rfl, rfl, rfl, rfl, _, rfl, ?_, ?_⟩
  · intro key
    rw [List.map_map]
    have hfst : (Prod.fst ∘ fun e : String × NpmPod => (e.1, e.2.toJSON)) = Prod.fst := rfl
    rw [hfst]
    exact keys_mapEntries c.podMap key
  · intro key v hmem
    obtain ⟨x, hx, hxe⟩ := List.mem_map.mp hmem
    obtain ⟨k, e⟩ := x
    simp only [Prod.mk.injEq] at hxe
    obtain ⟨hk, hv⟩ := hxe
    subst hk
    exact ⟨e, mem_mapEntries c.podMap _ hx, hv.symm⟩

/-- C21 on `TestPodMapMarshalJSON`: the pod has a label and a container port, the
    entry of `newNpmPod` has none, and `MarshalJSON` returns the bytes the test
    expects and no error. -/
theorem newNpmPod_marshalJSON_witness :
    testPod.Labels = [("app", "test-pod")]
    ∧ getContainerPortList testPod = [{ Name := "app:test-pod", ContainerPort := 8080 }]
    ∧ marshalTestController.MarshalJSON
      = ("\x7b\"test-namespace/test-pod\":\x7b\"Name\":\"test-pod\",\"Namespace\":\"test-namespace\",\"PodIP\":\"1.2.3.4\",\"Labels\":\x7b\x7d,\"ContainerPorts\":[],\"Phase\":\"Running\"\x7d\x7d",
         none) :=
  ⟨rfl, rfl,
   (newNpmPod_marshalJSON testPod (NewPodController [])).2.2.2.2.2.2.2.1.trans (by decide)⟩

/-! ### Add then Delete on the IP-set store -/

theorem mem_addMem (x : String) (l : List String) : x ∈ addMem x l := by
  unfold addMem
  split
  · assumption
  · simp

/-- A call that does not touch a set leaves its members as they are. -/
theorem membersOf_run_untouched (call : DPCall) (x : IPSetMetadata) (store st : List IPSet)
    (ht : call.touches x = false) (h : call.run store = some st) :
    membersOf st x = membersOf store x := by
  rw [membersOf_run call x store st ?_ h]
  · cases call <;> simp [DPCall.touches] at ht <;> simp [DPCall.effect, ht]
  · intro lists sets heq
    subst heq
    simpa [DPCall.touches] using ht

theorem membersOf_runCalls_untouched (calls : List DPCall) (x : IPSetMetadata) :
    ∀ store st : List IPSet, (∀ c ∈ calls, c.touches x = false) →
      runCalls calls store = some st → membersOf st x = membersOf store x := by
  induction calls with
  | nil =>
    intro store st _ h
    simp only [runCalls, Option.some.injEq] at h
    rw [h]
  | cons c rest ih =>
    intro store st ht h
    simp only [runCalls] at h
    cases hc : c.run store with
    | none => simp [hc] at h
    | some mid =>
      simp only [hc] at h
      rw [ih mid st (fun d hd => ht d (List.mem_cons_of_mem _ hd)) h,
        membersOf_run_untouched c x store mid (ht c (List.mem_cons_self _ _)) hc]

/-- `AddToLists` of one child on one list: the name of the child is a member of
    the list afterwards. -/
theorem membersOf_run_addToLists_single (store st : List IPSet) (l ch : IPSetMetadata)
    (h : (DPCall.AddToLists [l] [ch]).run store = some st) :
    membersOf st l = addMem ch.Name (membersOf store l) := by
  simp only [DPCall.run, addToLists] at h
  split at h
  · simp only [List.foldl_cons, List.foldl_nil, Option.some.injEq] at h
    subst h
    rw [membersOf_map_update (createOrGet (CreateIPSets store [ch]) l) l
      (fun s => s.addMember ch.Name) (addMem ch.Name) l (fun s => addMember_Metadata s _)
      (fun s => addMember_members s _)
      (Or.inl (getIPSet_createOrGet_self (CreateIPSets store [ch]) l)),
      membersOf_createOrGet, membersOf_CreateIPSets]
    simp
  · cases h

/-- A set that exists still exists after a change of the sets that keeps their
    names. -/
theorem exists_map (store : List IPSet) (f : IPSet → IPSet)
    (hf : ∀ s, (f s).Metadata = s.Metadata) (x : IPSetMetadata) :
    (∃ s, getIPSet (store.map f) x = some s) ↔ ∃ s, getIPSet store x = some s := by
  rw [getIPSet_map store f hf x]
  cases getIPSet store x <;> simp

theorem exists_addToSets (sets : List IPSetMetadata) (pod : PodMetadata) (x : IPSetMetadata) :
    ∀ store : List IPSet, ((∃ s, getIPSet store x = some s) ∨ x ∈ sets) →
      ∃ s, getIPSet (addToSets store sets pod) x = some s := by
  induction sets with
  | nil =>
    intro store h
    rcases h with h | h
    · exact h
    · cases h
  | cons m rest ih =>
    intro store h
    have hfold : addToSets store (m :: rest) pod = addToSets ((createOrGet store m).map
        (fun s => if s.Metadata = m then s.addMember pod.PodIP else s)) rest pod := by
      simp [addToSets]
    rw [hfold]
    apply ih
    have hmeta : ∀ s : IPSet,
        (if s.Metadata = m then s.addMember pod.PodIP else s).Metadata = s.Metadata := by
      intro s
      split
      · exact addMember_Metadata s _
      · rfl
    rcases h with h | h
    · exact Or.inl ((exists_map _ _ hmeta x).mpr (exists_createOrGet store m x (Or.inl h)))
    · rcases List.mem_cons.mp h with h1 | h1
      · exact Or.inl ((exists_map _ _ hmeta x).mpr (exists_createOrGet store m x (Or.inr h1)))
      · exact Or.inr h1

theorem exists_removeFromSets (sets : List IPSetMetadata) (pod : PodMetadata)
    (x : IPSetMetadata) :
    ∀ store : List IPSet, (∃ s, getIPSet store x = some s) →
      ∃ s, getIPSet (removeFromSets store sets pod) x = some s := by
  induction sets with
  | nil => intro store h; exact h
  | cons m rest ih =>
    intro store h
    have hfold : removeFromSets store (m :: rest) pod = removeFromSets (store.map
        (fun s => if s.Metadata = m then s.removeMember pod.PodIP else s)) rest pod := by
      simp [removeFromSets]
    rw [hfold]
    apply ih
    refine (exists_map _ _ ?_ x).mpr h
    intro s
    split
    · exact removeMember_Metadata s _
    · rfl

theorem exists_addToLists (lists children : List IPSetMetadata) (x : IPSetMetadata)
    (store st : List IPSet) (h : addToLists store lists children = some st)
    (hx : (∃ s, getIPSet store x = some s) ∨ x ∈ lists) :
    ∃ s, getIPSet st x = some s := by
  unfold addToLists at h
  split at h
  · simp only [Option.some.injEq] at h
    subst h
    clear * - hx
    induction lists generalizing store with
    | nil =>
      rcases hx with hx | hx
      · exact hx
      · cases hx
    | cons l rest ih =>
      simp only [List.foldl_cons]
      apply ih
      have hmeta : ∀ s : IPSet, (if s.Metadata = l then
          children.foldl (fun t c => t.addMember c.Name) s else s).Metadata = s.Metadata := by
        intro s
        split
        · exact foldl_addMember_Metadata children s
        · rfl
      rcases hx with hx | hx
      · exact Or.inl ((exists_map _ _ hmeta x).mpr (exists_createOrGet store l x (Or.inl hx)))
      · rcases List.mem_cons.mp hx with h1 | h1
        · exact Or.inl ((exists_map _ _ hmeta x).mpr
            (exists_createOrGet store l x (Or.inr h1)))
        · exact Or.inr h1
  · cases h

/-- A set that exists, or that the call names, exists after the call. -/
theorem exists_run (call : DPCall) (x : IPSetMetadata) (store st : List IPSet)
    (h : call.run store = some st)
    (hx : (∃ s, getIPSet store x = some s) ∨ call.creates x = true) :
    ∃ s, getIPSet st x = some s := by
  cases call with
  | AddToLists lists sets =>
    simp only [DPCall.run] at h
    apply exists_addToLists lists sets x _ st h
    rcases hx with hx | hx
    · exact Or.inl (exists_CreateIPSets sets store x (Or.inl hx))
    · simp only [DPCall.creates, Bool.or_eq_true, decide_eq_true_eq] at hx
      rcases hx with hx | hx
      · exact Or.inr hx
      · exact Or.inl (exists_CreateIPSets sets store x (Or.inr hx))
  | AddToSets sets pod =>
    simp only [DPCall.run, Option.some.injEq] at h
    subst h
    apply exists_addToSets
    rcases hx with hx | hx
    · exact Or.inl hx
    · exact Or.inr (by simpa [DPCall.creates] using hx)
  | RemoveFromSets sets pod =>
    simp only [DPCall.run, Option.some.injEq] at h
    subst h
    rcases hx with hx | hx
    · exact exists_removeFromSets sets pod x store hx
    · simp [DPCall.creates] at hx
  | ApplyDataPlane =>
    simp only [DPCall.run, Option.some.injEq] at h
    subst h
    rcases hx with hx | hx
    · exact (exists_map store (fun s => { s with dirty := false }) (fun _ => rfl) x).mpr hx
    · simp [DPCall.creates] at hx

/-- No recorded call destroys a set: a set that exists, or that one of the calls
    names, exists after the calls. -/
theorem exists_runCalls (calls : List DPCall) (x : IPSetMetadata) :
    ∀ store st : List IPSet, runCalls calls store = some st →
      ((∃ s, getIPSet store x = some s) ∨ ∃ c ∈ calls, c.creates x = true) →
      ∃ s, getIPSet st x = some s := by
  induction calls with
  | nil =>
    intro store st h hx
    simp only [runCalls, Option.some.injEq] at h
    subst h
    rcases hx with hx | ⟨c, hc, _⟩
    · exact hx
    · cases hc
  | cons c rest ih =>
    intro store st h hx
    simp only [runCalls] at h
    cases hc : c.run store with
    | none => simp [hc] at h
    | some mid =>
      simp only [hc] at h
      apply ih mid st h
      rcases hx with hx | ⟨d, hd, hcr⟩
      · exact Or.inl (exists_run c x store mid hc (Or.inl hx))
      · rcases List.mem_cons.mp hd with h1 | h1
        · subst h1
          exact Or.inl (exists_run d x store mid hc (Or.inr hcr))
        · exact Or.inr ⟨d, h1, hcr⟩

/-- A sequence of calls whose `AddToLists` name lists of a list kind only is never
    refused. -/
theorem runCalls_total (calls : List DPCall)
    (h : ∀ lists sets, DPCall.AddToLists lists sets ∈ calls →
      lists.all (fun l => isListKind l.Kind) = true) :
    ∀ store, ∃ store1, runCalls calls store = some store1 := by
  induction calls with
  | nil => intro store; exact ⟨store, rfl⟩
  | cons c rest ih =>
    intro store
    have hrest := ih (fun lists sets hmem => h lists sets (List.mem_cons_of_mem _ hmem))
    cases c with
    | AddToLists lists sets =>
      have hl := h lists sets (List.mem_cons_self _ _)
      have hch : sets.all (fun ch => (getIPSet (CreateIPSets store sets) ch).isSome) = true := by
        rw [List.all_eq_true]
        intro ch hmem
        obtain ⟨t, ht⟩ := exists_CreateIPSets sets store ch (Or.inr hmem)
        simp [ht]
      have hrun : (DPCall.AddToLists lists sets).run store = some
          (lists.foldl (fun st l => (createOrGet st l).map (fun s =>
            if s.Metadata = l then sets.foldl (fun t c => t.addMember c.Name) s else s))
            (CreateIPSets store sets)) := by
        simp only [DPCall.run, addToLists, hl, hch, Bool.and_self, if_true]
      obtain ⟨store1, h1⟩ := hrest
        (lists.foldl (fun st l => (createOrGet st l).map (fun s =>
            if s.Metadata = l then sets.foldl (fun t c => t.addMember c.Name) s else s))
            (CreateIPSets store sets))
      exact ⟨store1, by simp only [runCalls, hrun, h1]⟩
    | AddToSets sets pod => exact hrest _
    | RemoveFromSets sets pod => exact hrest _
    | ApplyDataPlane => exact hrest _

/-- The membership calls of a pod never touch the all-namespaces list. -/
theorem podSetCalls_touches_kubeAllNamespaces (add : Bool) (key ns ip : String)
    (labels : List (String × String)) (ports : List ContainerPort) :
    ∀ c ∈ podSetCalls add key ns ip labels ports, c.touches kubeAllNamespaces = false := by
  intro c hc
  cases add <;>
    simp only [podSetCalls, List.mem_append, List.mem_singleton, List.mem_map, if_true,
      Bool.false_eq_true, if_false] at hc <;>
    rcases hc with (hc | ⟨kv, _, hc⟩) | ⟨q, _, hc⟩ <;> subst hc <;>
    simp [DPCall.touches, kubeAllNamespaces, namespaceSet, labelKeySet, labelKeyValueSet,
      namedPortSet, NewIPSetMetadata]

/-- Each set of a pod is named by one of the `AddToSets` calls of its Add. -/
theorem podSetCalls_creates (key ns ip : String) (labels : List (String × String))
    (ports : List ContainerPort) (m : IPSetMetadata) (hm : m ∈ podSets ns labels ports) :
    ∃ c ∈ podSetCalls true key ns ip labels ports, c.creates m = true := by
  simp only [podSets, List.mem_append, List.mem_singleton, List.mem_flatMap, List.mem_cons,
    List.mem_map, List.not_mem_nil, or_false] at hm
  rcases hm with (hm | ⟨kv, hkv, hm⟩) | ⟨q, hq, hm⟩
  · subst hm
    exact ⟨DPCall.AddToSets [namespaceSet ns] (NewPodMetadata key ip ""),
      by simp [podSetCalls], by simp [DPCall.creates]⟩
  · refine ⟨DPCall.AddToSets [labelKeySet kv.1, labelKeyValueSet kv.1 kv.2]
      (NewPodMetadata key ip ""), ?_, ?_⟩
    · simp only [podSetCalls, if_true, List.mem_append, List.mem_map]
      exact Or.inl (Or.inr ⟨kv, hkv, rfl⟩)
    · rcases hm with hm | hm <;> simp [DPCall.creates, hm]
  · refine ⟨DPCall.AddToSets [namedPortSet q] (NewPodMetadata key (namedPortMember ip q) ""),
      ?_, ?_⟩
    · simp only [podSetCalls, if_true, List.mem_append, List.mem_map]
      exact Or.inr ⟨q, hq, rfl⟩
    · simp [DPCall.creates, hm]

/-- No set of a pod is the all-namespaces list. -/
theorem podSets_ne_kubeAllNamespaces (ns : String) (labels : List (String × String))
    (ports : List ContainerPort) (m : IPSetMetadata) (hm : m ∈ podSets ns labels ports) :
    m ≠ kubeAllNamespaces := by
  simp only [podSets, List.mem_append, List.mem_singleton, List.mem_flatMap, List.mem_cons,
    List.mem_map, List.not_mem_nil, or_false] at hm
  rcases hm with (hm | ⟨kv, _, hm | hm⟩) | ⟨q, _, hm⟩ <;> subst hm <;>
    simp [kubeAllNamespaces, namespaceSet, labelKeySet, labelKeyValueSet, namedPortSet,
      NewIPSetMetadata]

/-- C7, as stated, fails: Add then Delete of the pod of `TestDeletePod` on the
    empty store. The pod cache is back to empty, but the store is not what it was:
    `AddToLists` is never undone, so the all-namespaces list holds the namespace
    set, and the namespace set, the label sets and the named-port set that were
    created for the pod remain, empty. -/
theorem add_then_delete_changes_store :
    (fixtureDeletePod (NewPodController [testPod]) testPod false).podMap = []
    ∧ runCalls (fixtureDeletePod (NewPodController [testPod]) testPod false).dp []
      = some
        [{ Metadata := namespaceSet "test-namespace", members := [], refCount := 0,
           dirty := false },
         { Metadata := kubeAllNamespaces, members := ["test-namespace"], refCount := 0,
           dirty := false },
         { Metadata := labelKeySet "app", members := [], refCount := 0, dirty := false },
         { Metadata := labelKeyValueSet "app" "test-pod", members := [], refCount := 0,
           dirty := false },
         { Metadata := NewIPSetMetadata "app:test-pod" SetType.NamedPorts, members := [],
           refCount := 0, dirty := false }]
    ∧ runCalls (fixtureDeletePod (NewPodController [testPod]) testPod false).dp []
      ≠ some [] := by
  decide

/-- C7, amended. For a pod that is eligible and not yet cached, Add then Delete,
    whether the delete notification is the pod or a tombstone, leaves the pod
    cache equal to its state before the Add, with no entry for the key, and
    removes every set membership added for the pod with the same sets and the
    same member: the calls of the Delete are the `AddToSets` calls of the Add
    turned into `RemoveFromSets`, in order, then `ApplyDataPlane`. On every
    IP-set store the calls are accepted, and the store is not restored in full:
    every set other than the all-namespaces list has the members it had before
    the Add, provided the members added were new to their sets; the
    all-namespaces list keeps the namespace set that the Add of a pod in a
    namespace not yet cached put on it, `AddToLists` being never undone; every
    set of the pod exists afterwards, and one that did not exist before is
    empty; no set that existed is destroyed. -/
theorem add_then_delete_restores (c : PodController) (pod : Pod) (tombstone : Bool)
    (hhost : pod.HostNetwork = false) (hphase : isTerminalPhase pod.Phase = false)
    (hip : pod.PodIP ≠ "") (hnew : podMapGet c.podMap (podKey pod) = none)
    (hlister : listerGet c.podLister (podKey pod) = some pod)
    (hqueue : c.workqueue = []) :
    (fixtureDeletePod c pod tombstone).podMap = c.podMap
    ∧ podMapGet (fixtureDeletePod c pod tombstone).podMap (podKey pod) = none
    ∧ (fixtureDeletePod c pod tombstone).dp =
        (fixtureAddPod c pod).dp
          ++ ((fixtureAddPod c pod).dp.drop c.dp.length).filterMap DPCall.undo
          ++ [DPCall.ApplyDataPlane]
    ∧ ∀ store : List IPSet,
        ∃ store1,
          runCalls ((fixtureDeletePod c pod tombstone).dp.drop c.dp.length) store = some store1
          ∧ (((fixtureAddPod c pod).dp.drop c.dp.length).all (DPCall.addsNewMembers store) = true →
              ∀ m, m ≠ kubeAllNamespaces → membersOf store1 m = membersOf store m)
          ∧ membersOf store1 kubeAllNamespaces =
              (if pod.Namespace ∈ c.nsMap then membersOf store kubeAllNamespaces
               else addMem pod.Namespace (membersOf store kubeAllNamespaces))
          ∧ (pod.Namespace ∉ c.nsMap →
              pod.Namespace ∈ membersOf store1 kubeAllNamespaces
              ∧ ∃ s, getIPSet store1 kubeAllNamespaces = some s)
          ∧ (∀ m ∈ podSets pod.Namespace pod.Labels (getContainerPortList pod),
              (∃ s, getIPSet store1 m = some s)
              ∧ (getIPSet store m = none → membersOf store1 m = []))
          ∧ (∀ m, (∃ s, getIPSet store m = some s) → ∃ s, getIPSet store1 m = some s) := by
  have hadd := fixtureAddPod_uncached c pod hhost hphase hip hnew hlister hqueue
  obtain ⟨hdel, hmap⟩ :=
    fixtureDeletePod_uncached c pod tombstone hhost hphase hip hnew hlister hqueue
  have hdp := syncAddedPod_dp c pod
  generalize hA : ((if pod.Namespace ∈ c.nsMap then []
        else [DPCall.AddToLists [kubeAllNamespaces] [namespaceSet pod.Namespace]]) ++
      podSetCalls true (podKey pod) pod.Namespace pod.PodIP pod.Labels
        (getContainerPortList pod)) = A at hdp
  have hundo : A.filterMap DPCall.undo =
      podSetCalls false (podKey pod) pod.Namespace pod.PodIP pod.Labels
        (getContainerPortList pod) := by
    rw [← hA, List.filterMap_append, filterMap_undo_podSetCalls]
    split <;> simp [DPCall.undo]
  have hadddp : (fixtureAddPod c pod).dp = c.dp ++ (A ++ [DPCall.ApplyDataPlane]) := by
    rw [hadd]
    simp [hdp]
  have hdrop1 : (fixtureAddPod c pod).dp.drop c.dp.length = A ++ [DPCall.ApplyDataPlane] := by
    rw [hadddp, List.drop_left]
  have hdeldp : (fixtureDeletePod c pod tombstone).dp = c.dp ++
      (A ++ [DPCall.ApplyDataPlane] ++ A.filterMap DPCall.undo ++ [DPCall.ApplyDataPlane]) := by
    rw [hdel, hdp, hundo]
    simp
  have hnorem : ∀ sets p, DPCall.RemoveFromSets sets p ∉ A := by
    intro sets p hmem
    rw [← hA] at hmem
    simp only [List.mem_append] at hmem
    rcases hmem with hmem | hmem
    · split at hmem <;> simp at hmem
    · exact podSetCalls_true_no_remove _ _ _ _ _ _ _ hmem
  refine ⟨hmap, ?_, ?_, ?_⟩
  · rw [hmap]
    exact hnew
  · rw [hdeldp, hdrop1, hadddp]
    simp [List.filterMap_append, DPCall.undo]
  · intro store
    rw [hdrop1, hdeldp, List.drop_left]
    have hlists : ∀ lists sets, DPCall.AddToLists lists sets ∈
        A ++ [DPCall.ApplyDataPlane] ++ A.filterMap DPCall.undo ++ [DPCall.ApplyDataPlane] →
        lists = [kubeAllNamespaces] ∧ sets = [namespaceSet pod.Namespace]
          ∧ pod.Namespace ∉ c.nsMap := by
      intro lists sets hmem
      simp only [List.mem_append, List.mem_singleton, hundo] at hmem
      rcases hmem with ((hmem | hmem) | hmem) | hmem
      · rw [← hA] at hmem
        simp only [List.mem_append] at hmem
        rcases hmem with hmem | hmem
        · split at hmem
          · simp at hmem
          · rename_i hnot
            simp only [List.mem_singleton, DPCall.AddToLists.injEq] at hmem
            exact ⟨hmem.1, hmem.2, hnot⟩
        · exact absurd hmem (podSetCalls_no_addToLists _ _ _ _ _ _ _ _)
      · cases hmem
      · exact absurd hmem (podSetCalls_no_addToLists _ _ _ _ _ _ _ _)
      · cases hmem
    obtain ⟨store1, hstore1⟩ := runCalls_total
      (A ++ [DPCall.ApplyDataPlane] ++ A.filterMap DPCall.undo ++ [DPCall.ApplyDataPlane])
      (fun lists sets hmem => by
        rw [(hlists lists sets hmem).1]
        rfl) store
    have hrestore : ∀ m, m ≠ kubeAllNamespaces →
        (∀ sets p, DPCall.AddToSets sets p ∈ A → m ∈ sets → p.PodIP ∉ membersOf store m) →
        membersOf store1 m = membersOf store m := by
      intro m hm hfresh
      rw [membersOf_runCalls _ m store store1 ?_ hstore1]
      · exact foldl_effect_add_undo m A (membersOf store m) hnorem hfresh
      · intro lists sets hmem hml
        rw [(hlists lists sets hmem).1] at hml
        simp only [List.mem_singleton] at hml
        exact hm hml
    have htail : ∀ d ∈ podSetCalls true (podKey pod) pod.Namespace pod.PodIP pod.Labels
          (getContainerPortList pod) ++ [DPCall.ApplyDataPlane] ++ A.filterMap DPCall.undo
          ++ [DPCall.ApplyDataPlane], d.touches kubeAllNamespaces = false := by
      intro d hd
      simp only [List.mem_append, List.mem_singleton, hundo] at hd
      rcases hd with ((hd | hd) | hd) | hd
      · exact podSetCalls_touches_kubeAllNamespaces _ _ _ _ _ _ d hd
      · subst hd
        rfl
      · exact podSetCalls_touches_kubeAllNamespaces _ _ _ _ _ _ d hd
      · subst hd
        rfl
    have hlist : membersOf store1 kubeAllNamespaces =
        (if pod.Namespace ∈ c.nsMap then membersOf store kubeAllNamespaces
         else addMem pod.Namespace (membersOf store kubeAllNamespaces)) := by
      by_cases hin : pod.Namespace ∈ c.nsMap
      · have hAeq : A = podSetCalls true (podKey pod) pod.Namespace pod.PodIP pod.Labels
            (getContainerPortList pod) := by
          rw [← hA]
          simp [hin]
        rw [if_pos hin]
        refine membersOf_runCalls_untouched _ kubeAllNamespaces store store1 ?_ hstore1
        intro d hd
        exact htail d (by rw [← hAeq]; exact hd)
      · have hAeq : A = DPCall.AddToLists [kubeAllNamespaces] [namespaceSet pod.Namespace] ::
            podSetCalls true (podKey pod) pod.Namespace pod.PodIP pod.Labels
              (getContainerPortList pod) := by
          rw [← hA]
          simp [hin]
        have hsplit : A ++ [DPCall.ApplyDataPlane] ++ A.filterMap DPCall.undo
            ++ [DPCall.ApplyDataPlane] =
            [DPCall.AddToLists [kubeAllNamespaces] [namespaceSet pod.Namespace]] ++
            (podSetCalls true (podKey pod) pod.Namespace pod.PodIP pod.Labels
              (getContainerPortList pod) ++ [DPCall.ApplyDataPlane] ++ A.filterMap DPCall.undo
            ++ [DPCall.ApplyDataPlane]) := by
          generalize A.filterMap DPCall.undo = u
          rw [hAeq]
          simp only [List.cons_append, List.nil_append, List.append_assoc]
        rw [if_neg hin]
        rw [hsplit, runCalls_append] at hstore1
        cases hfirst : runCalls [DPCall.AddToLists [kubeAllNamespaces]
            [namespaceSet pod.Namespace]] store with
        | none => simp [hfirst] at hstore1
        | some mid =>
          simp only [hfirst, Option.some_bind] at hstore1
          have hone : (DPCall.AddToLists [kubeAllNamespaces]
              [namespaceSet pod.Namespace]).run store = some mid := by
            simp only [runCalls] at hfirst
            cases hr : (DPCall.AddToLists [kubeAllNamespaces]
                [namespaceSet pod.Namespace]).run store with
            | none => simp [hr] at hfirst
            | some t =>
              simp only [hr, Option.some.injEq] at hfirst
              rw [hfirst]
          rw [membersOf_runCalls_untouched _ kubeAllNamespaces mid store1 htail hstore1,
            membersOf_run_addToLists_single store mid _ _ hone]
          rfl
    have hcreated : ∀ m, (∃ d ∈ A, d.creates m = true) → ∃ s, getIPSet store1 m = some s := by
      intro m hm
      obtain ⟨d, hd, hcr⟩ := hm
      refine exists_runCalls _ m store store1 hstore1 (Or.inr ⟨d, ?_, hcr⟩)
      simp only [List.mem_append]
      exact Or.inl (Or.inl (Or.inl hd))
    refine ⟨store1, hstore1, ?_, hlist, ?_, ?_, ?_⟩
    · intro hfresh m hm
      refine hrestore m hm ?_
      intro sets p hmem hmsets
      have := List.all_eq_true.mp hfresh (DPCall.AddToSets sets p)
        (List.mem_append_left _ hmem)
      simp only [DPCall.addsNewMembers, List.all_eq_true, decide_eq_true_eq] at this
      exact this m hmsets
    · intro hin
      refine ⟨?_, ?_⟩
      · rw [hlist, if_neg hin]
        exact mem_addMem _ _
      · refine hcreated kubeAllNamespaces
          ⟨DPCall.AddToLists [kubeAllNamespaces] [namespaceSet pod.Namespace], ?_, ?_⟩
        · rw [← hA]
          simp [hin]
        · simp [DPCall.creates]
    · intro m hm
      refine ⟨?_, ?_⟩
      · obtain ⟨d, hd, hcr⟩ := podSetCalls_creates (podKey pod) pod.Namespace pod.PodIP
          pod.Labels (getContainerPortList pod) m hm
        refine hcreated m ⟨d, ?_, hcr⟩
        rw [← hA]
        exact List.mem_append_right _ hd
      · intro hnone
        have hempty : membersOf store m = [] := by simp [membersOf, hnone]
        rw [hrestore m (podSets_ne_kubeAllNamespaces _ _ _ m hm) ?_, hempty]
        intro sets p _ _
        rw [hempty]
        exact List.not_mem_nil _
    · intro m hm
      exact exists_runCalls _ m store store1 hstore1 (Or.inl hm)

/-- Witness of the amended C7 on `TestDeletePod`, on the empty store: the calls
    are accepted, every set but the all-namespaces list is without members as
    before, and the namespace set is on the all-namespaces list. -/
theorem add_then_delete_restores_witness :
    (fixtureDeletePod (NewPodController [testPod]) testPod false).podMap
      = (NewPodController [testPod]).podMap
    ∧ ∃ store1,
        runCalls ((fixtureDeletePod (NewPodController [testPod]) testPod false).dp.drop
          (NewPodController [testPod]).dp.length) [] = some store1
        ∧ (∀ m, m ≠ kubeAllNamespaces → membersOf store1 m = membersOf [] m)
        ∧ "test-namespace" ∈ membersOf store1 kubeAllNamespaces
        ∧ ∃ s, getIPSet store1 (namespaceSet "test-namespace") = some s :=
  have h := add_then_delete_restores (NewPodController [testPod]) testPod false rfl rfl
    (by decide) rfl rfl rfl
  ⟨h.1, (h.2.2.2 []).elim (fun store1 hs =>
    ⟨store1, hs.1, hs.2.1 (by decide), (hs.2.2.2.1 (by decide)).1,
      (hs.2.2.2.2.1 (namespaceSet "test-namespace") (by decide)).1⟩)⟩

end npm

/-! ## cns: pool sizing, the State and PodInfo invariant, path constants -/

namespace cns

/-- The ceiling of a quotient of natural numbers, in natural-number arithmetic. -/
theorem natCeil_div (a b : Nat) (hb : 0 < b) :
    Nat.ceil ((a : ℚ) / (b : ℚ)) = (a + b - 1) / b := by
  have hbq : (0 : ℚ) < (b : ℚ) := by exact_mod_cast hb
  apply le_antisymm
  · rw [Nat.ceil_le, div_le_iff₀ hbq]
    have h : a ≤ (a + b - 1) / b * b := by
      have h1 := Nat.div_add_mod (a + b - 1) b
      have h2 := Nat.mod_lt (a + b - 1) hb
      rw [Nat.mul_comm] at h1
      generalize (a + b - 1) / b * b = t at h1 ⊢
      omega
    exact_mod_cast h
  · have h1 : (a : ℚ) / (b : ℚ) ≤ (Nat.ceil ((a : ℚ) / (b : ℚ)) : ℚ) := Nat.le_ceil _
    rw [div_le_iff₀ hbq] at h1
    have h2 : a ≤ Nat.ceil ((a : ℚ) / (b : ℚ)) * b := by exact_mod_cast h1
    have h3 : (a + b - 1) / b < Nat.ceil ((a : ℚ) / (b : ℚ)) + 1 := by
      rw [Nat.div_lt_iff_lt_mul hb, Nat.add_mul, Nat.one_mul]
      generalize Nat.ceil ((a : ℚ) / (b : ℚ)) * b = t at h2 ⊢
      omega
    omega

/-- `minFree` in natural-number arithmetic. -/
theorem minFree_eq (m : PoolMonitor) :
    m.minFree = (m.batchSize * m.minFreePercent + 99) / 100 := by
  have h := natCeil_div (m.batchSize * m.minFreePercent) 100 (by decide)
  simp only [PoolMonitor.minFree]
  push_cast at h
  rw [h]

/-- `maxFree` in natural-number arithmetic. -/
theorem maxFree_eq (m : PoolMonitor) :
    m.maxFree = (m.batchSize * m.maxFreePercent + 99) / 100 := by
  have h := natCeil_div (m.batchSize * m.maxFreePercent) 100 (by decide)
  simp only [PoolMonitor.maxFree]
  push_cast at h
  rw [h]

/-- The expansion target in natural-number arithmetic. -/
theorem expansionTarget_eq (m : PoolMonitor) (hb : 0 < m.batchSize) :
    m.expansionTarget = ((m.allocated + m.batchSize - 1) / m.batchSize + 1) * m.batchSize := by
  simp only [PoolMonitor.expansionTarget]
  rw [Nat.ceil_add_one (by positivity), natCeil_div _ _ hb]

/-- C17, as stated, fails: in the state of scenario 5 with a request still
    outstanding, `freeIPs = 2` is below `minFree = 8`, but the monitor does not
    request again and `requestedIPCount` stays 16. -/
theorem no_expansion_while_request_outstanding :
    ({ poolExpandScenario with requestOutstanding := true } : PoolMonitor).freeIPs = 2
    ∧ ({ poolExpandScenario with requestOutstanding := true } : PoolMonitor).minFree = 8
    ∧ (PoolMonitor.requestExpansion
        { poolExpandScenario with requestOutstanding := true }).requestedIPCount = 16 := by
  refine ⟨rfl, ?_, rfl⟩
  rw [minFree_eq]
  rfl

/-- C17, amended. When `freeIPs = |Available| + |PendingProgramming|` is below
    `minFree = ceil(batchSize × minFreePercent / 100)` and no earlier request is
    outstanding, the pool monitor writes
    `requestedIPCount = ceil(|Allocated| / batchSize + 1) × batchSize`, which for
    a positive batch size is `(ceil-quotient of |Allocated| by batchSize + 1) ×
    batchSize` in whole numbers, and the request becomes outstanding; for
    `batchSize = 16`, `minFreePercent = 50`, `|Available| = 2`, `|Allocated| = 14`
    this gives `minFree = 8` and `requestedIPCount = 32`. -/
theorem requestExpansion_writes_target (m : PoolMonitor)
    (hout : m.requestOutstanding = false) (hfree : m.freeIPs < m.minFree) :
    m.requestExpansion.requestedIPCount
      = Nat.ceil ((m.allocated : ℚ) / (m.batchSize : ℚ) + 1) * m.batchSize
    ∧ (0 < m.batchSize → m.requestExpansion.requestedIPCount
        = ((m.allocated + m.batchSize - 1) / m.batchSize + 1) * m.batchSize)
    ∧ m.requestExpansion.requestOutstanding = true
    ∧ m.minFree = (m.batchSize * m.minFreePercent + 99) / 100
    ∧ poolExpandScenario.minFree = 8
    ∧ poolExpandScenario.requestExpansion.requestedIPCount = 32 := by
  have hstep : ∀ k : PoolMonitor, k.requestOutstanding = false → k.freeIPs < k.minFree →
      k.requestExpansion =
        { k with requestedIPCount := k.expansionTarget, requestOutstanding := true } := by
    intro k h1 h2
    simp [PoolMonitor.requestExpansion, h1, h2]
  have hmin : poolExpandScenario.minFree = 8 := by
    rw [minFree_eq]
    rfl
  refine ⟨?_, ?_, ?_, minFree_eq m, hmin, ?_⟩
  · rw [hstep m hout hfree]
    rfl
  · intro hb
    rw [hstep m hout hfree]
    exact expansionTarget_eq m hb
  · rw [hstep m hout hfree]
  · rw [hstep poolExpandScenario rfl (by rw [hmin]; decide)]
    show poolExpandScenario.expansionTarget = 32
    rw [expansionTarget_eq _ (by decide)]
    rfl

/-- Witness of the amended C17 on scenario 5 of spec 8. -/
theorem requestExpansion_writes_target_witness :
    poolExpandScenario.requestExpansion.requestedIPCount
        = Nat.ceil ((14 : ℚ) / (16 : ℚ) + 1) * 16
    ∧ poolExpandScenario.requestExpansion.requestOutstanding = true :=
  have h := requestExpansion_writes_target poolExpandScenario rfl
    (by rw [minFree_eq]; decide)
  ⟨h.1.trans (by simp [poolExpandScenario]), h.2.2.1⟩

/-- Scenario 6 of spec 8 against decision 2 of spec 4.H: `freeIPs = 20` exceeds
    `maxFree = 16`, but only 12 available IPs are above `minFree = 8`, fewer than
    the batch of 16, and releasing 16 would leave 4 free IPs, below `minFree`;
    with 16 available IPs or more a full batch can be marked. -/
theorem contract_scenario_numbers :
    poolContractScenario.freeIPs = 20
    ∧ poolContractScenario.maxFree = 16
    ∧ poolContractScenario.minFree = 8
    ∧ poolContractScenario.available - poolContractScenario.minFree = 12
    ∧ poolContractScenario.available - poolContractScenario.batchSize = 4
    ∧ poolContractScenario.batchSize ≤ poolContractScenario.available := by
  have hmin : poolContractScenario.minFree = 8 := by
    rw [minFree_eq]
    rfl
  have hmax : poolContractScenario.maxFree = 16 := by
    rw [maxFree_eq]
    rfl
  refine ⟨rfl, hmax, hmin, ?_, rfl, by decide⟩
  rw [hmin]
  rfl

/-- What `UnmarshalJSON` leaves in a zero receiver when it succeeds on an object:
    each string field as the object gives it, PodInfo as the decoder gives it. -/
theorem unmarshalJSON_zero_ok {P : Type} (U : JSON → Except GoError (Option P))
    (m : List (String × JSON)) (r : IPConfigurationStatus P)
    (h : IPConfigurationStatus.UnmarshalJSON U (IPConfigurationStatus.zero P)
      (.ok (JSON.obj m)) = (none, r)) :
    r.State = stateInInput m ∧ r.PodInfo = podInfoInInput U m := by
  cases ha : fieldAfter "string" "NCID" m (IPConfigurationStatus.zero P).NCID with
  | error e =>
    unfold fieldAfter at ha
    simp [IPConfigurationStatus.UnmarshalJSON, JSON.unmarshalRawMap, ha] at h
  | ok a =>
    cases hb : fieldAfter "string" "ID" m (IPConfigurationStatus.zero P).ID with
    | error e =>
      unfold fieldAfter at ha hb
      simp [IPConfigurationStatus.UnmarshalJSON, JSON.unmarshalRawMap, ha, hb] at h
    | ok b =>
      cases hc : fieldAfter "string" "IPAddress" m (IPConfigurationStatus.zero P).IPAddress with
      | error e =>
        unfold fieldAfter at ha hb hc
        simp [IPConfigurationStatus.UnmarshalJSON, JSON.unmarshalRawMap, ha, hb, hc] at h
      | ok c =>
        cases hd : fieldAfter "cns.IPConfigState" "State" m
            (IPConfigurationStatus.zero P).State with
        | error e =>
          unfold fieldAfter at ha hb hc hd
          simp [IPConfigurationStatus.UnmarshalJSON, JSON.unmarshalRawMap, ha, hb, hc, hd] at h
        | ok d =>
          rw [unmarshalJSON_obj U _ m a b c d ha hb hc hd] at h
          have hstate : d = stateInInput m := by
            unfold fieldAfter at hd
            unfold stateInInput
            cases hs : JSON.rawMapGet "State" m with
            | none => simpa [hs, IPConfigurationStatus.zero] using hd.symm
            | some v =>
              rw [hs] at hd
              cases v <;>
                simp [JSON.unmarshalString, IPConfigurationStatus.zero] at hd <;>
                simp [hd]
          unfold podInfoInInput
          cases hp : JSON.rawMapGet "PodInfo" m with
          | none =>
            simp only [hp, Prod.mk.injEq, true_and] at h
            subst h
            exact ⟨hstate, rfl⟩
          | some raw =>
            simp only [hp] at h
            cases hu : U raw with
            | error e => simp [hu] at h
            | ok pi =>
              simp only [hu, Prod.mk.injEq, true_and] at h
              subst h
              exact ⟨hstate, by simp [hu]⟩

/-- C19, as stated, fails: `UnmarshalJSON` decodes `{"State": "Allocated"}` from a
    zero-valued receiver without error into a record in state `Allocated` with
    nil PodInfo, and `{"PodInfo": "default/pod-a"}` into a record with a PodInfo
    whose state is empty. -/
theorem unmarshalJSON_allocated_without_podInfo :
    IPConfigurationStatus.UnmarshalJSON keyUnmarshalPodInfo (IPConfigurationStatus.zero String)
        (.ok (JSON.obj [("State", JSON.str "Allocated")]))
      = (none, { NCID := "", ID := "", IPAddress := "", State := Allocated, PodInfo := none })
    ∧ ¬ IPConfigurationStatus.allocatedIffPodInfo
        ({ NCID := "", ID := "", IPAddress := "", State := Allocated, PodInfo := none } :
          IPConfigurationStatus String)
    ∧ IPConfigurationStatus.UnmarshalJSON keyUnmarshalPodInfo (IPConfigurationStatus.zero String)
        (.ok (JSON.obj [("PodInfo", JSON.str "default/pod-a")]))
      = (none, { NCID := "", ID := "", IPAddress := "", State := "",
                 PodInfo := some "default/pod-a" })
    ∧ ¬ IPConfigurationStatus.allocatedIffPodInfo
        ({ NCID := "", ID := "", IPAddress := "", State := "",
           PodInfo := some "default/pod-a" } : IPConfigurationStatus String) := by
  refine ⟨rfl, ?_, rfl, ?_⟩
  · simp [IPConfigurationStatus.allocatedIffPodInfo]
  · simp only [IPConfigurationStatus.allocatedIffPodInfo, Allocated]
    decide

/-- C19, amended. `UnmarshalJSON` neither checks nor establishes the invariant
    `State = Allocated` iff PodInfo is not empty: a record it produces without
    error from a zero-valued receiver and a JSON object has as `State` the
    string the object gives and as `PodInfo` what `UnmarshalPodInfo` returns for
    the object's value, each independently of the other, so the record satisfies
    the invariant exactly when the state and the pod information of the input do. -/
theorem unmarshalJSON_invariant_iff_input {P : Type}
    (U : JSON → Except GoError (Option P)) (m : List (String × JSON))
    (r : IPConfigurationStatus P)
    (h : IPConfigurationStatus.UnmarshalJSON U (IPConfigurationStatus.zero P)
      (.ok (JSON.obj m)) = (none, r)) :
    r.State = stateInInput m
    ∧ r.PodInfo = podInfoInInput U m
    ∧ (r.allocatedIffPodInfo ↔ (stateInInput m = Allocated ↔ podInfoInInput U m ≠ none)) := by
  obtain ⟨h1, h2⟩ := unmarshalJSON_zero_ok U m r h
  refine ⟨h1, h2, ?_⟩
  unfold IPConfigurationStatus.allocatedIffPodInfo
  rw [h1, h2]

/-- Witness of the amended C19: the encoding of an allocated record with a PodInfo
    decodes to a record that satisfies the invariant, as the input does. -/
theorem unmarshalJSON_invariant_iff_input_witness :
    IPConfigurationStatus.allocatedIffPodInfo
      ({ NCID := "nc1", ID := "uuid-2", IPAddress := "10.0.0.5", State := Allocated,
         PodInfo := some "default/pod-a" } : IPConfigurationStatus String) :=
  (unmarshalJSON_invariant_iff_input keyUnmarshalPodInfo
    [("NCID", JSON.str "nc1"), ("ID", JSON.str "uuid-2"), ("IPAddress", JSON.str "10.0.0.5"),
     ("State", JSON.str "Allocated"), ("PodInfo", JSON.str "default/pod-a")]
    { NCID := "nc1", ID := "uuid-2", IPAddress := "10.0.0.5", State := Allocated,
      PodInfo := some "default/pod-a" } rfl).2.2.mpr
    (by simp [stateInInput, podInfoInInput, JSON.rawMapGet, keyUnmarshalPodInfo, Allocated])

/-- C20. The fifteen path constants of `api.go` are pairwise distinct and are
    exactly the fifteen paths spec 6.1 enumerates, in the same order; each begins
    with "/"; the version prefixes are `V1Prefix = "/v0.1"` and
    `V2Prefix = "/v0.2"`, the two the spec names. -/
theorem pathConstants_match_spec :
    pathConstants = specPaths
    ∧ pathConstants.length = 15
    ∧ pathConstants.Nodup
    ∧ (∀ p ∈ pathConstants, p.data.head? = some '/')
    ∧ V1Prefix = "/v0.1" ∧ V2Prefix = "/v0.2"
    ∧ [V1Prefix, V2Prefix] = specPrefixes := by
  decide

/-! ### The keys `UnmarshalJSON` reads and what an error leaves behind -/

/-- `UnmarshalJSON` on an object, step by step: the four string fields in the order
    of the source, each step returning its error with the fields stored so far,
    then the PodInfo dispatch. -/
theorem unmarshalJSON_steps {P : Type} (U : JSON → Except GoError (Option P))
    (i : IPConfigurationStatus P) (m : List (String × JSON)) :
    IPConfigurationStatus.UnmarshalJSON U i (.ok (JSON.obj m)) =
      match fieldAfter "string" "NCID" m i.NCID with
      | .error e => (some e, i)
      | .ok a =>
        match fieldAfter "string" "ID" m i.ID with
        | .error e => (some e, { i with NCID := a })
        | .ok b =>
          match fieldAfter "string" "IPAddress" m i.IPAddress with
          | .error e => (some e, { i with NCID := a, ID := b })
          | .ok c =>
            match fieldAfter "cns.IPConfigState" "State" m i.State with
            | .error e => (some e, { i with NCID := a, ID := b, IPAddress := c })
            | .ok d =>
              match JSON.rawMapGet "PodInfo" m with
              | some s =>
                match U s with
                | .error e =>
                  (some e, { i with NCID := a, ID := b, IPAddress := c, State := d })
                | .ok pi =>
                  (none, { NCID := a, ID := b, IPAddress := c, State := d, PodInfo := pi })
              | none => (none, { i with NCID := a, ID := b, IPAddress := c, State := d }) := by
  rfl

/-- A field whose key is absent from the raw map is left as it is. -/
theorem fieldAfter_absent (goType key : String) (m : List (String × JSON)) (x : GoString)
    (h : JSON.rawMapGet key m = none) : fieldAfter goType key m x = .ok x := by
  simp [fieldAfter, h]

/-- Members that are dropped do not change the lookup of a key that is kept. -/
theorem rawMapGet_filter (key : String) (p : String → Bool) (hp : p key = true)
    (m : List (String × JSON)) :
    JSON.rawMapGet key (m.filter (fun e => p e.1)) = JSON.rawMapGet key m := by
  induction m with
  | nil => rfl
  | cons e rest ih =>
    obtain ⟨k, v⟩ := e
    by_cases hk : p k = true
    · simp only [List.filter_cons, hk, if_true, JSON.rawMapGet, ih]
    · have hne : k ≠ key := by
        intro h
        exact hk (h ▸ hp)
      simp only [List.filter_cons, hk, Bool.false_eq_true, if_false, JSON.rawMapGet, ih, hne]
      cases JSON.rawMapGet key rest <;> rfl

/-- A key that no member carries is absent from the raw map. -/
theorem rawMapGet_none_of_not_mem (key : String) (m : List (String × JSON))
    (h : ∀ e ∈ m, e.1 ≠ key) : JSON.rawMapGet key m = none := by
  induction m with
  | nil => rfl
  | cons e rest ih =>
    obtain ⟨k, v⟩ := e
    have hk : k ≠ key := h (k, v) (by simp)
    simp [JSON.rawMapGet, ih (fun e he => h e (by simp [he])), hk]

/-- The result of `UnmarshalJSON` on an object depends on the object only through
    the lookups of the five keys. -/
theorem unmarshalJSON_congr {P : Type} (U : JSON → Except GoError (Option P))
    (i : IPConfigurationStatus P) (m m2 : List (String × JSON))
    (h : ∀ key ∈ unmarshalKeys, JSON.rawMapGet key m2 = JSON.rawMapGet key m) :
    IPConfigurationStatus.UnmarshalJSON U i (.ok (JSON.obj m2))
      = IPConfigurationStatus.UnmarshalJSON U i (.ok (JSON.obj m)) := by
  rw [unmarshalJSON_steps, unmarshalJSON_steps]
  unfold fieldAfter
  rw [h "NCID" (by decide), h "ID" (by decide), h "IPAddress" (by decide),
    h "State" (by decide), h "PodInfo" (by decide)]

/-- C23. `UnmarshalJSON` reads only the five exact keys "NCID", "ID", "IPAddress",
    "State" and "PodInfo". For every JSON object, and so for every one on which
    the call succeeds, a field whose exact key is absent keeps the value the
    receiver had; the result is the same for any two objects that agree on the
    five keys, so members with other keys can be dropped or added without
    effect; and an object none of whose keys is one of the five, such as one
    spelling a key "ncid", leaves the receiver as it is and gives no error. -/
theorem unmarshalJSON_reads_five_keys {P : Type} (U : JSON → Except GoError (Option P))
    (i : IPConfigurationStatus P) (m : List (String × JSON)) :
    (JSON.rawMapGet "NCID" m = none →
      (IPConfigurationStatus.UnmarshalJSON U i (.ok (JSON.obj m))).2.NCID = i.NCID)
    ∧ (JSON.rawMapGet "ID" m = none →
      (IPConfigurationStatus.UnmarshalJSON U i (.ok (JSON.obj m))).2.ID = i.ID)
    ∧ (JSON.rawMapGet "IPAddress" m = none →
      (IPConfigurationStatus.UnmarshalJSON U i (.ok (JSON.obj m))).2.IPAddress = i.IPAddress)
    ∧ (JSON.rawMapGet "State" m = none →
      (IPConfigurationStatus.UnmarshalJSON U i (.ok (JSON.obj m))).2.State = i.State)
    ∧ (JSON.rawMapGet "PodInfo" m = none →
      (IPConfigurationStatus.UnmarshalJSON U i (.ok (JSON.obj m))).2.PodInfo = i.PodInfo)
    ∧ (∀ m2 : List (String × JSON),
        (∀ key ∈ unmarshalKeys, JSON.rawMapGet key m2 = JSON.rawMapGet key m) →
        IPConfigurationStatus.UnmarshalJSON U i (.ok (JSON.obj m2))
          = IPConfigurationStatus.UnmarshalJSON U i (.ok (JSON.obj m)))
    ∧ IPConfigurationStatus.UnmarshalJSON U i
        (.ok (JSON.obj (m.filter (fun e => decide (e.1 ∈ unmarshalKeys)))))
        = IPConfigurationStatus.UnmarshalJSON U i (.ok (JSON.obj m))
    ∧ ((∀ e ∈ m, e.1 ∉ unmarshalKeys) →
        IPConfigurationStatus.UnmarshalJSON U i (.ok (JSON.obj m)) = (none, i)) := by
  refine ⟨?_, ?_, ?_, ?_, ?_, ?_, ?_, ?_⟩
  · intro hk
    rw [unmarshalJSON_steps, fieldAfter_absent _ _ _ _ hk]
    repeat' split
    all_goals first | rfl | simp_all
  · intro hk
    rw [unmarshalJSON_steps, fieldAfter_absent "string" "ID" _ _ hk]
    repeat' split
    all_goals first | rfl | simp_all
  · intro hk
    rw [unmarshalJSON_steps, fieldAfter_absent "string" "IPAddress" _ _ hk]
    repeat' split
    all_goals first | rfl | simp_all
  · intro hk
    rw [unmarshalJSON_steps, fieldAfter_absent "cns.IPConfigState" "State" _ _ hk]
    repeat' split
    all_goals first | rfl | simp_all
  · intro hk
    rw [unmarshalJSON_steps, hk]
    repeat' split
    all_goals first | rfl | simp_all
  · intro m2 h
    exact unmarshalJSON_congr U i m m2 h
  · apply unmarshalJSON_congr
    intro key hkey
    exact rawMapGet_filter key (fun k => decide (k ∈ unmarshalKeys)) (by simpa using hkey) m
  · intro hnone
    have hget : ∀ key ∈ unmarshalKeys, JSON.rawMapGet key m = none := by
      intro key hkey
      apply rawMapGet_none_of_not_mem
      intro e he heq
      exact hnone e he (heq ▸ hkey)
    rw [unmarshalJSON_steps, fieldAfter_absent _ _ _ _ (hget "NCID" (by decide)),
      fieldAfter_absent _ _ _ _ (hget "ID" (by decide)),
      fieldAfter_absent _ _ _ _ (hget "IPAddress" (by decide)),
      fieldAfter_absent _ _ _ _ (hget "State" (by decide)), hget "PodInfo" (by decide)]

/-- Witness of C23: an object that spells the keys "ncid" and "podInfo" and carries
    a key "Extra" leaves a receiver that holds values as it is; the same object
    with an "ID" member sets the ID and nothing else. -/
theorem unmarshalJSON_reads_five_keys_witness :
    IPConfigurationStatus.UnmarshalJSON keyUnmarshalPodInfo
        { NCID := "nc1", ID := "uuid-1", IPAddress := "10.0.0.4", State := Allocated,
          PodInfo := some "default/pod-a" }
        (.ok (JSON.obj [("ncid", JSON.str "nc2"), ("podInfo", JSON.arr []),
          ("Extra", JSON.num "1")]))
      = (none, { NCID := "nc1", ID := "uuid-1", IPAddress := "10.0.0.4", State := Allocated,
                 PodInfo := some "default/pod-a" })
    ∧ (IPConfigurationStatus.UnmarshalJSON keyUnmarshalPodInfo
        { NCID := "nc1", ID := "uuid-1", IPAddress := "10.0.0.4", State := Allocated,
          PodInfo := some "default/pod-a" }
        (.ok (JSON.obj [("ncid", JSON.str "nc2"), ("ID", JSON.str "uuid-2"),
          ("Extra", JSON.num "1")]))).2.NCID = "nc1" :=
  ⟨(unmarshalJSON_reads_five_keys keyUnmarshalPodInfo
      { NCID := "nc1", ID := "uuid-1", IPAddress := "10.0.0.4", State := Allocated,
        PodInfo := some "default/pod-a" }
      [("ncid", JSON.str "nc2"), ("podInfo", JSON.arr []), ("Extra", JSON.num "1")]).2.2.2.2.2.2.2
      (by decide),
   (unmarshalJSON_reads_five_keys keyUnmarshalPodInfo
      { NCID := "nc1", ID := "uuid-1", IPAddress := "10.0.0.4", State := Allocated,
        PodInfo := some "default/pod-a" }
      [("ncid", JSON.str "nc2"), ("ID", JSON.str "uuid-2"), ("Extra", JSON.num "1")]).1 rfl⟩

/-- C24, as stated, fails in its last part: the input below is a JSON object, the
    call returns an error (the value of "NCID" is a number), and the receiver is
    left entirely unchanged, the "ID" member of the input notwithstanding: the
    first key looked up is the one that fails. -/
theorem unmarshalJSON_error_on_object_without_change :
    IPConfigurationStatus.UnmarshalJSON keyUnmarshalPodInfo
        { NCID := "nc1", ID := "uuid-1", IPAddress := "10.0.0.4", State := Available,
          PodInfo := none }
        (.ok (JSON.obj [("NCID", JSON.num "5"), ("ID", JSON.str "uuid-2")]))
      = (some (JSON.typeError (JSON.num "5") "string"),
         { NCID := "nc1", ID := "uuid-1", IPAddress := "10.0.0.4", State := Available,
           PodInfo := none }) := by
  rfl

/-- C24, amended. `UnmarshalJSON` is not atomic on error. When the input is not a
    JSON object (a syntax error, or a value that is not an object) the receiver
    is left entirely unchanged, and a syntax error is the error returned. On an
    object the keys are decoded in the order NCID, ID, IPAddress, State, PodInfo,
    `fieldAfter` being the lookup and decoding of one string field: when the
    value of a key fails to decode, the call returns that error, the fields of
    the keys before it hold what their decoding gave (the new value when the key
    is present with a string) and the failing field and those after it are as
    before. So the receiver is also unchanged when it is the first key, "NCID",
    that fails. -/
theorem unmarshalJSON_error_keeps_earlier_fields {P : Type}
    (U : JSON → Except GoError (Option P)) (i : IPConfigurationStatus P)
    (b : Except GoError JSON) (m : List (String × JSON)) :
    ((∀ members, b ≠ .ok (JSON.obj members)) →
      (IPConfigurationStatus.UnmarshalJSON U i b).2 = i)
    ∧ (∀ e, b = .error e → IPConfigurationStatus.UnmarshalJSON U i b = (some e, i))
    ∧ (∀ e, fieldAfter "string" "NCID" m i.NCID = .error e →
        IPConfigurationStatus.UnmarshalJSON U i (.ok (JSON.obj m)) = (some e, i))
    ∧ (∀ a e, fieldAfter "string" "NCID" m i.NCID = .ok a →
        fieldAfter "string" "ID" m i.ID = .error e →
        IPConfigurationStatus.UnmarshalJSON U i (.ok (JSON.obj m))
          = (some e, { i with NCID := a }))
    ∧ (∀ a b2 e, fieldAfter "string" "NCID" m i.NCID = .ok a →
        fieldAfter "string" "ID" m i.ID = .ok b2 →
        fieldAfter "string" "IPAddress" m i.IPAddress = .error e →
        IPConfigurationStatus.UnmarshalJSON U i (.ok (JSON.obj m))
          = (some e, { i with NCID := a, ID := b2 }))
    ∧ (∀ a b2 c e, fieldAfter "string" "NCID" m i.NCID = .ok a →
        fieldAfter "string" "ID" m i.ID = .ok b2 →
        fieldAfter "string" "IPAddress" m i.IPAddress = .ok c →
        fieldAfter "cns.IPConfigState" "State" m i.State = .error e →
        IPConfigurationStatus.UnmarshalJSON U i (.ok (JSON.obj m))
          = (some e, { i with NCID := a, ID := b2, IPAddress := c }))
    ∧ (∀ a b2 c d raw e, fieldAfter "string" "NCID" m i.NCID = .ok a →
        fieldAfter "string" "ID" m i.ID = .ok b2 →
        fieldAfter "string" "IPAddress" m i.IPAddress = .ok c →
        fieldAfter "cns.IPConfigState" "State" m i.State = .ok d →
        JSON.rawMapGet "PodInfo" m = some raw → U raw = .error e →
        IPConfigurationStatus.UnmarshalJSON U i (.ok (JSON.obj m))
          = (some e, { i with NCID := a, ID := b2, IPAddress := c, State := d })) := by
  refine ⟨?_, ?_, ?_, ?_, ?_, ?_, ?_⟩
  · intro hb
    cases b with
    | error e => rfl
    | ok v =>
      cases v with
      | obj members => exact absurd rfl (hb members)
      | null => rfl
      | bool _ => rfl
      | num _ => rfl
      | str _ => rfl
      | arr _ => rfl
  · intro e he
    subst he
    rfl
  · intro e h1
    rw [unmarshalJSON_steps, h1]
  · intro a e h1 h2
    rw [unmarshalJSON_steps, h1, h2]
  · intro a b2 e h1 h2 h3
    rw [unmarshalJSON_steps, h1, h2, h3]
  · intro a b2 c e h1 h2 h3 h4
    rw [unmarshalJSON_steps, h1, h2, h3, h4]
  · intro a b2 c d raw e h1 h2 h3 h4 h5 h6
    rw [unmarshalJSON_steps, h1, h2, h3, h4, h5]
    simp only [h6]

/-- Witness of the amended C24: the value of "PodInfo" is malformed for the sample
    decoder; its error comes back while NCID and ID already hold the values of
    the input, and IPAddress, State and PodInfo are as before. -/
theorem unmarshalJSON_error_keeps_earlier_fields_witness :
    IPConfigurationStatus.UnmarshalJSON keyUnmarshalPodInfo
        { NCID := "nc1", ID := "uuid-1", IPAddress := "10.0.0.4", State := Available,
          PodInfo := none }
        (.ok (JSON.obj [("NCID", JSON.str "nc2"), ("ID", JSON.str "uuid-2"),
          ("PodInfo", JSON.arr [])]))
      = (some (JSON.typeError (JSON.arr []) "cns.PodInfo"),
         { NCID := "nc2", ID := "uuid-2", IPAddress := "10.0.0.4", State := Available,
           PodInfo := none }) :=
  (unmarshalJSON_error_keeps_earlier_fields keyUnmarshalPodInfo
    { NCID := "nc1", ID := "uuid-1", IPAddress := "10.0.0.4", State := Available,
      PodInfo := none }
    (.ok (JSON.obj [("NCID", JSON.str "nc2"), ("ID", JSON.str "uuid-2"),
      ("PodInfo", JSON.arr [])]))
    [("NCID", JSON.str "nc2"), ("ID", JSON.str "uuid-2"), ("PodInfo", JSON.arr [])]).2.2.2.2.2.2
    "nc2" "uuid-2" "10.0.0.4" Available (JSON.arr []) _ rfl rfl rfl rfl rfl rfl

end cns

/-! ## network/hnswrapper/hnsv2wrapperfake.go -/

namespace hnswrapper

/-- Every call returns a nil error. -/
theorem call_err {Q : Type} (f : Hnsv2wrapperFake) (c : Call Q) : (f.call c).err = none := by
  cases c <;> rfl

/-- A history of calls leaves the wrapper as it is and returns nil errors only. -/
theorem run_spec {Q : Type} (f : Hnsv2wrapperFake) (history : List (Call Q)) :
    (f.run history).1 = f ∧ (f.run history).2 = history.map f.call := by
  induction history with
  | nil => exact ⟨rfl, rfl⟩
  | cons c rest ih =>
    simp only [Hnsv2wrapperFake.run, Hnsv2wrapperFake.afterCall, ih, List.map_cons, and_self]

/-- C26. `Hnsv2wrapperFake` is stateless and never fails. After every history of
    calls the wrapper is as before, and every call of the history returned a nil
    error, as every call does; `CreateNetwork` and `CreateEndpoint` return their
    argument unchanged; after every history, whether or not it created or
    deleted the object, `GetNetworkByID id` and `GetEndpointByID id` return an
    object whose `Id` is `id`, `ListEndpointsOfNetwork` returns the empty list,
    and `GetNamespaceByID` returns a namespace whose `NamespaceId` is 1000. -/
theorem fake_is_stateless_and_never_fails {Q : Type} (f : Hnsv2wrapperFake)
    (history : List (Call Q)) :
    (∀ c : Call Q, (f.call c).err = none)
    ∧ (f.run history).1 = f
    ∧ (f.run history).2.map Returned.err = List.replicate history.length none
    ∧ (∀ network, f.CreateNetwork network = (network, none))
    ∧ (∀ endpoint, f.CreateEndpoint endpoint = (endpoint, none))
    ∧ (∀ id, ∃ n, (f.run history).1.GetNetworkByID id = (some n, none) ∧ n.Id = id)
    ∧ (∀ id, ∃ e, (f.run history).1.GetEndpointByID id = (some e, none) ∧ e.Id = id)
    ∧ (∀ id, (f.run history).1.ListEndpointsOfNetwork id = ([], none))
    ∧ (∀ path, ∃ n, (f.run history).1.GetNamespaceByID path = (some n, none)
        ∧ n.NamespaceId = 1000) := by
  refine ⟨call_err f, (run_spec f history).1, ?_, fun _ => rfl, fun _ => rfl,
    fun id => ⟨_, rfl, rfl⟩, fun id => ⟨_, rfl, rfl⟩, fun _ => rfl, fun _ => ⟨_, rfl, rfl⟩⟩
  rw [(run_spec f history).2, List.map_map]
  induction history with
  | nil => rfl
  | cons c rest ih =>
    simp only [List.map_cons, Function.comp_apply, call_err, List.length_cons,
      List.replicate_succ, ih]

/-- C26 on a history: a network is created and deleted, and an endpoint that was
    never created is looked up; both lookups return an object with the id asked
    for, and no call fails. -/
theorem fake_is_stateless_and_never_fails_witness :
    ((Hnsv2wrapperFake.mk).run
        [Call.CreateNetwork (some { Id := "net-1", Name := "azure" }),
         Call.DeleteNetwork (some { Id := "net-1", Name := "azure" }),
         Call.ModifyNetworkSettings none ()]).2.map Returned.err = [none, none, none]
    ∧ (∃ n, ((Hnsv2wrapperFake.mk).run
        [Call.CreateNetwork (some { Id := "net-1", Name := "azure" }),
         Call.DeleteNetwork (some { Id := "net-1", Name := "azure" }),
         Call.ModifyNetworkSettings none ()]).1.GetNetworkByID "net-1" = (some n, none)
        ∧ n.Id = "net-1")
    ∧ (∃ e, ((Hnsv2wrapperFake.mk).run
        [Call.CreateNetwork (some { Id := "net-1", Name := "azure" }),
         Call.DeleteNetwork (some { Id := "net-1", Name := "azure" }),
         Call.ModifyNetworkSettings none ()]).1.GetEndpointByID "ep-9" = (some e, none)
        ∧ e.Id = "ep-9") :=
  have key := fake_is_stateless_and_never_fails Hnsv2wrapperFake.mk
    [Call.CreateNetwork (some { Id := "net-1", Name := "azure" }),
     Call.DeleteNetwork (some { Id := "net-1", Name := "azure" }),
     Call.ModifyNetworkSettings none ()]
  ⟨key.2.2.1, key.2.2.2.2.2.1 "net-1", key.2.2.2.2.2.2.1 "ep-9"⟩

end hnswrapper
